import Mathlib

/-!
# BLE environment detection: feature aggregation pipeline

A shallow embedding of `environment_detection_on_nrf52840/src/main.cc` (the
second build, `environment_detection/src/main.cc`, has the same functions with
other capacities).  The global arrays of the program become maps from an index
to a cell, the global counters become fields of `State`, and every loop of the
source becomes a recursive function that follows the loop iteration by
iteration (the `fuel` argument is the number of iterations that remain).

Conventions.
* `int` cells are `Int`.  The tick counter `k_cycle_get_32()` is a 32-bit
  unsigned reading; storing it into an `int` cell and every `int` operation on
  stored ticks is reduced with `wrap32` (two's complement, 32 bit).
* A map gives every index its own cell, also an index outside the declared
  bounds of the array (`devices[150]`, `beacons_received[-1]`): a store through
  such an index is visible in the model as a store to a cell that is not part of
  the array.
* Strings are compared with `strcmp(..) == 0`, which is equality of `String`.
-/

namespace EnvDetect

/-! ## Constants of `main.cc` -/

/-- Capacity of the device registry (`#define MAX_DEVICES 150`). -/
def MAX_DEVICES : Nat := 150

/-- Capacity of one observation log (`#define MAX_BEACONS_RECEIVED 140`). -/
def MAX_BEACONS_RECEIVED : Nat := 140

/-- Capacity of the TxPower table (`#define MAX_DIFFERENT_TX_POWERS 30`). -/
def MAX_DIFFERENT_TX_POWERS : Nat := 30

/-- Capacity of the manufacturer packet length table. -/
def MAX_DIFFERENT_MAN_PACKET_LEN : Nat := 30

/-- Length of the known-services list (`#define MOST_COMMON_SERVICES_COUNT 23`). -/
def MOST_COMMON_SERVICES_COUNT : Nat := 23

/-- Width of one feature row (`#define DATA_LINE_LENGTH 46`). -/
def DATA_LINE_LENGTH : Nat := 46

/-- Size of the feature buffer (`#define DATA_LENGTH 230`). -/
def DATA_LENGTH : Nat := 230

/-- The constant list `most_common_services`, in the order of the source. -/
def most_common_services : List String :=
  ["0af0", "1802", "180f", "1812", "1826", "2222", "ec88", "fd5a",
   "fd6f", "fdd2", "fddf", "fe03", "fe07", "fe0f", "fe61", "fe9f",
   "fea0", "feb9", "febe", "fee0", "ff0d", "ffc0", "ffe0"]

/-- Advertising data type `BT_DATA_UUID16_SOME` of the Bluetooth headers. -/
def BT_DATA_UUID16_SOME : Nat := 2

/-- Advertising data type `BT_DATA_UUID16_ALL` of the Bluetooth headers. -/
def BT_DATA_UUID16_ALL : Nat := 3

/-- Advertising data type `BT_DATA_TX_POWER` of the Bluetooth headers. -/
def BT_DATA_TX_POWER : Nat := 10

/-- Advertising data type `BT_DATA_MANUFACTURER_DATA` of the Bluetooth headers. -/
def BT_DATA_MANUFACTURER_DATA : Nat := 255

/-! ## Machine arithmetic and array cells -/

/-- Two's complement reduction of an integer to the range of a 32-bit `int`. -/
def wrap32 (x : Int) : Int := (x + 2147483648) % 4294967296 - 2147483648

/-- The store `a[i] = v` on an array modelled as a map. -/
def setAt {ι α : Type} [DecidableEq ι] (a : ι → α) (i : ι) (v : α) : ι → α :=
  fun k => if k = i then v else a k

/-- A counted loop `for (i = 0; i < n; i++) body(i)` over a loop state. -/
def forLoop {σ : Type} (body : Nat → σ → σ) : Nat → σ → σ
  | 0, s => s
  | n + 1, s => body n (forLoop body n s)

/-! ## Program state -/

/-- The global variables of `main.cc` that the aggregation pipeline uses.
`beacons_received[d][i]` is the pair (signal strength, tick), a histogram row
`txPower[k]` is the pair (value, count). -/
structure State where
  device_count : Nat
  beacons_received : Int → Nat → Int × Int
  devices : Nat → String
  txPower : Nat → Int × Int
  manufacturer_data_len : Nat → Int × Int
  different_services : Nat
  services_count : Int
  services : Nat → String
  dev_services : Int → Nat → Bool
  old_device_count : Nat
  old_devices : Nat → String
  data_sample : Nat → Int

/-- The state at program start: every static variable is zero-initialised. -/
def State.init : State where
  device_count := 0
  beacons_received := fun _ _ => (0, 0)
  devices := fun _ => ""
  txPower := fun _ => (0, 0)
  manufacturer_data_len := fun _ => (0, 0)
  different_services := 0
  services_count := 0
  services := fun _ => ""
  dev_services := fun _ _ => false
  old_device_count := 0
  old_devices := fun _ => ""
  data_sample := fun _ => 0

/-- One element of an advertising payload as `bt_data_parse` hands it to the
callback: type tag, data length and the data bytes. -/
structure bt_data where
  type : Nat
  data_len : Nat
  data : List Nat

/-- One call of `scan_cb`: the device address already rendered by
`bt_addr_le_to_str`, the signal strength, the reading of `k_cycle_get_32()`
taken inside `addRssi`, and the elements of the advertising payload. -/
structure ScanEvent where
  addr : String
  rssi : Int
  cycles : Nat
  ad : List bt_data

/-! ## Device registry (`getIndex`, `addDevice`) -/

/-- The loop of `getIndex`: scan `devices[i..]`, return the first match or -1. -/
def getIndexLoop (devices : Nat → String) (addr : String) : Nat → Nat → Int
  | 0, _ => -1
  | fuel + 1, i =>
    if devices i = addr then (i : Int) else getIndexLoop devices addr fuel (i + 1)

/-- Index of a device address in the registry, -1 when absent (`getIndex`). -/
def getIndex (s : State) (addr : String) : Int :=
  getIndexLoop s.devices addr s.device_count 0

/-- Register a device (`addDevice`): the address is copied to
`devices[device_count]` first, the capacity test comes after the copy. -/
def addDevice (s : State) (addr : String) : State :=
  let s1 := { s with devices := setAt s.devices s.device_count addr }
  if s1.device_count < MAX_DEVICES then
    { s1 with device_count := s1.device_count + 1 }
  else s1

/-! ## Observation log (`addRssi`) -/

/-- The loop of `addRssi` on one row of `beacons_received`: the first slot
whose signal strength is 0 receives the observation, then the loop breaks. -/
def addRssiLoop (rssi : Int) (cycles : Nat) (row : Nat → Int × Int) :
    Nat → Nat → Nat → Int × Int
  | 0, _ => row
  | fuel + 1, i =>
    if (row i).1 = 0 then setAt row i (rssi, wrap32 (cycles : Int))
    else addRssiLoop rssi cycles row fuel (i + 1)

/-- Record an observation in the log of the device at `index` (`addRssi`);
`cycles` is the value returned by `k_cycle_get_32()`. -/
def addRssi (s : State) (rssi : Int) (index : Int) (cycles : Nat) : State :=
  let row := addRssiLoop rssi cycles (s.beacons_received index) MAX_BEACONS_RECEIVED 0
  { s with beacons_received := setAt s.beacons_received index row }

/-! ## Histogram tables (the TxPower and manufacturer branches of `eir_found`) -/

/-- The loop shared by both histogram branches of `eir_found`, over a table
of capacity given by the initial `fuel`: a bucket with the same value is
incremented, else the first bucket with count 0 is claimed. -/
def histLoop (v : Int) (table : Nat → Int × Int) : Nat → Nat → Nat → Int × Int
  | 0, _ => table
  | fuel + 1, i =>
    if (table i).1 = v then setAt table i ((table i).1, (table i).2 + 1)
    else if (table i).2 = 0 then setAt table i (v, (table i).2 + 1)
    else histLoop v table fuel (i + 1)

/-- Observe a value in a histogram table of capacity `K`. -/
def histogram_observe (K : Nat) (table : Nat → Int × Int) (v : Int) : Nat → Int × Int :=
  histLoop v table K 0

/-! ## Service table (the UUID branch of `eir_found`) -/

/-- One lower-case hexadecimal digit. -/
def hexDigit (n : Nat) : Char :=
  if n < 10 then Char.ofNat (48 + n) else Char.ofNat (87 + n)

/-- The library routine `bt_uuid_to_str` on a 16-bit UUID: four lower-case
hexadecimal digits (`"%04x"`). -/
def bt_uuid_to_str (val : Nat) : String :=
  String.mk [hexDigit (val / 4096 % 16), hexDigit (val / 256 % 16),
             hexDigit (val / 16 % 16), hexDigit (val % 16)]

/-- The loop `for (j = 0; j <= different_services; j++)` of `eir_found` for
the device at `idx`; `some` is a `return false` taken inside the loop, `none`
is the loop running to its end.  The loop has no bound on `j`: once the table
is full it accesses `services[23]` and `dev_services[idx][23]`.  Such an access
is kept under the index it is made with; for `dev_services`, declared
`bool [150][23]`, the storage of `dev_services[idx][23]` is that of the array
element `dev_services[idx + 1][0]` (see `cellOffset`), so after a store past the
row the state says nothing reliable about a read made with the other index. -/
def servicesLoop (idx : Int) (uuid_str : String) (s : State) : Nat → Nat → Option State
  | 0, _ => none
  | fuel + 1, j =>
    if s.services j = uuid_str then
      if !(s.dev_services idx j) then
        some { s with
          dev_services := setAt s.dev_services idx (setAt (s.dev_services idx) j true)
          services_count := s.services_count + 1 }
      else some s
    else if j = s.different_services then
      some { s with
        services := setAt s.services j uuid_str
        different_services := s.different_services + 1
        dev_services := setAt s.dev_services idx (setAt (s.dev_services idx) j true)
        services_count := s.services_count + 1 }
    else servicesLoop idx uuid_str s fuel (j + 1)

/-- The loop `for (i = 0; i < data_len; i += 2)` of `eir_found` over the
16-bit identifiers of one element; the result carries the return value. -/
def uuidLoop (addr : String) (d : bt_data) (s : State) : Nat → Nat → State × Bool
  | 0, _ => (s, true)
  | fuel + 1, i =>
    if i < d.data_len then
      let u16 := d.data.getD i 0 % 256 + 256 * (d.data.getD (i + 1) 0 % 256)
      match servicesLoop (getIndex s addr) (bt_uuid_to_str u16) s
          (s.different_services + 1) 0 with
      | some s1 => (s1, false)
      | none => uuidLoop addr d s fuel (i + 2)
    else (s, true)

/-- The callback `eir_found` on one payload element; `addr` is the address of
the advertising device.  The Boolean is the return value: `false` stops
`bt_data_parse`. -/
def eir_found (d : bt_data) (addr : String) (s : State) : State × Bool :=
  if d.type = BT_DATA_TX_POWER then
    let txp : Int := ((d.data.getD 0 0 % 256 : Nat) : Int)
    ({ s with txPower := histogram_observe MAX_DIFFERENT_TX_POWERS s.txPower txp }, true)
  else if d.type = BT_DATA_MANUFACTURER_DATA then
    let len : Int := ((d.data_len % 256 : Nat) : Int)
    let table := histogram_observe MAX_DIFFERENT_MAN_PACKET_LEN s.manufacturer_data_len len
    ({ s with manufacturer_data_len := table }, true)
  else if d.type = BT_DATA_UUID16_SOME ∨ d.type = BT_DATA_UUID16_ALL then
    if d.data_len % 2 ≠ 0 then (s, true)
    else uuidLoop addr d s d.data_len 0
  else (s, true)

/-- The library routine `bt_data_parse`: call the callback on the elements in
order until it returns `false`. -/
def bt_data_parse (addr : String) : List bt_data → State → State
  | [], s => s
  | d :: ds, s =>
    if (eir_found d addr s).2 then bt_data_parse addr ds (eir_found d addr s).1
    else (eir_found d addr s).1

/-! ## Scan callback -/

/-- The callback `scan_cb` for one received beacon. -/
def scan_cb (s : State) (ev : ScanEvent) : State :=
  let index := getIndex s ev.addr
  let s1 :=
    if index = -1 then
      let s2 := addDevice s ev.addr
      let ind := getIndex s2 ev.addr
      addRssi s2 ev.rssi ind ev.cycles
    else addRssi s ev.rssi index ev.cycles
  bt_data_parse ev.addr ev.ad s1

/-- A scan window: `scan_cb` on every received beacon, in order of arrival. -/
def scanAll (s : State) (evs : List ScanEvent) : State :=
  evs.foldl scan_cb s

/-! ## Window reset (`reset`) -/

/-- The body of the first loop of `reset` for device `i`: clear its log,
copy its address to `old_devices`, clear the address and its service row. -/
def resetDevice (i : Nat) (s : State) : State :=
  let log := forLoop (fun j row => setAt row j (0, 0)) MAX_BEACONS_RECEIVED
    (s.beacons_received (i : Int))
  let srv := forLoop (fun j row => setAt row j false) MOST_COMMON_SERVICES_COUNT
    (s.dev_services (i : Int))
  { s with
    beacons_received := setAt s.beacons_received (i : Int) log
    old_devices := setAt s.old_devices i (s.devices i)
    devices := setAt s.devices i ""
    dev_services := setAt s.dev_services (i : Int) srv }

/-- The function `reset`: snapshot the registry and clear the accumulators. -/
def reset (s : State) : State :=
  let s1 := forLoop resetDevice s.device_count s
  let s2 := { s1 with
    services := forLoop (fun i a => setAt a i "") MOST_COMMON_SERVICES_COUNT s1.services }
  let s3 := { s2 with
    txPower := forLoop (fun k a => setAt a k (0, 0)) MAX_DIFFERENT_TX_POWERS s2.txPower }
  let s4 := { s3 with
    manufacturer_data_len :=
      forLoop (fun k a => setAt a k (0, 0)) MAX_DIFFERENT_MAN_PACKET_LEN s3.manufacturer_data_len }
  { s4 with
    old_device_count := s4.device_count
    device_count := 0
    different_services := 0
    services_count := 0 }

/-! ## Feature buffer shift -/

/-- The loop `for (i = n - 1; i >= 0; i--) data_sample[i + 46] = data_sample[i]`. -/
def shiftLoop : Nat → (Nat → Int) → Nat → Int
  | 0, ds => ds
  | n + 1, ds => shiftLoop n (setAt ds (n + DATA_LINE_LENGTH) (ds n))

/-- Shift the four latest rows of the feature buffer back by one row. -/
def shift (s : State) : State :=
  { s with data_sample := shiftLoop (DATA_LINE_LENGTH * 4) s.data_sample }

/-! ## Window close: comparison with the previous scan -/

/-- The inner loop of both device comparisons, `for (l = 0; l < n; l++)`: a
match breaks; an iteration without match at `l == n - 1` increments the
counter `c`. -/
def diffLoop (x : String) (others : Nat → String) (n : Nat) : Nat → Nat → Int → Int
  | 0, _, c => c
  | fuel + 1, l, c =>
    if x = others l then c
    else diffLoop x others n fuel (l + 1) (if (l : Int) = (n : Int) - 1 then c + 1 else c)

/-- The value of `new_device_count` after the first comparison loop. -/
def new_device_count (s : State) : Int :=
  forLoop (fun k c => diffLoop (s.devices k) s.old_devices s.old_device_count
    s.old_device_count 0 c) s.device_count 0

/-- The value of `lost_device_count` after the second comparison loop. -/
def lost_device_count (s : State) : Int :=
  forLoop (fun k c => diffLoop (s.old_devices k) s.devices s.device_count
    s.device_count 0 c) s.old_device_count 0

/-! ## Window close: histogram statistics -/

/-- The local variables of the TxPower pass. -/
structure TxStats where
  txpower_count : Int
  txpower_avg : Int
  min_txpower : Int
  max_txpower : Int

/-- The body of the TxPower loop for bucket `k`. -/
def txPowerBody (table : Nat → Int × Int) (k : Nat) (a : TxStats) : TxStats :=
  if (table k).2 ≠ 0 then
    { txpower_count := a.txpower_count + (table k).2
      txpower_avg := a.txpower_avg + (table k).1 * (table k).2
      max_txpower := if (table k).1 > a.max_txpower then (table k).1 else a.max_txpower
      min_txpower := if (table k).1 < a.min_txpower then (table k).1 else a.min_txpower }
  else a

/-- The TxPower pass: count, average (divided when the count is not 0),
minimum seeded with 200 and maximum seeded with 0. -/
def txPowerStats (s : State) : TxStats :=
  let a := forLoop (txPowerBody s.txPower) MAX_DIFFERENT_TX_POWERS
    { txpower_count := 0, txpower_avg := 0, min_txpower := 200, max_txpower := 0 }
  if a.txpower_count ≠ 0 then
    { a with txpower_avg := Int.tdiv a.txpower_avg a.txpower_count }
  else a

/-- The local variables of the manufacturer packet length pass. -/
structure ManStats where
  man_packet_len_count : Int
  man_packet_len_avg : Int
  man_packet_len_sum : Int

/-- The body of the manufacturer packet length loop for bucket `k`. -/
def manBody (table : Nat → Int × Int) (k : Nat) (a : ManStats) : ManStats :=
  if (table k).2 ≠ 0 then
    { man_packet_len_count := a.man_packet_len_count + (table k).2
      man_packet_len_avg := a.man_packet_len_avg + (table k).1 * (table k).2
      man_packet_len_sum := a.man_packet_len_sum + (table k).1 }
  else a

/-- The manufacturer packet length pass; the division is guarded by
`man_packet_len_avg != 0`. -/
def manStats (s : State) : ManStats :=
  let a := forLoop (manBody s.manufacturer_data_len) MAX_DIFFERENT_MAN_PACKET_LEN
    { man_packet_len_count := 0, man_packet_len_avg := 0, man_packet_len_sum := 0 }
  if a.man_packet_len_avg ≠ 0 then
    { a with man_packet_len_avg := Int.tdiv a.man_packet_len_avg a.man_packet_len_count }
  else a

/-! ## Window close: signal strength and timing statistics -/

/-- The variables that the inner loop over one log updates: the global
`avg_received`, the sum `avg_r` (a `double` holding an exact integer sum), the
per-device extremes, the accumulated tick deltas and the loop counter `j`. -/
structure BeaconAcc where
  avg_received : Int
  avg_r : Int
  current_min_rssi : Int
  current_max_rssi : Int
  current_avg_bt_bc : Int
  j : Nat

/-- One iteration of the loop over a log that does not break: the slot `j`
updates the per-device extremes, the sum and, from the second slot on, the
accumulated tick deltas. -/
def beaconStep (row : Nat → Int × Int) (a : BeaconAcc) : BeaconAcc :=
  { avg_received := a.avg_received
    avg_r := a.avg_r + (row a.j).1
    current_min_rssi :=
      if (row a.j).1 < a.current_min_rssi then (row a.j).1 else a.current_min_rssi
    current_max_rssi :=
      if (row a.j).1 > a.current_max_rssi then (row a.j).1 else a.current_max_rssi
    current_avg_bt_bc :=
      if a.j > 0 then
        wrap32 (a.current_avg_bt_bc + ((row a.j).2 - (row (a.j - 1)).2))
      else a.current_avg_bt_bc
    j := a.j + 1 }

/-- The loop `for (j = 0; j < MAX_BEACONS_RECEIVED; j++)` over one log: a slot
with signal strength 0 adds `j` to `avg_received` and breaks. -/
def beaconLoop (row : Nat → Int × Int) : Nat → BeaconAcc → BeaconAcc
  | 0, a => a
  | fuel + 1, a =>
    if (row a.j).1 = 0 then { a with avg_received := a.avg_received + (a.j : Int) }
    else beaconLoop row fuel (beaconStep row a)

/-- The local variables of the signal strength pass of `main`. -/
structure RssiStats where
  avg_received : Int
  min_received : Int
  max_received : Int
  avg_avg_rssi : Int
  min_rssi : Int
  max_rssi : Int
  avg_rssi_difference : Int
  min_avg_rssi : Int
  max_avg_rssi : Int
  avg_avg_difference_between_beacons : Int
  avg_difference_first_last : Int

/-- The values of the local variables before the loop over the devices. -/
def RssiStats.seed : RssiStats where
  avg_received := 0
  min_received := (MAX_BEACONS_RECEIVED : Int)
  max_received := 0
  avg_avg_rssi := 0
  min_rssi := 0
  max_rssi := -100
  avg_rssi_difference := 0
  min_avg_rssi := 0
  max_avg_rssi := -100
  avg_avg_difference_between_beacons := 0
  avg_difference_first_last := 0

/-- The body of the loop over the devices for device `i`.  The source computes
`int current_avg = (avg_r / j)` on the `double` sum `avg_r`; the sum is an exact
integer, and the truncation of the quotient of two such values is the integer
quotient rounded toward zero, `Int.tdiv`, which is also the `/` of `int`. -/
def deviceBody (b : Int → Nat → Int × Int) (i : Nat) (r : RssiStats) : RssiStats :=
  let row := b (i : Int)
  let a := beaconLoop row MAX_BEACONS_RECEIVED
    { avg_received := r.avg_received, avg_r := 0, current_min_rssi := 0,
      current_max_rssi := -100, current_avg_bt_bc := 0, j := 0 }
  let j := a.j
  let r1 := { r with
    avg_received := a.avg_received
    min_received := if (j : Int) < r.min_received ∧ j ≠ 0 then (j : Int) else r.min_received
    max_received := if (j : Int) > r.max_received then (j : Int) else r.max_received
    avg_rssi_difference := r.avg_rssi_difference + (a.current_max_rssi - a.current_min_rssi) }
  let current_avg := Int.tdiv a.avg_r (j : Int)
  let r2 :=
    if j ≠ 0 then
      { r1 with
        avg_avg_rssi := r1.avg_avg_rssi + current_avg
        max_avg_rssi := if current_avg > r1.max_avg_rssi then current_avg else r1.max_avg_rssi
        min_avg_rssi := if current_avg < r1.min_avg_rssi then current_avg else r1.min_avg_rssi }
    else r1
  let r3 :=
    if j > 1 then
      { r2 with
        avg_avg_difference_between_beacons :=
          wrap32 (r2.avg_avg_difference_between_beacons
            + Int.tdiv a.current_avg_bt_bc ((j : Int) - 1))
        avg_difference_first_last :=
          wrap32 (r2.avg_difference_first_last + ((row (j - 1)).2 - (row 0).2)) }
    else r2
  { r3 with
    min_rssi := if a.current_min_rssi < r3.min_rssi then a.current_min_rssi else r3.min_rssi
    max_rssi := if a.current_max_rssi > r3.max_rssi then a.current_max_rssi else r3.max_rssi }

/-- The signal strength pass: the loop over the devices, then the divisions
by `device_count`, guarded by `device_count != 0`. -/
def rssiStats (s : State) : RssiStats :=
  let r := forLoop (deviceBody s.beacons_received) s.device_count RssiStats.seed
  if s.device_count ≠ 0 then
    { r with
      avg_received := Int.tdiv r.avg_received (s.device_count : Int)
      avg_avg_rssi := Int.tdiv r.avg_avg_rssi (s.device_count : Int)
      avg_rssi_difference := Int.tdiv r.avg_rssi_difference (s.device_count : Int)
      avg_avg_difference_between_beacons :=
        Int.tdiv r.avg_avg_difference_between_beacons (s.device_count : Int)
      avg_difference_first_last :=
        Int.tdiv r.avg_difference_first_last (s.device_count : Int) }
  else r

/-! ## Window close: known-service counts -/

/-- The loop over the devices that counts `dev_services[u][t]` into `s_count`. -/
def s_count (s : State) (t : Nat) : Int :=
  forLoop (fun u c => if s.dev_services (u : Int) t then c + 1 else c) s.device_count 0

/-- The loop `for (t = 0; t < different_services; t++)` for the known service
number `sIdx` with identifier `known`: a match stores the device count at
offset `23 + sIdx` and breaks; an iteration without match at
`t == different_services - 1` stores 0. -/
def knownLoop (s : State) (sIdx : Nat) (known : String) : Nat → Nat → (Nat → Int) → Nat → Int
  | 0, _, ds => ds
  | fuel + 1, t, ds =>
    if known = s.services t then setAt ds (23 + sIdx) (s_count s t)
    else
      knownLoop s sIdx known fuel (t + 1)
        (if (t : Int) = (s.different_services : Int) - 1 then setAt ds (23 + sIdx) 0 else ds)

/-- The loop over the known services that writes the tail of the row. -/
def knownServices (s : State) (ds : Nat → Int) : Nat → Int :=
  forLoop (fun sIdx d =>
    knownLoop s sIdx (most_common_services.getD sIdx "") s.different_services 0 d)
    MOST_COMMON_SERVICES_COUNT ds

/-! ## Window close: the row written to `data_sample` -/

/-- A sequence of stores `data_sample[i] = v`, in the given order. -/
def storeAll (ds : Nat → Int) (cells : List (Nat × Int)) : Nat → Int :=
  cells.foldl (fun d c => setAt d c.1 c.2) ds

/-- The processing of `main` after a scan has stopped: all features are
computed from the accumulators and stored to `data_sample[0..22]`, then the
known-service loop writes into `data_sample[23..45]`. -/
def processScan (s : State) : State :=
  let tx := txPowerStats s
  let man := manStats s
  let r := rssiStats s
  let ds := storeAll s.data_sample
    [(0, (s.device_count : Int)), (1, lost_device_count s), (2, new_device_count s),
     (3, (s.different_services : Int)), (4, s.services_count),
     (5, tx.txpower_count), (6, tx.txpower_avg), (7, tx.min_txpower), (8, tx.max_txpower),
     (9, man.man_packet_len_count), (10, man.man_packet_len_sum), (11, man.man_packet_len_avg),
     (12, r.avg_received), (13, r.min_received), (14, r.max_received),
     (15, r.avg_avg_rssi), (16, r.min_avg_rssi), (17, r.max_avg_rssi),
     (18, r.min_rssi), (19, r.max_rssi), (20, r.avg_rssi_difference),
     (21, r.avg_avg_difference_between_beacons), (22, r.avg_difference_first_last)]
  { s with data_sample := knownServices s ds }

/-- One iteration of the loop of `main`: `reset`, buffer shift, the scan with
its beacons, and the processing of the scan. -/
def mainIteration (s : State) (evs : List ScanEvent) : State :=
  processScan (scanAll (shift (reset s)) evs)

/-- Consecutive iterations of the loop of `main`, one list of beacons each. -/
def runWindows (s : State) (ws : List (List ScanEvent)) : State :=
  ws.foldl mainIteration s

/-! ## The loop of `main` and the call of the classifier -/

/-- Number of windows held in the feature buffer (`SCAN_COUNT`). -/
def SCAN_COUNT : Nat := 5

/-- Number of samples until the program terminates (`N_SAMPLES`). -/
def N_SAMPLES : Nat := 50

/-- The state of `main` together with the record of the classifier calls: the
values of the loop variable `r`, in order, at which `loop(&data_sample[0], ..)`
was called. -/
structure MainRun where
  state : State
  classified : List Nat

/-- One iteration of `for (r = 0; r < N_SAMPLES + SCAN_COUNT; r++)`: the window
with its beacons, then `if (r > SCAN_COUNT - 1)` the call of the classifier.
Both scan calls are taken to succeed, so the loop does not break. -/
def mainStep (windows : Nat → List ScanEvent) (r : Nat) (x : MainRun) : MainRun :=
  let s := mainIteration x.state (windows r)
  if (r : Int) > (SCAN_COUNT : Int) - 1 then
    { state := s, classified := x.classified ++ [r] }
  else { state := s, classified := x.classified }

/-- The loop of `main` from program start; `windows r` are the beacons received
in iteration `r`. -/
def mainRun (windows : Nat → List ScanEvent) : MainRun :=
  forLoop (mainStep windows) (N_SAMPLES + SCAN_COUNT) { state := State.init, classified := [] }

/-- The completed windows, counted from 1 since startup, at whose end the
buffer was handed to the classifier. -/
def classifiedWindows (x : MainRun) : List Nat :=
  x.classified.map (fun r => r + 1)

/-! ## Normalisation and class selection (`main_functions.cc`) -/

/-- Number of rows of the feature buffer (`DATA_ROWS`). -/
def DATA_ROWS : Nat := 5

/-- The `float` operations that `prepare_data` uses, kept abstract over the
type `F` of `float` values: the conversion of an `int` operand to `float`, the
subtraction, the division, and the comparison `x == 0`.  Each operation rounds
as its instance says; nothing is assumed about them. -/
structure FloatOps (F : Type) where
  ofInt : Int → F
  sub : F → F → F
  div : F → F → F
  isZero : F → Bool

/-- The function `prepare_data`.  The constant tables `mean_list` and
`std_list` are parameters, and so are the `float` operations: the stored value
is the C expression `(raw_data[..] - mean_list[i]) / std_list[i]` evaluated with
them, the `int` operand being converted first.  The result is the array
`prepared` after the call; `raw_data` is only read. -/
def prepare_data {F : Type} (ops : FloatOps F) (mean_list std_list : Nat → F)
    (raw_data : Nat → Int) (length rows : Nat) (prepared : Nat → F) : Nat → F :=
  forLoop (fun i p =>
    if !(ops.isZero (std_list i)) then
      forLoop (fun j q =>
        setAt q (length * j + i)
          (ops.div (ops.sub (ops.ofInt (raw_data (length * j + i))) (mean_list i))
            (std_list i))) rows p
    else p) length prepared

/-- The struct `classification`: index of the predicted environment and its
probability. -/
structure classification where
  index : Int
  probability : ℚ

/-- The function `loop` after the inference: `output` are the values of the
output tensor (`output->data.f[i]`), which the network computes from the
prepared buffer and which are a parameter here; the result is the
classification stored through `ptr`. -/
def loop (output : Nat → ℚ) (available_env_len : Nat) : classification :=
  forLoop (fun i c =>
    if output i > c.probability then { index := (i : Int), probability := output i } else c)
    available_env_len { index := -1, probability := 0 }

/-! ## The storage record (`data_str`) -/

/-- The constant `feature_names`: the first 24 column names of the header. -/
def feature_names : String :=
  "label, device_count, lost_devices, new_devices, different_services, services_count, txpower_count, tx_power_avg, min_txpower, max_txpower, man_packet_len_count, manufacturer_data_lengths_sum, manufacturer_data_len_avg, avg_received, min_received, max_received, avg_avg_rssi, min_avg_rssi, max_avg_rssi, min_rssi, max_rssi, avg_rssi_difference, avg_avg_difference_between_beacons, avg_difference_first_last"

/-- The content of `data_str` after the block "convert data sample to string"
of `main`: every `strcat` appends its argument, `sprintf(.., ", %d", v)` renders
a comma, a blank and the decimal digits of the `int` value `v`. -/
def dataRecord (current_env_str : String) (data_sample : Nat → Int) (time_points : Nat → Int) :
    String :=
  let names := forLoop (fun s str => (str ++ ", ") ++ most_common_services.getD s "")
    MOST_COMMON_SERVICES_COUNT ("" ++ feature_names)
  let head := ((((names ++ ", time_point_1") ++ ", time_point_2") ++ ", time_point_3") ++ "\n")
    ++ current_env_str
  forLoop (fun i str =>
    let str1 :=
      if i % DATA_LINE_LENGTH = 0 ∧ i ≠ 0 then
        (forLoop (fun j st =>
            st ++ (", " ++ toString (wrap32 (time_points (j + 1) - time_points 0))))
          3 str ++ "\n") ++ current_env_str
      else str
    str1 ++ (", " ++ toString (data_sample i))) DATA_LENGTH head

/-- The number of comma-separated columns of every line of a text, in order;
lines are separated by the newline character (code 10), columns by the comma
(code 44). -/
def columnCounts (s : String) : List Nat :=
  (s.toList.splitOn (Char.ofNat 10)).map (fun l => l.count (Char.ofNat 44) + 1)

/-! ## Notions used to state the properties -/

/-- The distinct elements of a list in the order of their first appearance. -/
def firstSeen {α : Type} [DecidableEq α] (l : List α) : List α :=
  l.foldl (fun acc x => if x ∈ acc then acc else acc ++ [x]) []

/-- Number of indices `k < n` whose identifier `a k` is absent from `b[0..m)`. -/
def absentCount (a : Nat → String) (n : Nat) (b : Nat → String) (m : Nat) : Nat :=
  (List.range n).countP (fun k => !(List.range m).any (fun l => decide (a k = b l)))

/-- Sum of the counts of the first `K` buckets of a histogram table. -/
def totalCount (K : Nat) (table : Nat → Int × Int) : Int :=
  ((List.range K).map (fun i => (table i).2)).sum

/-- A sequence of observations (signal strength, tick reading) recorded with
`addRssi` for the device at `index`, in order of arrival. -/
def recordAll (s : State) (index : Int) (obs : List (Int × Nat)) : State :=
  obs.foldl (fun st o => addRssi st o.1 index o.2) s

/-- Number of observations retained in a log: the slots before the first
slot with signal strength 0, at most `MAX_BEACONS_RECEIVED`. -/
def logLength (row : Nat → Int × Int) : Nat :=
  ((List.range MAX_BEACONS_RECEIVED).takeWhile (fun i => decide ((row i).1 ≠ 0))).length

/-- A beacon without advertising payload. -/
def beacon (addr : String) (rssi : Int) (cycles : Nat) : ScanEvent :=
  { addr := addr, rssi := rssi, cycles := cycles, ad := [] }

/-- The `i`-th of a family of pairwise distinct device addresses. -/
def deviceName (i : Nat) : String := String.mk (List.replicate (i + 1) 'd')

/-- One beacon from each of the first `n` addresses of `deviceName`. -/
def manyBeacons (n : Nat) : List ScanEvent :=
  (List.range n).map (fun i => beacon (deviceName i) (-50) i)

/-- A beacon whose payload is one complete list of 16-bit service identifiers. -/
def beaconWithServices (addr : String) (rssi : Int) (cycles : Nat) (bytes : List Nat) :
    ScanEvent :=
  { addr := addr, rssi := rssi, cycles := cycles,
    ad := [{ type := BT_DATA_UUID16_ALL, data_len := bytes.length, data := bytes }] }

/-- The beacons of one device that advertise `n` different 16-bit service
identifiers, one per beacon: the identifiers 1, 2, ..., `n`. -/
def serviceBeacons (n : Nat) : List ScanEvent :=
  (List.range n).map (fun i => beaconWithServices "A" (-50) i [i + 1, 0])

/-- The position of `dev_services[d][t]` in the storage of the array
`bool dev_services[MAX_DEVICES][MOST_COMMON_SERVICES_COUNT]`, counted in
elements from its start (C lays the rows out one after the other). -/
def cellOffset (d t : Nat) : Nat :=
  d * MOST_COMMON_SERVICES_COUNT + t

/-- A beacon whose payload is one TxPower element with the given byte. -/
def beaconWithTxPower (addr : String) (rssi : Int) (cycles : Nat) (byte : Nat) : ScanEvent :=
  { addr := addr, rssi := rssi, cycles := cycles,
    ad := [{ type := BT_DATA_TX_POWER, data_len := 1, data := [byte] }] }

/-- The content of a log slot that holds the observation `o`: the signal
strength and the tick reading converted to `int`. -/
def stored (o : Int × Nat) : Int × Int := (o.1, wrap32 (o.2 : Int))

/-- The bucket expected at position `i` of a histogram table after the values
`vs` were observed from a reset table: the `i`-th distinct value in order of
first appearance with the number of its observations, or an empty bucket. -/
def bucketOf (vs : List Int) (i : Nat) : Int × Int :=
  ((firstSeen vs).map (fun d => (d, (vs.count d : Int)))).getD i (0, 0)

/-- The registry holds exactly the list `L`: `device_count` is its length and
`devices[k]` is its `k`-th element. -/
def Registry (s : State) (L : List String) : Prop :=
  s.device_count = L.length ∧ ∀ k (hk : k < L.length), s.devices k = L[k]

/-- The differences between consecutive elements of a list of ticks. -/
def tickDeltas (ts : List Int) : List Int :=
  List.zipWith (fun a b => b - a) ts ts.tail

/-- The fields that the payload callback never writes are the same in `s1`
as in `s`. -/
def SameOutsidePayload (s s1 : State) : Prop :=
  s1.device_count = s.device_count ∧ s1.devices = s.devices ∧
  s1.beacons_received = s.beacons_received ∧
  s1.old_device_count = s.old_device_count ∧ s1.old_devices = s.old_devices ∧
  s1.data_sample = s.data_sample

/-- The fields that the service branch of the payload callback never writes
are the same in `s1` as in `s`. -/
def SameOutsideServices (s s1 : State) : Prop :=
  s1.device_count = s.device_count ∧ s1.devices = s.devices ∧
  s1.beacons_received = s.beacons_received ∧
  s1.txPower = s.txPower ∧ s1.manufacturer_data_len = s.manufacturer_data_len ∧
  s1.old_device_count = s.old_device_count ∧ s1.old_devices = s.old_devices ∧
  s1.data_sample = s.data_sample

/-- Sum of value times count over the populated buckets (count not 0) among
the first `K` buckets of a histogram table. -/
def weightedSum (K : Nat) (table : Nat → Int × Int) : Int :=
  (((List.range K).filter (fun k => decide ((table k).2 ≠ 0))).map
    (fun k => (table k).1 * (table k).2)).sum

/-- Number of device indices `u < device_count` with `dev_services[u][p]` true. -/
def devicesWith (s : State) (p : Nat) : Nat :=
  (List.range s.device_count).countP (fun (u : Nat) => s.dev_services (u : Int) p)

/-- The service table `services[0..different_services)` has no duplicate. -/
def ServicesNodup (s : State) : Prop :=
  ∀ i j, i < s.different_services → j < s.different_services →
    s.services i = s.services j → i = j

/-- The counts of both histogram tables are not negative. -/
def CountsNonneg (s : State) : Prop :=
  (∀ k, k < MAX_DIFFERENT_TX_POWERS → 0 ≤ (s.txPower k).2) ∧
  (∀ k, k < MAX_DIFFERENT_MAN_PACKET_LEN → 0 ≤ (s.manufacturer_data_len k).2)

/-! # Properties -/

set_option maxRecDepth 100000

/-! ## Window diff engine -/

/-- C1 (the code departs from the claim when one of the two sets is empty).
First window after start: one device is seen and the previous snapshot is
empty, so one current identifier is absent from the snapshot, but
`new_device_count` and the value stored at offset 2 are 0.  Second window: no
device is seen and the snapshot holds one identifier, so one snapshot
identifier is absent from the current window, but `lost_device_count` and the
value stored at offset 1 are 0. -/
theorem diff_counts_with_empty_side :
    (let s := scanAll (shift (reset State.init)) [beacon "A" (-50) 100]
     s.device_count = 1 ∧ s.old_device_count = 0 ∧
     absentCount s.devices s.device_count s.old_devices s.old_device_count = 1 ∧
     new_device_count s = 0 ∧ (processScan s).data_sample 2 = 0) ∧
    (let s := scanAll (shift (reset (mainIteration State.init [beacon "A" (-50) 100]))) []
     s.device_count = 0 ∧ s.old_device_count = 1 ∧
     absentCount s.old_devices s.old_device_count s.devices s.device_count = 1 ∧
     lost_device_count s = 0 ∧ (processScan s).data_sample 1 = 0) := by
  decide

/-! ## Known-service tail -/

/-- C2 (the code departs from the claim when no service was seen).  Window 1:
one device advertises the known service `0af0` (number 0 of the list), the row
gets 1 at offset 23.  Window 2: no device and no service is seen, yet offset 23
of the new row still holds the 1 of the previous row, because the loop over an
empty service table stores nothing. -/
theorem known_service_tail_stale :
    (let s1 := mainIteration State.init [beaconWithServices "A" (-50) 100 [240, 10]]
     let s2 := mainIteration s1 []
     s1.data_sample 23 = 1 ∧
     s2.device_count = 0 ∧ s2.different_services = 0 ∧ s2.data_sample 0 = 0 ∧
     s2.data_sample 23 = 1) := by
  decide

/-! ## Array cells and counted loops -/

theorem setAt_same {ι α : Type} [DecidableEq ι] (a : ι → α) (i : ι) (v : α) :
    setAt a i v i = v := by
  simp [setAt]

theorem setAt_other {ι α : Type} [DecidableEq ι] (a : ι → α) (i k : ι) (v : α)
    (h : k ≠ i) : setAt a i v k = a k := by
  simp [setAt, h]

/-- An invariant of the loop state that every iteration with index below the
bound preserves holds after the loop. -/
theorem forLoop_invariant {σ : Type} (P : σ → Prop) (body : Nat → σ → σ) (n : Nat) (x : σ)
    (h0 : P x) (hstep : ∀ i y, i < n → P y → P (body i y)) : P (forLoop body n x) := by
  induction n with
  | zero => exact h0
  | succ m ih =>
    show P (body m (forLoop body m x))
    exact hstep m _ (Nat.lt_succ_self m)
      (ih (fun i y hi hy => hstep i y (Nat.lt_succ_of_lt hi) hy))

/-! ## Histogram overflow -/

theorem histLoop_no_slot (v : Int) (table : Nat → Int × Int) :
    ∀ (fuel i : Nat),
      (∀ k, i ≤ k → k < i + fuel → (table k).2 ≠ 0 ∧ (table k).1 ≠ v) →
      histLoop v table fuel i = table := by
  intro fuel
  induction fuel with
  | zero => intro i _; rfl
  | succ f ih =>
    intro i h
    have hi := h i (Nat.le_refl i) (by omega)
    unfold histLoop
    rw [if_neg hi.2, if_neg hi.1]
    exact ih (i + 1) (fun k hk1 hk2 => h k (by omega) (by omega))

/-- C7.  When all `K` buckets of a table are populated (count > 0) with values
different from `v`, observing `v` leaves the table as it is: every bucket keeps
its value and its count, and the total count is unchanged. -/
theorem histogram_observe_full_table (K : Nat) (table : Nat → Int × Int) (v : Int)
    (h : ∀ i, i < K → 0 < (table i).2 ∧ (table i).1 ≠ v) :
    histogram_observe K table v = table ∧
    (∀ i, histogram_observe K table v i = table i) ∧
    totalCount K (histogram_observe K table v) = totalCount K table := by
  have e : histogram_observe K table v = table := by
    unfold histogram_observe
    apply histLoop_no_slot
    intro k _ hk
    have hk2 := h k (by omega)
    exact ⟨by omega, hk2.2⟩
  exact ⟨e, fun i => by rw [e], by rw [e]⟩

/-- Witness for C7: a full TxPower table holding the values 1..30 once each,
and the new value 0. -/
theorem histogram_observe_full_table_witness :
    (∀ i, i < MAX_DIFFERENT_TX_POWERS →
      0 < ((fun k : Nat => (((k : Int) + 1, 1) : Int × Int)) i).2 ∧
      ((fun k : Nat => (((k : Int) + 1, 1) : Int × Int)) i).1 ≠ 0) ∧
    histogram_observe MAX_DIFFERENT_TX_POWERS
      (fun k : Nat => (((k : Int) + 1, 1) : Int × Int)) 0
      = (fun k : Nat => (((k : Int) + 1, 1) : Int × Int)) :=
  ⟨fun i _ => ⟨by simp, by simp; omega⟩,
   (histogram_observe_full_table MAX_DIFFERENT_TX_POWERS
      (fun k : Nat => (((k : Int) + 1, 1) : Int × Int)) 0
      (fun i _ => ⟨by simp, by simp; omega⟩)).1⟩

/-! ## Fields that the scan leaves alone -/

theorem SameOutsidePayload.refl (s : State) : SameOutsidePayload s s :=
  ⟨rfl, rfl, rfl, rfl, rfl, rfl⟩

theorem SameOutsidePayload.trans {s s1 s2 : State} (h1 : SameOutsidePayload s s1)
    (h2 : SameOutsidePayload s1 s2) : SameOutsidePayload s s2 := by
  unfold SameOutsidePayload at h1 h2 ⊢
  refine ⟨?_, ?_, ?_, ?_, ?_, ?_⟩
  · rw [h2.1, h1.1]
  · rw [h2.2.1, h1.2.1]
  · rw [h2.2.2.1, h1.2.2.1]
  · rw [h2.2.2.2.1, h1.2.2.2.1]
  · rw [h2.2.2.2.2.1, h1.2.2.2.2.1]
  · rw [h2.2.2.2.2.2, h1.2.2.2.2.2]

theorem servicesLoop_same (idx : Int) (u : String) (s : State) :
    ∀ (fuel j : Nat) (s1 : State), servicesLoop idx u s fuel j = some s1 →
      SameOutsidePayload s s1 := by
  intro fuel
  induction fuel with
  | zero => intro j s1 h; simp [servicesLoop] at h
  | succ f ih =>
    intro j s1 h
    unfold servicesLoop at h
    split_ifs at h with h1 h2 h3
    · cases h; exact ⟨rfl, rfl, rfl, rfl, rfl, rfl⟩
    · cases h; exact SameOutsidePayload.refl s
    · cases h; exact ⟨rfl, rfl, rfl, rfl, rfl, rfl⟩
    · exact ih (j + 1) s1 h

theorem uuidLoop_same (addr : String) (d : bt_data) (s : State) :
    ∀ (fuel i : Nat), SameOutsidePayload s (uuidLoop addr d s fuel i).1 := by
  intro fuel
  induction fuel with
  | zero => intro i; exact SameOutsidePayload.refl s
  | succ f ih =>
    intro i
    unfold uuidLoop
    split_ifs with h1
    · simp only
      split
      · next s1 hs => exact servicesLoop_same _ _ s _ _ s1 hs
      · exact ih (i + 2)
    · exact SameOutsidePayload.refl s

theorem eir_found_same (d : bt_data) (addr : String) (s : State) :
    SameOutsidePayload s (eir_found d addr s).1 := by
  unfold eir_found
  split_ifs
  · exact ⟨rfl, rfl, rfl, rfl, rfl, rfl⟩
  · exact ⟨rfl, rfl, rfl, rfl, rfl, rfl⟩
  · exact SameOutsidePayload.refl s
  · exact uuidLoop_same addr d s _ _
  · exact SameOutsidePayload.refl s

theorem bt_data_parse_same (addr : String) :
    ∀ (ds : List bt_data) (s : State), SameOutsidePayload s (bt_data_parse addr ds s) := by
  intro ds
  induction ds with
  | nil => intro s; exact SameOutsidePayload.refl s
  | cons d ds ih =>
    intro s
    unfold bt_data_parse
    split_ifs
    · exact (eir_found_same d addr s).trans (ih _)
    · exact eir_found_same d addr s

theorem addDevice_data_sample (s : State) (addr : String) :
    (addDevice s addr).data_sample = s.data_sample := by
  unfold addDevice
  simp only
  split_ifs <;> rfl

theorem scan_cb_data_sample (s : State) (ev : ScanEvent) :
    (scan_cb s ev).data_sample = s.data_sample := by
  unfold scan_cb
  simp only
  rw [(bt_data_parse_same ev.addr ev.ad _).2.2.2.2.2]
  split_ifs
  · exact addDevice_data_sample s ev.addr
  · rfl

theorem scanAll_data_sample (evs : List ScanEvent) :
    ∀ s : State, (scanAll s evs).data_sample = s.data_sample := by
  induction evs with
  | nil => intro s; rfl
  | cons e es ih =>
    intro s
    show (scanAll (scan_cb s e) es).data_sample = s.data_sample
    rw [ih, scan_cb_data_sample]

theorem reset_data_sample (s : State) : (reset s).data_sample = s.data_sample := by
  unfold reset
  simp only
  refine forLoop_invariant (fun y => y.data_sample = s.data_sample) resetDevice
    s.device_count s rfl ?_
  intro i y _ hy
  exact hy

/-! ## Feature buffer shift -/

theorem shiftLoop_apply : ∀ (n : Nat) (ds : Nat → Int) (k : Nat),
    shiftLoop n ds k =
      if DATA_LINE_LENGTH ≤ k ∧ k < n + DATA_LINE_LENGTH then ds (k - DATA_LINE_LENGTH)
      else ds k := by
  intro n
  induction n with
  | zero =>
    intro ds k
    show ds k = _
    rw [if_neg (by omega)]
  | succ m ih =>
    intro ds k
    unfold shiftLoop
    rw [ih]
    unfold DATA_LINE_LENGTH
    by_cases h1 : 46 ≤ k ∧ k < m + 46
    · rw [if_pos h1, if_pos (by omega), setAt_other _ _ _ _ (by omega)]
    · rw [if_neg h1]
      by_cases h2 : k = m + 46
      · rw [if_pos (by omega), h2, setAt_same]
        congr 1
      · rw [if_neg (by omega), setAt_other _ _ _ _ h2]

theorem knownLoop_other (s : State) (sIdx : Nat) (known : String) :
    ∀ (fuel t : Nat) (ds : Nat → Int) (k : Nat), k ≠ 23 + sIdx →
      knownLoop s sIdx known fuel t ds k = ds k := by
  intro fuel
  induction fuel with
  | zero => intro t ds k _; rfl
  | succ f ih =>
    intro t ds k hk
    unfold knownLoop
    split_ifs with h1 h2
    · exact setAt_other _ _ _ _ hk
    · rw [ih _ _ _ hk]; exact setAt_other _ _ _ _ hk
    · exact ih _ _ _ hk

theorem knownServices_other (s : State) (ds : Nat → Int) (k : Nat)
    (hk : k < 23 ∨ 46 ≤ k) : knownServices s ds k = ds k := by
  unfold knownServices
  refine forLoop_invariant (fun d => d k = ds k)
    (fun sIdx d => knownLoop s sIdx (most_common_services.getD sIdx "") s.different_services 0 d)
    MOST_COMMON_SERVICES_COUNT ds rfl ?_
  intro i y hi hy
  have hi23 : i < 23 := hi
  have hne : k ≠ 23 + i := by omega
  show knownLoop s i _ _ _ y k = ds k
  rw [knownLoop_other s i _ _ _ _ _ hne]
  exact hy

theorem storeAll_other (cells : List (Nat × Int)) :
    ∀ (ds : Nat → Int) (k : Nat), (∀ c ∈ cells, c.1 ≠ k) → storeAll ds cells k = ds k := by
  induction cells with
  | nil => intro ds k _; rfl
  | cons c cs ih =>
    intro ds k h
    show storeAll (setAt ds c.1 c.2) cs k = ds k
    rw [ih _ _ (fun c1 hc1 => h c1 (List.mem_cons_of_mem _ hc1))]
    exact setAt_other _ _ _ _ (fun e => h c (List.mem_cons_self _ _) e.symm)

theorem processScan_high (s : State) (k : Nat) (hk : 46 ≤ k) :
    (processScan s).data_sample k = s.data_sample k := by
  unfold processScan
  simp only
  rw [knownServices_other _ _ _ (Or.inr hk)]
  apply storeAll_other
  intro c hc
  simp only [List.mem_cons, List.mem_singleton, List.not_mem_nil, or_false] at hc
  rcases hc with h | h | h | h | h | h | h | h | h | h | h | h | h | h | h | h | h | h | h | h | h | h | h <;>
    (rw [h]; simp only; omega)

theorem mainIteration_shift (s : State) (evs : List ScanEvent) (i : Nat) (hi : i < 184) :
    (mainIteration s evs).data_sample (i + 46) = s.data_sample i := by
  unfold mainIteration
  rw [processScan_high _ _ (by omega), scanAll_data_sample]
  show shiftLoop (DATA_LINE_LENGTH * 4) (reset s).data_sample (i + 46) = s.data_sample i
  rw [shiftLoop_apply, reset_data_sample]
  unfold DATA_LINE_LENGTH
  rw [if_pos ⟨by omega, by omega⟩]
  congr 1

/-- C8.  Each iteration of the loop of `main` moves `data_sample[0..184)` to
`data_sample[46..230)` (the old contents of positions 184..229 are lost) and the
row of the new window is written to positions below 46 only.  Consequently after
six iterations the buffer holds, at offsets 184, 138, 92 and 46, the rows that
stood at offset 0 after the 2nd, 3rd, 4th and 5th window; the row of the 6th
window stands at offset 0 and the row of the 1st window is no longer in the
buffer. -/
theorem feature_buffer_shift (s0 : State) (w1 w2 w3 w4 w5 w6 : List ScanEvent) :
    (∀ (s : State) (evs : List ScanEvent) (i : Nat), i < 184 →
      (mainIteration s evs).data_sample (i + 46) = s.data_sample i) ∧
    (∀ i, i < 46 →
      (runWindows s0 [w1, w2, w3, w4, w5, w6]).data_sample i
        = (mainIteration (runWindows s0 [w1, w2, w3, w4, w5]) w6).data_sample i ∧
      (runWindows s0 [w1, w2, w3, w4, w5, w6]).data_sample (184 + i)
        = (runWindows s0 [w1, w2]).data_sample i ∧
      (runWindows s0 [w1, w2, w3, w4, w5, w6]).data_sample (138 + i)
        = (runWindows s0 [w1, w2, w3]).data_sample i ∧
      (runWindows s0 [w1, w2, w3, w4, w5, w6]).data_sample (92 + i)
        = (runWindows s0 [w1, w2, w3, w4]).data_sample i ∧
      (runWindows s0 [w1, w2, w3, w4, w5, w6]).data_sample (46 + i)
        = (runWindows s0 [w1, w2, w3, w4, w5]).data_sample i) := by
  refine ⟨mainIteration_shift, ?_⟩
  intro i hi
  simp only [runWindows, List.foldl_cons, List.foldl_nil]
  refine ⟨trivial, ?_, ?_, ?_, ?_⟩
  · rw [show 184 + i = (138 + i) + 46 by omega, mainIteration_shift _ _ _ (by omega),
      show 138 + i = (92 + i) + 46 by omega, mainIteration_shift _ _ _ (by omega),
      show 92 + i = (46 + i) + 46 by omega, mainIteration_shift _ _ _ (by omega),
      show 46 + i = i + 46 by omega, mainIteration_shift _ _ _ (by omega)]
  · rw [show 138 + i = (92 + i) + 46 by omega, mainIteration_shift _ _ _ (by omega),
      show 92 + i = (46 + i) + 46 by omega, mainIteration_shift _ _ _ (by omega),
      show 46 + i = i + 46 by omega, mainIteration_shift _ _ _ (by omega)]
  · rw [show 92 + i = (46 + i) + 46 by omega, mainIteration_shift _ _ _ (by omega),
      show 46 + i = i + 46 by omega, mainIteration_shift _ _ _ (by omega)]
  · rw [show 46 + i = i + 46 by omega, mainIteration_shift _ _ _ (by omega)]

/-- Witness for C8: six windows from program start, the second one with one
beacon; offset 184 then holds the device count 1 of the second window. -/
theorem feature_buffer_shift_witness :
    (runWindows State.init [[], [beacon "A" (-50) 100], [], [], [], []]).data_sample (184 + 0)
      = (runWindows State.init [[], [beacon "A" (-50) 100]]).data_sample 0 ∧
    (runWindows State.init [[], [beacon "A" (-50) 100]]).data_sample 0 = 1 :=
  ⟨((feature_buffer_shift State.init [] [beacon "A" (-50) 100] [] [] [] []).2 0
      (by decide)).2.1, by decide⟩

/-! ## Observation log -/

theorem addRssiLoop_first_free (rssi : Int) (cycles : Nat) (row : Nat → Int × Int) (m : Nat)
    (hm : (row m).1 = 0) :
    ∀ (fuel i : Nat), i ≤ m → m < i + fuel → (∀ k, i ≤ k → k < m → (row k).1 ≠ 0) →
      addRssiLoop rssi cycles row fuel i = setAt row m (rssi, wrap32 (cycles : Int)) := by
  intro fuel
  induction fuel with
  | zero => intro i h1 h2 _; omega
  | succ f ih =>
    intro i h1 h2 h3
    unfold addRssiLoop
    by_cases hi : i = m
    · rw [hi, if_pos hm]
    · rw [if_neg (h3 i (Nat.le_refl i) (by omega))]
      exact ih (i + 1) (by omega) (by omega) (fun k hk1 hk2 => h3 k (by omega) hk2)

theorem addRssiLoop_no_free (rssi : Int) (cycles : Nat) (row : Nat → Int × Int) :
    ∀ (fuel i : Nat), (∀ k, i ≤ k → k < i + fuel → (row k).1 ≠ 0) →
      addRssiLoop rssi cycles row fuel i = row := by
  intro fuel
  induction fuel with
  | zero => intro i _; rfl
  | succ f ih =>
    intro i h
    unfold addRssiLoop
    rw [if_neg (h i (Nat.le_refl i) (by omega))]
    exact ih (i + 1) (fun k hk1 hk2 => h k (by omega) (by omega))

theorem recordAll_append (s : State) (index : Int) (obs : List (Int × Nat)) (o : Int × Nat) :
    recordAll s index (obs ++ [o]) = addRssi (recordAll s index obs) o.1 index o.2 := by
  simp [recordAll, List.foldl_append]

theorem recordAll_other_device (index d : Int) (hd : d ≠ index) (obs : List (Int × Nat)) :
    ∀ s : State, (recordAll s index obs).beacons_received d = s.beacons_received d := by
  induction obs with
  | nil => intro s; rfl
  | cons o os ih =>
    intro s
    show (recordAll (addRssi s o.1 index o.2) index os).beacons_received d = _
    rw [ih]
    exact setAt_other _ _ _ _ hd

theorem getD_stored_lt (obs : List (Int × Nat)) (k : Nat) (hk : k < obs.length) :
    (obs.map stored).getD k (0, 0) = stored (obs.get ⟨k, hk⟩) := by
  simp [List.getD_eq_getElem?_getD, List.getElem?_eq_getElem, hk]

theorem getD_stored_ge (obs : List (Int × Nat)) (k : Nat) (hk : obs.length ≤ k) :
    (obs.map stored).getD k (0, 0) = (0, 0) := by
  simp [List.getD_eq_getElem?_getD, List.getElem?_eq_none, hk]

/-- Invariant of the log: as long as every recorded signal strength is not 0,
the slots hold the observations in arrival order, followed by empty slots. -/
theorem recordAll_log (s : State) (index : Int)
    (hempty : ∀ i, i < MAX_BEACONS_RECEIVED → s.beacons_received index i = (0, 0))
    (obs : List (Int × Nat)) :
    (∀ o ∈ obs, o.1 ≠ 0) →
    ∀ i, i < MAX_BEACONS_RECEIVED →
      (recordAll s index obs).beacons_received index i = (obs.map stored).getD i (0, 0) := by
  induction obs using List.reverseRecOn with
  | nil =>
    intro _ i hi
    show s.beacons_received index i = _
    rw [hempty i hi]
    rfl
  | append_singleton os o ih =>
    intro hnz i hi
    have hnz1 : ∀ x ∈ os, x.1 ≠ 0 := fun x hx => hnz x (List.mem_append_left _ hx)
    have ho : o.1 ≠ 0 := hnz o (by simp)
    have ih1 := ih hnz1
    rw [recordAll_append]
    simp only [addRssi, setAt_same]
    have hnzslot : ∀ k, k < os.length → k < MAX_BEACONS_RECEIVED →
        ((recordAll s index os).beacons_received index k).1 ≠ 0 := by
      intro k hk hk2
      rw [ih1 k hk2, getD_stored_lt os k hk]
      exact hnz1 _ (List.get_mem _ _ _)
    by_cases hlen : os.length < MAX_BEACONS_RECEIVED
    · have hfree : ((recordAll s index os).beacons_received index os.length).1 = 0 := by
        rw [ih1 _ hlen, getD_stored_ge os _ (Nat.le_refl _)]
      rw [addRssiLoop_first_free _ _ _ os.length hfree _ 0 (Nat.zero_le _) (by omega)
        (fun k _ hk => hnzslot k hk (by omega))]
      by_cases hik : i = os.length
      · rw [hik, setAt_same]
        simp [List.getD_eq_getElem?_getD, stored]
      · rw [setAt_other _ _ _ _ hik, ih1 i hi]
        by_cases hlt : i < os.length
        · simp [List.getD_eq_getElem?_getD, List.getElem?_append_left, hlt]
        · rw [getD_stored_ge os i (by omega), getD_stored_ge (os ++ [o]) i (by simp; omega)]
    · rw [addRssiLoop_no_free _ _ _ _ 0 (fun k _ hk => hnzslot k (by omega) (by omega)), ih1 i hi]
      have hlt : i < os.length := by omega
      simp [List.getD_eq_getElem?_getD, List.getElem?_append_left, hlt]

/-- C5 (the claim as stated fails for a signal strength of 0).  Two
observations are recorded into an empty log, the first with signal strength 0:
the log then holds only the second one, in slot 0, so it does not contain both
observations in arrival order. -/
theorem observation_log_zero_strength_overwritten :
    (recordAll State.init 0 [(0, 7), (-50, 9)]).beacons_received 0 0 = (-50, 9) ∧
    (recordAll State.init 0 [(0, 7), (-50, 9)]).beacons_received 0 1 = (0, 0) ∧
    ¬ (∀ i, i < MAX_BEACONS_RECEIVED →
        (recordAll State.init 0 [(0, 7), (-50, 9)]).beacons_received 0 i
          = (([(0, 7), (-50, 9)].take MAX_BEACONS_RECEIVED).map stored).getD i (0, 0)) := by
  refine ⟨by decide, by decide, ?_⟩
  intro h
  exact absurd (h 0 (by decide)) (by decide)

/-- C5 (amended).  For every device index and every sequence of observations
whose signal strengths are all different from 0, recorded with `addRssi` into
the empty log of that device: the log afterwards holds exactly the first 140
observations of the sequence in arrival order (all of them when there are at
most 140), the slots after them are still empty, and no other log is changed. -/
theorem observation_log_retains_first (s : State) (index : Int) (obs : List (Int × Nat))
    (hempty : ∀ i, i < MAX_BEACONS_RECEIVED → s.beacons_received index i = (0, 0))
    (hnz : ∀ o ∈ obs, o.1 ≠ 0) :
    (∀ i, i < MAX_BEACONS_RECEIVED →
      (recordAll s index obs).beacons_received index i
        = ((obs.take MAX_BEACONS_RECEIVED).map stored).getD i (0, 0)) ∧
    (∀ d, d ≠ index → (recordAll s index obs).beacons_received d = s.beacons_received d) := by
  refine ⟨?_, fun d hd => recordAll_other_device index d hd obs s⟩
  intro i hi
  rw [recordAll_log s index hempty obs hnz i hi]
  simp [List.getD_eq_getElem?_getD, List.getElem?_take, hi]

/-- Witness for C5 (amended): 141 observations recorded for device 0 from the
initial state; the 140 slots of the log hold the first 140 of them. -/
theorem observation_log_retains_first_witness :
    (∀ i, i < MAX_BEACONS_RECEIVED → State.init.beacons_received 0 i = (0, 0)) ∧
    (∀ o ∈ List.replicate 141 ((-50 : Int), (5 : Nat)), o.1 ≠ 0) ∧
    (∀ i, i < MAX_BEACONS_RECEIVED →
      (recordAll State.init 0 (List.replicate 141 (-50, 5))).beacons_received 0 i
        = (((List.replicate 141 ((-50 : Int), (5 : Nat))).take MAX_BEACONS_RECEIVED).map
            stored).getD i (0, 0)) :=
  ⟨fun _ _ => rfl,
   fun o ho => by rw [List.eq_of_mem_replicate ho]; decide,
   (observation_log_retains_first State.init 0 (List.replicate 141 (-50, 5))
      (fun _ _ => rfl)
      (fun o ho => by rw [List.eq_of_mem_replicate ho]; decide)).1⟩

/-! ## Distinct elements in order of first appearance -/

theorem firstSeen_nil {α : Type} [DecidableEq α] : firstSeen ([] : List α) = [] := rfl

theorem firstSeen_append_singleton {α : Type} [DecidableEq α] (l : List α) (x : α) :
    firstSeen (l ++ [x]) = if x ∈ firstSeen l then firstSeen l else firstSeen l ++ [x] := by
  simp [firstSeen, List.foldl_append]

theorem mem_firstSeen {α : Type} [DecidableEq α] (l : List α) :
    ∀ a : α, a ∈ firstSeen l ↔ a ∈ l := by
  induction l using List.reverseRecOn with
  | nil => intro a; simp [firstSeen_nil]
  | append_singleton l x ih =>
    intro a
    rw [firstSeen_append_singleton]
    split_ifs with h
    · rw [ih x] at h
      rw [ih a, List.mem_append, List.mem_singleton]
      constructor
      · exact Or.inl
      · rintro (h1 | h1)
        · exact h1
        · rw [h1]; exact h
    · rw [List.mem_append, List.mem_append, ih a]

theorem nodup_firstSeen {α : Type} [DecidableEq α] (l : List α) : (firstSeen l).Nodup := by
  induction l using List.reverseRecOn with
  | nil => simp [firstSeen_nil]
  | append_singleton l x ih =>
    rw [firstSeen_append_singleton]
    split_ifs with h
    · exact ih
    · rw [List.nodup_append]
      refine ⟨ih, List.nodup_singleton x, ?_⟩
      intro a ha hb
      rw [List.mem_singleton] at hb
      exact h (hb ▸ ha)

theorem firstSeen_perm_dedup {α : Type} [DecidableEq α] (l : List α) :
    (firstSeen l).Perm l.dedup :=
  (List.perm_ext_iff_of_nodup (nodup_firstSeen l) (List.nodup_dedup l)).2
    (fun a => by rw [mem_firstSeen, List.mem_dedup])

theorem length_firstSeen {α : Type} [DecidableEq α] (l : List α) :
    (firstSeen l).length = l.dedup.length :=
  (firstSeen_perm_dedup l).length_eq

theorem length_firstSeen_le_append {α : Type} [DecidableEq α] (l m : List α) :
    (firstSeen l).length ≤ (firstSeen (l ++ m)).length := by
  induction m using List.reverseRecOn with
  | nil => simp
  | append_singleton m x ih =>
    rw [← List.append_assoc, firstSeen_append_singleton]
    split_ifs
    · exact ih
    · rw [List.length_append]; omega

theorem indexOf_firstSeen_append {α : Type} [DecidableEq α] (l m : List α) (a : α)
    (ha : a ∈ l) :
    List.indexOf a (firstSeen (l ++ m)) = List.indexOf a (firstSeen l) := by
  induction m using List.reverseRecOn with
  | nil => simp
  | append_singleton m x ih =>
    rw [← List.append_assoc, firstSeen_append_singleton]
    split_ifs
    · exact ih
    · rw [List.indexOf_append_of_mem ((mem_firstSeen _ _).2 (List.mem_append_left _ ha))]
      exact ih

/-! ## Histogram accounting -/

theorem histLoop_hit (v : Int) (table : Nat → Int × Int) (p : Nat) (hp : (table p).1 = v) :
    ∀ (fuel i : Nat), i ≤ p → p < i + fuel →
      (∀ k, i ≤ k → k < p → (table k).1 ≠ v ∧ (table k).2 ≠ 0) →
      histLoop v table fuel i = setAt table p ((table p).1, (table p).2 + 1) := by
  intro fuel
  induction fuel with
  | zero => intro i h1 h2 _; omega
  | succ f ih =>
    intro i h1 h2 h3
    unfold histLoop
    by_cases hi : i = p
    · rw [hi, if_pos hp]
    · have hk := h3 i (Nat.le_refl i) (by omega)
      rw [if_neg hk.1, if_neg hk.2]
      exact ih (i + 1) (by omega) (by omega) (fun k hk1 hk2 => h3 k (by omega) hk2)

theorem histLoop_claim (v : Int) (table : Nat → Int × Int) (p : Nat)
    (hp : table p = (0, 0)) :
    ∀ (fuel i : Nat), i ≤ p → p < i + fuel →
      (∀ k, i ≤ k → k < p → (table k).1 ≠ v ∧ (table k).2 ≠ 0) →
      histLoop v table fuel i = setAt table p (v, 1) := by
  intro fuel
  induction fuel with
  | zero => intro i h1 h2 _; omega
  | succ f ih =>
    intro i h1 h2 h3
    unfold histLoop
    by_cases hi : i = p
    · rw [hi]
      by_cases hv : (table p).1 = v
      · rw [if_pos hv]
        have hv0 : v = 0 := by rw [hp] at hv; exact hv.symm
        rw [hp, hv0]
        rfl
      · rw [if_neg hv, if_pos (by rw [hp])]
        rw [hp]
        rfl
    · have hk := h3 i (Nat.le_refl i) (by omega)
      rw [if_neg hk.1, if_neg hk.2]
      exact ih (i + 1) (by omega) (by omega) (fun k hk1 hk2 => h3 k (by omega) hk2)

theorem totalCount_succ (K : Nat) (table : Nat → Int × Int) :
    totalCount (K + 1) table = totalCount K table + (table K).2 := by
  simp [totalCount, List.range_succ]

theorem totalCount_congr (K : Nat) (t1 t2 : Nat → Int × Int)
    (h : ∀ i, i < K → t1 i = t2 i) : totalCount K t1 = totalCount K t2 := by
  induction K with
  | zero => rfl
  | succ n ih =>
    rw [totalCount_succ, totalCount_succ, ih (fun i hi => h i (by omega)), h n (by omega)]

theorem totalCount_setAt (K : Nat) (table : Nat → Int × Int) (p : Nat) (x : Int × Int)
    (hp : p < K) :
    totalCount K (setAt table p x) = totalCount K table - (table p).2 + x.2 := by
  induction K with
  | zero => omega
  | succ n ih =>
    rw [totalCount_succ, totalCount_succ]
    by_cases h : p = n
    · rw [h, setAt_same,
        totalCount_congr n (setAt table n x) table (fun i hi => setAt_other _ _ _ _ (by omega))]
      omega
    · rw [ih (by omega), setAt_other _ _ _ _ (fun e => h e.symm)]
      omega

theorem bucketOf_lt (vs : List Int) (k : Nat) (hk : k < (firstSeen vs).length) :
    bucketOf vs k = ((firstSeen vs)[k], (vs.count (firstSeen vs)[k] : Int)) := by
  simp [bucketOf, List.getD_eq_getElem?_getD, List.getElem?_eq_getElem, hk]

theorem bucketOf_ge (vs : List Int) (k : Nat) (hk : (firstSeen vs).length ≤ k) :
    bucketOf vs k = (0, 0) := by
  simp [bucketOf, List.getD_eq_getElem?_getD, List.getElem?_eq_none, hk]

theorem bucketOf_populated (vs : List Int) (k : Nat) (hk : k < (firstSeen vs).length) :
    0 < (bucketOf vs k).2 := by
  rw [bucketOf_lt vs k hk]
  have hmem : (firstSeen vs)[k] ∈ vs := (mem_firstSeen vs _).1 (List.getElem_mem _)
  have := List.count_pos_iff.2 hmem
  simp only
  omega

/-- Invariant of a histogram table: after the values `vs` (with at most `K`
distinct ones) were observed from a reset table, bucket `i` is `bucketOf vs i`
and the counts add up to the number of observations. -/
theorem histogram_invariant (K : Nat) (table0 : Nat → Int × Int)
    (hreset : ∀ i, i < K → table0 i = (0, 0)) (vs : List Int) :
    (firstSeen vs).length ≤ K →
    (∀ i, i < K → vs.foldl (histogram_observe K) table0 i = bucketOf vs i) ∧
    totalCount K (vs.foldl (histogram_observe K) table0) = (vs.length : Int) := by
  induction vs using List.reverseRecOn with
  | nil =>
    intro _
    refine ⟨fun i hi => ?_, ?_⟩
    · rw [bucketOf_ge [] i (by simp [firstSeen_nil])]
      exact hreset i hi
    · simp only [List.foldl_nil]
      rw [totalCount_congr K _ (fun _ => (0, 0)) (fun i hi => hreset i hi)]
      simp [totalCount]
  | append_singleton vs v ih =>
    intro hcap
    have hcap1 : (firstSeen vs).length ≤ K :=
      Nat.le_trans (length_firstSeen_le_append vs [v]) hcap
    obtain ⟨ihb, iht⟩ := ih hcap1
    rw [List.foldl_append]
    simp only [List.foldl_cons, List.foldl_nil]
    generalize vs.foldl (histogram_observe K) table0 = T at ihb iht
    have hbefore : ∀ k (hk : k < (firstSeen vs).length),
        (T k).1 = (firstSeen vs)[k] ∧ (T k).2 ≠ 0 := by
      intro k hk
      have h1 := bucketOf_populated vs k hk
      rw [ihb k (by omega)]
      refine ⟨by rw [bucketOf_lt vs k hk], by omega⟩
    by_cases hv : v ∈ firstSeen vs
    · obtain ⟨p, hp, hpv⟩ := List.getElem_of_mem hv
      have hTp : T p = (v, (vs.count v : Int)) := by
        rw [ihb p (by omega), bucketOf_lt vs p hp, hpv]
      have hstep : histogram_observe K T v = setAt T p ((T p).1, (T p).2 + 1) := by
        unfold histogram_observe
        apply histLoop_hit v T p (by rw [hTp]) K 0 (Nat.zero_le _) (by omega)
        intro k _ hk
        have hk2 := hbefore k (by omega)
        refine ⟨?_, hk2.2⟩
        rw [hk2.1]
        intro e
        have := (List.Nodup.getElem_inj_iff (nodup_firstSeen vs)).1 (e.trans hpv.symm)
        omega
      have hfs : firstSeen (vs ++ [v]) = firstSeen vs := by
        rw [firstSeen_append_singleton, if_pos hv]
      rw [hstep]
      refine ⟨fun i hi => ?_, ?_⟩
      · by_cases hip : i = p
        · rw [hip, setAt_same, hTp]
          have hp2 : p < (firstSeen (vs ++ [v])).length := by rw [hfs]; exact hp
          rw [bucketOf_lt _ p hp2]
          simp only [hfs, hpv, List.count_append, List.count_singleton_self]
          push_cast
          rfl
        · rw [setAt_other _ _ _ _ hip, ihb i hi]
          by_cases hil : i < (firstSeen vs).length
          · have hil2 : i < (firstSeen (vs ++ [v])).length := by rw [hfs]; exact hil
            rw [bucketOf_lt _ i hil, bucketOf_lt _ i hil2]
            have hne : (firstSeen vs)[i] ≠ v := by
              intro e
              have := (List.Nodup.getElem_inj_iff (nodup_firstSeen vs)).1 (e.trans hpv.symm)
              omega
            simp only [hfs, List.count_append]
            rw [List.count_singleton, if_neg (by simpa using hne.symm)]
            simp
          · rw [bucketOf_ge _ i (by omega), bucketOf_ge _ i (by rw [hfs]; omega)]
      · rw [totalCount_setAt K T p _ (by omega), iht]
        simp only [List.length_append, List.length_singleton]
        push_cast
        omega
    · have hfs : firstSeen (vs ++ [v]) = firstSeen vs ++ [v] := by
        rw [firstSeen_append_singleton, if_neg hv]
      have hlen : (firstSeen vs).length < K := by
        rw [hfs, List.length_append] at hcap
        simp only [List.length_singleton] at hcap
        omega
      have hTp : T (firstSeen vs).length = (0, 0) := by
        rw [ihb _ hlen, bucketOf_ge _ _ (Nat.le_refl _)]
      have hstep : histogram_observe K T v = setAt T (firstSeen vs).length (v, 1) := by
        unfold histogram_observe
        apply histLoop_claim v T _ hTp K 0 (Nat.zero_le _) (by omega)
        intro k _ hk
        have hk2 := hbefore k hk
        refine ⟨?_, hk2.2⟩
        rw [hk2.1]
        intro e
        exact hv (e ▸ List.getElem_mem _)
      have hvs : v ∉ vs := fun h => hv ((mem_firstSeen vs v).2 h)
      rw [hstep]
      refine ⟨fun i hi => ?_, ?_⟩
      · by_cases hip : i = (firstSeen vs).length
        · rw [hip, setAt_same]
          have hp2 : (firstSeen vs).length < (firstSeen (vs ++ [v])).length := by
            rw [hfs, List.length_append]; simp
          rw [bucketOf_lt _ _ hp2]
          simp only [hfs, List.getElem_concat_length, List.count_append,
            List.count_singleton_self, List.count_eq_zero_of_not_mem hvs]
          rfl
        · rw [setAt_other _ _ _ _ hip, ihb i hi]
          by_cases hil : i < (firstSeen vs).length
          · have hil2 : i < (firstSeen (vs ++ [v])).length := by
              rw [hfs, List.length_append]; omega
            rw [bucketOf_lt _ i hil, bucketOf_lt _ i hil2]
            have hne : (firstSeen vs)[i] ≠ v := fun e => hv (e ▸ List.getElem_mem _)
            simp only [hfs, List.getElem_append_left hil, List.count_append]
            rw [List.count_singleton, if_neg (by simpa using hne.symm)]
            simp
          · rw [bucketOf_ge _ i (by omega),
              bucketOf_ge _ i (by rw [hfs, List.length_append]; simp; omega)]
      · rw [totalCount_setAt K T _ _ hlen, iht, hTp]
        simp only [List.length_append, List.length_singleton]
        push_cast
        omega

/-- C6.  Starting from a reset table of capacity `K`, after the values `vs`
were observed one by one (each observation is the loop of the TxPower branch,
resp. the manufacturer branch, of `eir_found`), with at most `K` distinct
values among them: the bucket counts add up to the number of observations, and
every observed value has exactly one populated bucket, whose count is the number
of times the value was observed. -/
theorem histogram_total_count (K : Nat) (table0 : Nat → Int × Int) (vs : List Int)
    (hreset : ∀ i, i < K → table0 i = (0, 0))
    (hcap : vs.dedup.length ≤ K) :
    totalCount K (vs.foldl (histogram_observe K) table0) = (vs.length : Int) ∧
    (∀ v, v ∈ vs → ∃ i, i < K ∧
      vs.foldl (histogram_observe K) table0 i = (v, (vs.count v : Int)) ∧
      0 < (vs.foldl (histogram_observe K) table0 i).2 ∧
      ∀ k, k < K → 0 < (vs.foldl (histogram_observe K) table0 k).2 →
        (vs.foldl (histogram_observe K) table0 k).1 = v → k = i) ∧
    (∀ (s : State) (addr : String) (d : bt_data), d.type = BT_DATA_TX_POWER →
      (eir_found d addr s).1.txPower
        = histogram_observe MAX_DIFFERENT_TX_POWERS s.txPower
            ((d.data.getD 0 0 % 256 : Nat) : Int)) ∧
    (∀ (s : State) (addr : String) (d : bt_data), d.type = BT_DATA_MANUFACTURER_DATA →
      (eir_found d addr s).1.manufacturer_data_len
        = histogram_observe MAX_DIFFERENT_MAN_PACKET_LEN s.manufacturer_data_len
            ((d.data_len % 256 : Nat) : Int)) := by
  have hcap1 : (firstSeen vs).length ≤ K := by rw [length_firstSeen]; exact hcap
  obtain ⟨hb, ht⟩ := histogram_invariant K table0 hreset vs hcap1
  refine ⟨ht, ?_, ?_, ?_⟩
  · intro v hv
    obtain ⟨p, hp, hpv⟩ := List.getElem_of_mem ((mem_firstSeen vs v).2 hv)
    have hTp : vs.foldl (histogram_observe K) table0 p = (v, (vs.count v : Int)) := by
      rw [hb p (by omega), bucketOf_lt vs p hp, hpv]
    refine ⟨p, by omega, hTp, ?_, ?_⟩
    · rw [hb p (by omega)]
      exact bucketOf_populated vs p hp
    · intro k hk hpos hval
      rw [hb k hk] at hpos hval
      by_cases hkl : k < (firstSeen vs).length
      · rw [bucketOf_lt vs k hkl] at hval
        exact (List.Nodup.getElem_inj_iff (nodup_firstSeen vs)).1 (hval.trans hpv.symm)
      · rw [bucketOf_ge vs k (by omega)] at hpos
        exact absurd hpos (by decide)
  · intro s addr d hd
    unfold eir_found
    rw [if_pos hd]
  · intro s addr d hd
    unfold eir_found
    rw [if_neg (by rw [hd]; decide), if_pos hd]

/-- Witness for C6: the values 5, 7, 5 observed in a reset TxPower table. -/
theorem histogram_total_count_witness :
    (∀ i, i < MAX_DIFFERENT_TX_POWERS → State.init.txPower i = (0, 0)) ∧
    ([5, 7, 5] : List Int).dedup.length ≤ MAX_DIFFERENT_TX_POWERS ∧
    totalCount MAX_DIFFERENT_TX_POWERS
      (([5, 7, 5] : List Int).foldl (histogram_observe MAX_DIFFERENT_TX_POWERS)
        State.init.txPower) = 3 :=
  ⟨fun _ _ => rfl, by decide,
   (histogram_total_count MAX_DIFFERENT_TX_POWERS State.init.txPower [5, 7, 5]
      (fun _ _ => rfl) (by decide)).1⟩

/-! ## Device registry -/

theorem getIndexLoop_not_found (devices : Nat → String) (addr : String) :
    ∀ (fuel i : Nat), (∀ k, i ≤ k → k < i + fuel → devices k ≠ addr) →
      getIndexLoop devices addr fuel i = -1 := by
  intro fuel
  induction fuel with
  | zero => intro i _; rfl
  | succ f ih =>
    intro i h
    unfold getIndexLoop
    rw [if_neg (h i (Nat.le_refl i) (by omega))]
    exact ih (i + 1) (fun k hk1 hk2 => h k (by omega) (by omega))

theorem getIndexLoop_found (devices : Nat → String) (addr : String) (p : Nat)
    (hp : devices p = addr) :
    ∀ (fuel i : Nat), i ≤ p → p < i + fuel → (∀ k, i ≤ k → k < p → devices k ≠ addr) →
      getIndexLoop devices addr fuel i = (p : Int) := by
  intro fuel
  induction fuel with
  | zero => intro i h1 h2 _; omega
  | succ f ih =>
    intro i h1 h2 h3
    unfold getIndexLoop
    by_cases hi : i = p
    · rw [hi, if_pos hp]
    · rw [if_neg (h3 i (Nat.le_refl i) (by omega))]
      exact ih (i + 1) (by omega) (by omega) (fun k hk1 hk2 => h3 k (by omega) hk2)

theorem getIndex_of_registry (s : State) (L : List String) (hnd : L.Nodup)
    (hreg : Registry s L) :
    (∀ k (hk : k < L.length), getIndex s L[k] = (k : Int)) ∧
    (∀ a, a ∉ L → getIndex s a = -1) := by
  obtain ⟨hc, hd⟩ := hreg
  constructor
  · intro k hk
    unfold getIndex
    apply getIndexLoop_found s.devices L[k] k (hd k hk) _ 0 (Nat.zero_le _) (by omega)
    intro j _ hj
    rw [hd j (by omega)]
    intro e
    have := (List.Nodup.getElem_inj_iff hnd).1 e
    omega
  · intro a ha
    unfold getIndex
    apply getIndexLoop_not_found
    intro k _ hk
    rw [hd k (by omega)]
    intro e
    exact ha (e ▸ List.getElem_mem _)

theorem scan_cb_registry (s : State) (ev : ScanEvent) :
    (scan_cb s ev).device_count
      = (if getIndex s ev.addr = -1 then addDevice s ev.addr else s).device_count ∧
    (scan_cb s ev).devices
      = (if getIndex s ev.addr = -1 then addDevice s ev.addr else s).devices := by
  unfold scan_cb
  simp only
  have h := bt_data_parse_same ev.addr ev.ad
    (if getIndex s ev.addr = -1 then
      addRssi (addDevice s ev.addr) ev.rssi (getIndex (addDevice s ev.addr) ev.addr) ev.cycles
    else addRssi s ev.rssi (getIndex s ev.addr) ev.cycles)
  rw [h.1, h.2.1]
  split_ifs <;> exact ⟨rfl, rfl⟩

theorem scan_cb_keeps_registry (s : State) (ev : ScanEvent) (L : List String)
    (hnd : L.Nodup) (hreg : Registry s L)
    (hcap : ev.addr ∈ L ∨ L.length < MAX_DEVICES) :
    Registry (scan_cb s ev) (if ev.addr ∈ L then L else L ++ [ev.addr]) := by
  obtain ⟨h1, h2⟩ := scan_cb_registry s ev
  obtain ⟨hfound, hnot⟩ := getIndex_of_registry s L hnd hreg
  obtain ⟨hc, hd⟩ := hreg
  by_cases hmem : ev.addr ∈ L
  · obtain ⟨p, hp, hpv⟩ := List.getElem_of_mem hmem
    have hidx : getIndex s ev.addr ≠ -1 := by
      rw [← hpv, hfound p hp]
      omega
    rw [if_neg hidx] at h1 h2
    rw [if_pos hmem]
    exact ⟨h1.trans hc, fun k hk => by rw [h2]; exact hd k hk⟩
  · have hidx : getIndex s ev.addr = -1 := hnot _ hmem
    have hlt : s.device_count < MAX_DEVICES := by
      rcases hcap with h | h
      · exact absurd h hmem
      · omega
    rw [if_pos hidx] at h1 h2
    rw [if_neg hmem]
    have e1 : (addDevice s ev.addr).device_count = s.device_count + 1 := by
      unfold addDevice
      simp only
      rw [if_pos hlt]
    have e2 : (addDevice s ev.addr).devices = setAt s.devices s.device_count ev.addr := by
      unfold addDevice
      simp only
      rw [if_pos hlt]
    refine ⟨by rw [h1, e1, hc, List.length_append]; rfl, ?_⟩
    intro k hk
    rw [h2, e2]
    by_cases hkl : k < L.length
    · rw [setAt_other _ _ _ _ (by omega), List.getElem_append_left hkl]
      exact hd k hkl
    · have hk2 : k = L.length := by
        rw [List.length_append] at hk
        simp only [List.length_singleton] at hk
        omega
      subst hk2
      rw [hc, setAt_same, List.getElem_concat_length]
      rfl

theorem scanAll_append (s : State) (evs more : List ScanEvent) :
    scanAll s (evs ++ more) = scanAll (scanAll s evs) more := by
  simp [scanAll, List.foldl_append]

/-- Invariant of the registry over a scan: from an empty registry and with at
most `MAX_DEVICES` distinct addresses, the registry is the list of distinct
addresses in order of first appearance. -/
theorem scanAll_registry (s0 : State) (h0 : s0.device_count = 0) (evs : List ScanEvent) :
    (firstSeen (evs.map ScanEvent.addr)).length ≤ MAX_DEVICES →
    Registry (scanAll s0 evs) (firstSeen (evs.map ScanEvent.addr)) := by
  induction evs using List.reverseRecOn with
  | nil =>
    intro _
    exact ⟨h0, fun k hk => absurd hk (by simp [firstSeen_nil])⟩
  | append_singleton evs ev ih =>
    intro hcap
    rw [List.map_append, List.map_singleton] at hcap ⊢
    have hcap1 := Nat.le_trans (length_firstSeen_le_append (evs.map ScanEvent.addr) [ev.addr]) hcap
    rw [scanAll_append, firstSeen_append_singleton]
    show Registry (scan_cb (scanAll s0 evs) ev) _
    apply scan_cb_keeps_registry _ _ _ (nodup_firstSeen _) (ih hcap1)
    by_cases hmem : ev.addr ∈ firstSeen (evs.map ScanEvent.addr)
    · exact Or.inl hmem
    · right
      rw [firstSeen_append_singleton, if_neg hmem, List.length_append] at hcap
      simp only [List.length_singleton] at hcap
      omega

theorem registry_as_list (s : State) (L : List String) (hreg : Registry s L) :
    (List.range s.device_count).map s.devices = L := by
  obtain ⟨hc, hd⟩ := hreg
  apply List.ext_getElem
  · simp [hc]
  · intro k h1 h2
    simp only [List.getElem_map, List.getElem_range]
    exact hd k h2

/-- C3.  Starting from an empty registry, after `scan_cb` has processed a
sequence of beacons (`evs`, possibly followed by more beacons `later` of the same
window) with at most 150 distinct addresses in total: `devices[0..device_count)`
is exactly the list of distinct addresses of `evs` in order of first appearance,
which has no duplicates and the same members as the addresses of `evs`;
`getIndex` returns for every address seen its position in that list and -1 for
every other address; and the index of an address seen in `evs` is the same after
the later beacons have been processed. -/
theorem registry_first_seen_order (s0 : State) (evs later : List ScanEvent)
    (h0 : s0.device_count = 0)
    (hcap : ((evs ++ later).map ScanEvent.addr).dedup.length ≤ MAX_DEVICES) :
    (List.range (scanAll s0 evs).device_count).map (scanAll s0 evs).devices
      = firstSeen (evs.map ScanEvent.addr) ∧
    (firstSeen (evs.map ScanEvent.addr)).Nodup ∧
    (∀ a, a ∈ firstSeen (evs.map ScanEvent.addr) ↔ a ∈ evs.map ScanEvent.addr) ∧
    (∀ a, a ∈ evs.map ScanEvent.addr →
      getIndex (scanAll s0 evs) a
        = (List.indexOf a (firstSeen (evs.map ScanEvent.addr)) : Int)) ∧
    (∀ a, a ∉ evs.map ScanEvent.addr → getIndex (scanAll s0 evs) a = -1) ∧
    (∀ a, a ∈ evs.map ScanEvent.addr →
      getIndex (scanAll s0 (evs ++ later)) a = getIndex (scanAll s0 evs) a) := by
  have hcap2 : (firstSeen ((evs ++ later).map ScanEvent.addr)).length ≤ MAX_DEVICES := by
    rw [length_firstSeen]; exact hcap
  have hcap1 : (firstSeen (evs.map ScanEvent.addr)).length ≤ MAX_DEVICES := by
    rw [List.map_append] at hcap2
    exact Nat.le_trans (length_firstSeen_le_append _ _) hcap2
  have hreg1 := scanAll_registry s0 h0 evs hcap1
  have hreg2 := scanAll_registry s0 h0 (evs ++ later) hcap2
  have hidx : ∀ (s : State) (l : List String), Registry s (firstSeen l) →
      ∀ a, a ∈ l → getIndex s a = (List.indexOf a (firstSeen l) : Int) := by
    intro s l hreg a ha
    have hlt : List.indexOf a (firstSeen l) < (firstSeen l).length :=
      List.indexOf_lt_length.2 ((mem_firstSeen l a).2 ha)
    have h := (getIndex_of_registry s _ (nodup_firstSeen l) hreg).1 _ hlt
    rw [List.getElem_indexOf hlt] at h
    exact h
  refine ⟨registry_as_list _ _ hreg1, nodup_firstSeen _, mem_firstSeen _, hidx _ _ hreg1, ?_, ?_⟩
  · intro a ha
    exact (getIndex_of_registry _ _ (nodup_firstSeen _) hreg1).2 a
      (fun h => ha ((mem_firstSeen _ a).1 h))
  · intro a ha
    rw [hidx _ _ hreg2 a (by rw [List.map_append]; exact List.mem_append_left _ ha),
      hidx _ _ hreg1 a ha, List.map_append, indexOf_firstSeen_append _ _ a ha]

/-- Witness for C3: the beacons A, B, A followed later by C, from the initial
state; the registry is A, B and the index of B is 1. -/
theorem registry_first_seen_order_witness :
    State.init.device_count = 0 ∧
    (([beacon "A" (-50) 1, beacon "B" (-60) 2, beacon "A" (-55) 3] ++
        [beacon "C" (-70) 4]).map ScanEvent.addr).dedup.length ≤ MAX_DEVICES ∧
    (List.range (scanAll State.init
        [beacon "A" (-50) 1, beacon "B" (-60) 2, beacon "A" (-55) 3]).device_count).map
      (scanAll State.init [beacon "A" (-50) 1, beacon "B" (-60) 2, beacon "A" (-55) 3]).devices
      = firstSeen ([beacon "A" (-50) 1, beacon "B" (-60) 2, beacon "A" (-55) 3].map
          ScanEvent.addr) ∧
    firstSeen ([beacon "A" (-50) 1, beacon "B" (-60) 2, beacon "A" (-55) 3].map
          ScanEvent.addr) = ["A", "B"] ∧
    getIndex (scanAll State.init
        [beacon "A" (-50) 1, beacon "B" (-60) 2, beacon "A" (-55) 3]) "B" = 1 :=
  ⟨rfl, by decide,
   (registry_first_seen_order State.init
      [beacon "A" (-50) 1, beacon "B" (-60) 2, beacon "A" (-55) 3] [beacon "C" (-70) 4]
      rfl (by decide)).1,
   by decide, by decide⟩

/-! ## Registry at capacity -/

theorem firstSeen_of_nodup {α : Type} [DecidableEq α] (l : List α) :
    l.Nodup → firstSeen l = l := by
  induction l using List.reverseRecOn with
  | nil => intro _; rfl
  | append_singleton l x ih =>
    intro h
    rw [List.nodup_append] at h
    obtain ⟨h1, _, h3⟩ := h
    have hx : x ∉ l := fun hx => h3 hx (List.mem_singleton_self x)
    rw [firstSeen_append_singleton, ih h1, if_neg hx]

theorem deviceName_injective : Function.Injective deviceName := by
  intro i j h
  have h1 := congrArg (fun x : String => x.data.length) h
  simp [deviceName] at h1
  exact h1

theorem deviceName_ne_new (i : Nat) : deviceName i ≠ "new" := by
  intro h
  have h1 := congrArg (fun x : String => x.data.head?) h
  simp [deviceName, List.replicate_succ] at h1

theorem manyBeacons_addr (n : Nat) :
    (manyBeacons n).map ScanEvent.addr = (List.range n).map deviceName := by
  simp [manyBeacons, beacon, Function.comp_def]

theorem manyBeacons_registry (n : Nat) (hn : n ≤ MAX_DEVICES) :
    Registry (scanAll State.init (manyBeacons n)) ((List.range n).map deviceName) := by
  have hnd : ((List.range n).map deviceName).Nodup :=
    List.Nodup.map deviceName_injective (List.nodup_range n)
  have h := scanAll_registry State.init rfl (manyBeacons n)
  rw [manyBeacons_addr, firstSeen_of_nodup _ hnd] at h
  exact h (by simpa using hn)

/-- C4 (the code departs from the claim).  When the registry holds 150
addresses and a beacon arrives from an address that is not among them, the
beacon is not dropped: `addDevice` copies the address to `devices[150]`, one
element past the end of the array, before it tests the capacity; `getIndex`
then returns -1 and `addRssi` is called with index -1, so that its loop runs
over `beacons_received[-1]`, the memory in front of the array, and stores the
observation in the first cell there that reads 0. -/
theorem registry_full_out_of_bounds (s : State) (ev : ScanEvent)
    (hfull : s.device_count = MAX_DEVICES)
    (hnew : ∀ i, i < MAX_DEVICES → s.devices i ≠ ev.addr) :
    getIndex s ev.addr = -1 ∧
    (scan_cb s ev).devices MAX_DEVICES = ev.addr ∧
    getIndex (addDevice s ev.addr) ev.addr = -1 ∧
    (scan_cb s ev).beacons_received (-1)
      = addRssiLoop ev.rssi ev.cycles (s.beacons_received (-1)) MAX_BEACONS_RECEIVED 0 ∧
    ((s.beacons_received (-1) 0).1 = 0 →
      (scan_cb s ev).beacons_received (-1) 0 = (ev.rssi, wrap32 (ev.cycles : Int))) := by
  have hidx : getIndex s ev.addr = -1 := by
    unfold getIndex
    apply getIndexLoop_not_found
    intro k _ hk
    exact hnew k (by omega)
  have hadd : addDevice s ev.addr = { s with devices := setAt s.devices s.device_count ev.addr } := by
    unfold addDevice
    simp only
    rw [if_neg (by omega)]
  have hidx2 : getIndex (addDevice s ev.addr) ev.addr = -1 := by
    unfold getIndex
    apply getIndexLoop_not_found
    intro k _ hk
    rw [hadd] at hk ⊢
    simp only at hk ⊢
    rw [setAt_other _ _ _ _ (by omega)]
    exact hnew k (by omega)
  have hsame := bt_data_parse_same ev.addr ev.ad
    (addRssi (addDevice s ev.addr) ev.rssi (-1) ev.cycles)
  have hscan : scan_cb s ev
      = bt_data_parse ev.addr ev.ad (addRssi (addDevice s ev.addr) ev.rssi (-1) ev.cycles) := by
    unfold scan_cb
    simp only
    rw [if_pos hidx, hidx2]
  have hrow : (scan_cb s ev).beacons_received (-1)
      = addRssiLoop ev.rssi ev.cycles (s.beacons_received (-1)) MAX_BEACONS_RECEIVED 0 := by
    rw [hscan, hsame.2.2.1, hadd]
    simp only [addRssi, setAt_same]
  refine ⟨hidx, ?_, hidx2, hrow, ?_⟩
  · rw [hscan, hsame.2.1, hadd]
    simp only [addRssi]
    rw [hfull, setAt_same]
  · intro h0
    rw [hrow]
    unfold MAX_BEACONS_RECEIVED addRssiLoop
    rw [if_pos h0, setAt_same]

/-- Witness for C4: the state reached from program start by one beacon from
each of 150 distinct addresses, and then a beacon from a further address. -/
theorem registry_full_out_of_bounds_witness :
    (scanAll State.init (manyBeacons 150)).device_count = MAX_DEVICES ∧
    (∀ i, i < MAX_DEVICES →
      (scanAll State.init (manyBeacons 150)).devices i ≠ (beacon "new" (-50) 7).addr) ∧
    (scan_cb (scanAll State.init (manyBeacons 150)) (beacon "new" (-50) 7)).devices MAX_DEVICES
      = "new" :=
  have hreg := manyBeacons_registry 150 (by decide)
  have hcount : (scanAll State.init (manyBeacons 150)).device_count = MAX_DEVICES := by
    rw [hreg.1]; simp [MAX_DEVICES]
  have hnew : ∀ i, i < MAX_DEVICES →
      (scanAll State.init (manyBeacons 150)).devices i ≠ (beacon "new" (-50) 7).addr := by
    intro i hi
    have hi2 : i < ((List.range 150).map deviceName).length := by simpa [MAX_DEVICES] using hi
    rw [hreg.2 i hi2]
    simp only [List.getElem_map, List.getElem_range]
    exact deviceName_ne_new i
  ⟨hcount, hnew,
   (registry_full_out_of_bounds (scanAll State.init (manyBeacons 150)) (beacon "new" (-50) 7)
      hcount hnew).2.1⟩

/-! ## The loop over one observation log at window close -/

theorem beaconStep_iterate_j (row : Nat → Int × Int) (a : BeaconAcc) :
    ∀ n : Nat, ((beaconStep row)^[n] a).j = a.j + n := by
  intro n
  induction n with
  | zero => rfl
  | succ m ih =>
    rw [Function.iterate_succ_apply']
    show ((beaconStep row)^[m] a).j + 1 = a.j + (m + 1)
    rw [ih]
    omega

theorem beaconStep_iterate_avg_received (row : Nat → Int × Int) (a : BeaconAcc) :
    ∀ n : Nat, ((beaconStep row)^[n] a).avg_received = a.avg_received := by
  intro n
  induction n with
  | zero => rfl
  | succ m ih =>
    rw [Function.iterate_succ_apply']
    exact ih

/-- The loop breaks at the first slot with signal strength 0: if the slots
`a.j .. a.j + n - 1` are occupied and slot `a.j + n` is free, the result is the
state after `n` non-breaking iterations with `j` added to `avg_received`. -/
theorem beaconLoop_break (row : Nat → Int × Int) :
    ∀ (n fuel : Nat) (a : BeaconAcc), n < fuel →
      (∀ i, i < n → (row (a.j + i)).1 ≠ 0) → (row (a.j + n)).1 = 0 →
      beaconLoop row fuel a =
        { (beaconStep row)^[n] a with
          avg_received := a.avg_received + ((a.j + n : Nat) : Int) } := by
  intro n
  induction n with
  | zero =>
    intro fuel a hf _ h0
    obtain ⟨f, rfl⟩ : ∃ f, fuel = f + 1 := ⟨fuel - 1, by omega⟩
    unfold beaconLoop
    rw [if_pos (by simpa using h0)]
    rfl
  | succ m ih =>
    intro fuel a hf hnz h0
    obtain ⟨f, rfl⟩ : ∃ f, fuel = f + 1 := ⟨fuel - 1, by omega⟩
    unfold beaconLoop
    rw [if_neg (by simpa using hnz 0 (by omega))]
    have hj : (beaconStep row a).j = a.j + 1 := rfl
    rw [ih f (beaconStep row a) (by omega)
      (fun i hi => by rw [hj, show a.j + 1 + i = a.j + (i + 1) by omega]; exact hnz (i + 1) (by omega))
      (by rw [hj, show a.j + 1 + m = a.j + (m + 1) by omega]; exact h0)]
    rw [Function.iterate_succ_apply, hj, show a.j + 1 + m = a.j + (m + 1) by omega]
    rfl

/-- When all remaining slots are occupied the loop runs to its bound and
`avg_received` is not touched. -/
theorem beaconLoop_no_break (row : Nat → Int × Int) :
    ∀ (fuel : Nat) (a : BeaconAcc), (∀ i, i < fuel → (row (a.j + i)).1 ≠ 0) →
      beaconLoop row fuel a = (beaconStep row)^[fuel] a := by
  intro fuel
  induction fuel with
  | zero => intro a _; rfl
  | succ f ih =>
    intro a hnz
    unfold beaconLoop
    rw [if_neg (by simpa using hnz 0 (by omega))]
    have hj : (beaconStep row a).j = a.j + 1 := rfl
    rw [ih (beaconStep row a)
      (fun i hi => by rw [hj, show a.j + 1 + i = a.j + (i + 1) by omega]; exact hnz (i + 1) (by omega))]
    rw [Function.iterate_succ_apply]

/-! ## Reading the row written by `processScan` -/

theorem processScan_row (s : State) :
    (processScan s).data_sample 12 = (rssiStats s).avg_received ∧
    (processScan s).data_sample 13 = (rssiStats s).min_received ∧
    (processScan s).data_sample 14 = (rssiStats s).max_received ∧
    (processScan s).data_sample 15 = (rssiStats s).avg_avg_rssi ∧
    (processScan s).data_sample 18 = (rssiStats s).min_rssi ∧
    (processScan s).data_sample 19 = (rssiStats s).max_rssi ∧
    (processScan s).data_sample 21 = (rssiStats s).avg_avg_difference_between_beacons ∧
    (processScan s).data_sample 22 = (rssiStats s).avg_difference_first_last := by
  unfold processScan
  simp only
  refine ⟨?_, ?_, ?_, ?_, ?_, ?_, ?_, ?_⟩ <;>
    (rw [knownServices_other _ _ _ (Or.inl (by omega))]; simp [storeAll, setAt])

/-- After `k` non-breaking iterations from the start of a log: the sum of the
signal strengths, and the running minimum (seed 0) and maximum (seed -100) with
the slots that attain them. -/
theorem beaconStep_iterate_strength (row : Nat → Int × Int) (a0 : BeaconAcc)
    (h0 : a0.j = 0 ∧ a0.avg_r = 0 ∧ a0.current_min_rssi = 0 ∧ a0.current_max_rssi = -100) :
    ∀ k : Nat,
      ((beaconStep row)^[k] a0).avg_r = ((List.range k).map (fun i => (row i).1)).sum ∧
      ((beaconStep row)^[k] a0).current_min_rssi ≤ 0 ∧
      (∀ i, i < k → ((beaconStep row)^[k] a0).current_min_rssi ≤ (row i).1) ∧
      (((beaconStep row)^[k] a0).current_min_rssi = 0 ∨
        ∃ i, i < k ∧ (row i).1 = ((beaconStep row)^[k] a0).current_min_rssi) ∧
      -100 ≤ ((beaconStep row)^[k] a0).current_max_rssi ∧
      (∀ i, i < k → (row i).1 ≤ ((beaconStep row)^[k] a0).current_max_rssi) ∧
      (((beaconStep row)^[k] a0).current_max_rssi = -100 ∨
        ∃ i, i < k ∧ (row i).1 = ((beaconStep row)^[k] a0).current_max_rssi) := by
  obtain ⟨hj, hr, hmin, hmax⟩ := h0
  intro k
  induction k with
  | zero =>
    simp only [Function.iterate_zero, id_eq, List.range_zero, List.map_nil, List.sum_nil]
    refine ⟨hr, by omega, fun i hi => absurd hi (by omega), Or.inl hmin, by omega,
      fun i hi => absurd hi (by omega), Or.inl hmax⟩
  | succ m ih =>
    obtain ⟨i1, i2, i3, i4, i5, i6, i7⟩ := ih
    have hjm : ((beaconStep row)^[m] a0).j = m := by rw [beaconStep_iterate_j, hj]; omega
    rw [Function.iterate_succ_apply']
    generalize (beaconStep row)^[m] a0 = A at i1 i2 i3 i4 i5 i6 i7 hjm
    unfold beaconStep
    simp only [hjm]
    refine ⟨?_, ?_, ?_, ?_, ?_, ?_, ?_⟩
    · rw [List.range_succ, List.map_append, List.sum_append, i1]
      simp
    · split_ifs <;> omega
    · intro i hi
      by_cases him : i = m
      · rw [him]; split_ifs <;> omega
      · have := i3 i (by omega)
        split_ifs <;> omega
    · split_ifs with h
      · exact Or.inr ⟨m, by omega, rfl⟩
      · rcases i4 with h4 | ⟨i, hi, h4⟩
        · exact Or.inl h4
        · exact Or.inr ⟨i, by omega, h4⟩
    · split_ifs <;> omega
    · intro i hi
      by_cases him : i = m
      · rw [him]; split_ifs <;> omega
      · have := i6 i (by omega)
        split_ifs <;> omega
    · split_ifs with h
      · exact Or.inr ⟨m, by omega, rfl⟩
      · rcases i7 with h7 | ⟨i, hi, h7⟩
        · exact Or.inl h7
        · exact Or.inr ⟨i, by omega, h7⟩

theorem beaconStep_iterate_ticks (row : Nat → Int × Int) (a0 : BeaconAcc) (t : Nat → Int)
    (j : Nat) (h0 : a0.j = 0 ∧ a0.current_avg_bt_bc = 0)
    (ht : ∀ i, i < j → (row i).2 = wrap32 (t i))
    (hmono : ∀ i k, i ≤ k → k < j → t i ≤ t k)
    (hspan : t (j - 1) - t 0 < 2147483648) :
    ∀ k : Nat, k < j → ((beaconStep row)^[k + 1] a0).current_avg_bt_bc = t k - t 0 := by
  obtain ⟨hj, hb⟩ := h0
  intro k
  induction k with
  | zero =>
    intro _
    show (beaconStep row a0).current_avg_bt_bc = t 0 - t 0
    unfold beaconStep
    simp only [hj]
    rw [if_neg (by omega), hb]
    omega
  | succ m ih =>
    intro hk
    have ihm := ih (by omega)
    have hjm : ((beaconStep row)^[m + 1] a0).j = m + 1 := by
      rw [beaconStep_iterate_j, hj]; omega
    rw [Function.iterate_succ_apply']
    generalize (beaconStep row)^[m + 1] a0 = A at ihm hjm
    unfold beaconStep
    simp only [hjm]
    rw [if_pos (by omega), ihm, show m + 1 - 1 = m by omega, ht (m + 1) hk, ht m (by omega)]
    have h1 := hmono 0 m (by omega) (by omega)
    have h2 := hmono m (m + 1) (by omega) hk
    have h3 := hmono (m + 1) (j - 1) (by omega) (by omega)
    unfold wrap32
    omega

/-- The fields that `deviceBody` computes for device 0 from the seed values, in
terms of the accumulator `A` that the loop over its log returns. -/
theorem deviceBody_seed (b : Int → Nat → Int × Int) :
    let A := beaconLoop (b 0) MAX_BEACONS_RECEIVED
      { avg_received := 0, avg_r := 0, current_min_rssi := 0,
        current_max_rssi := -100, current_avg_bt_bc := 0, j := 0 }
    (deviceBody b 0 RssiStats.seed).avg_received = A.avg_received ∧
    (deviceBody b 0 RssiStats.seed).min_received
      = (if (A.j : Int) < 140 ∧ A.j ≠ 0 then (A.j : Int) else 140) ∧
    (deviceBody b 0 RssiStats.seed).max_received
      = (if (A.j : Int) > 0 then (A.j : Int) else 0) ∧
    (deviceBody b 0 RssiStats.seed).avg_avg_rssi
      = (if A.j ≠ 0 then 0 + Int.tdiv A.avg_r (A.j : Int) else 0) ∧
    (deviceBody b 0 RssiStats.seed).min_rssi
      = (if A.current_min_rssi < 0 then A.current_min_rssi else 0) ∧
    (deviceBody b 0 RssiStats.seed).max_rssi
      = (if A.current_max_rssi > -100 then A.current_max_rssi else -100) ∧
    (deviceBody b 0 RssiStats.seed).avg_avg_difference_between_beacons
      = (if A.j > 1 then wrap32 (0 + Int.tdiv A.current_avg_bt_bc ((A.j : Int) - 1)) else 0) ∧
    (deviceBody b 0 RssiStats.seed).avg_difference_first_last
      = (if A.j > 1 then wrap32 (0 + ((b 0 (A.j - 1)).2 - (b 0 0).2)) else 0) := by
  intro A
  have hA : beaconLoop (b ((0 : Nat) : Int)) MAX_BEACONS_RECEIVED
      { avg_received := RssiStats.seed.avg_received, avg_r := 0, current_min_rssi := 0,
        current_max_rssi := -100, current_avg_bt_bc := 0, j := 0 } = A := rfl
  unfold deviceBody
  simp only [hA]
  generalize A = A1
  by_cases h0 : A1.j ≠ 0 <;> by_cases h1 : A1.j > 1 <;>
    simp only [h0, h1, if_true, if_false, RssiStats.seed, MAX_BEACONS_RECEIVED, Nat.cast_ofNat,
      Nat.cast_zero, ne_eq, not_false_eq_true, not_true_eq_false, and_true, and_false]

theorem rssiStats_single (s : State) (h : s.device_count = 1) :
    rssiStats s =
      { deviceBody s.beacons_received 0 RssiStats.seed with
        avg_received := Int.tdiv (deviceBody s.beacons_received 0 RssiStats.seed).avg_received 1
        avg_avg_rssi := Int.tdiv (deviceBody s.beacons_received 0 RssiStats.seed).avg_avg_rssi 1
        avg_rssi_difference :=
          Int.tdiv (deviceBody s.beacons_received 0 RssiStats.seed).avg_rssi_difference 1
        avg_avg_difference_between_beacons :=
          Int.tdiv (deviceBody s.beacons_received 0
            RssiStats.seed).avg_avg_difference_between_beacons 1
        avg_difference_first_last :=
          Int.tdiv (deviceBody s.beacons_received 0 RssiStats.seed).avg_difference_first_last 1 } := by
  unfold rssiStats
  simp only [h]
  rw [if_pos (by decide)]
  rfl

theorem tickDeltas_sum (a : Int) (r : List Int) :
    (tickDeltas (a :: r)).sum = (a :: r).getD r.length 0 - a := by
  induction r generalizing a with
  | nil => simp [tickDeltas]
  | cons b r ih =>
    have h := ih b
    simp only [tickDeltas, List.tail_cons, List.zipWith_cons_cons, List.sum_cons,
      List.length_cons, List.getD_cons_succ] at h ⊢
    rw [h]
    omega

theorem wrap32_of_small (x : Int) (h0 : 0 ≤ x) (h1 : x < 2147483648) : wrap32 x = x := by
  unfold wrap32
  omega

theorem wrap32_tdiv_small (x d : Int) (h0 : 0 ≤ x) (h1 : x < 2147483648) (hd : 0 ≤ d) :
    wrap32 (0 + Int.tdiv x d) = Int.tdiv x d := by
  have hq0 : 0 ≤ Int.tdiv x d := Int.tdiv_nonneg h0 hd
  have hq1 : Int.tdiv x d ≤ x := by
    rw [Int.tdiv_eq_ediv h0 hd]
    exact Int.ediv_le_self d h0
  rw [Int.zero_add]
  exact wrap32_of_small _ hq0 (by omega)

theorem wrap32_sub_wrap32 (a b : Int) (h0 : 0 ≤ a - b) (h1 : a - b < 2147483648) :
    wrap32 (0 + (wrap32 a - wrap32 b)) = a - b := by
  unfold wrap32
  omega

theorem tickDeltas_sum_readings (obs : List (Int × Nat)) (h : obs ≠ []) :
    (tickDeltas (obs.map (fun o => (o.2 : Int)))).sum
      = ((obs.getD (obs.length - 1) (0, 0)).2 : Int) - ((obs.getD 0 (0, 0)).2 : Int) := by
  cases obs with
  | nil => exact absurd rfl h
  | cons o0 rest =>
    rw [List.map_cons, tickDeltas_sum]
    have hg := List.getD_map (l := o0 :: rest) (d := ((0 : Int), (0 : Nat)))
      (n := rest.length) (fun o : Int × Nat => (o.2 : Int))
    simp only [List.map_cons, Nat.cast_zero] at hg
    simp only [List.length_map, List.length_cons, Nat.add_sub_cancel, List.getD_cons_zero]
    rw [hg]

/-- The row entries of a window with exactly one registered device, in terms of
the accumulator `A` that the loop over the log of device 0 returns. -/
theorem single_device_fields (s : State) (hcount : s.device_count = 1) :
    let A := beaconLoop (s.beacons_received 0) MAX_BEACONS_RECEIVED
      { avg_received := 0, avg_r := 0, current_min_rssi := 0,
        current_max_rssi := -100, current_avg_bt_bc := 0, j := 0 }
    (processScan s).data_sample 12 = A.avg_received ∧
    (processScan s).data_sample 13
      = (if (A.j : Int) < 140 ∧ A.j ≠ 0 then (A.j : Int) else 140) ∧
    (processScan s).data_sample 14 = (if (A.j : Int) > 0 then (A.j : Int) else 0) ∧
    (processScan s).data_sample 15
      = (if A.j ≠ 0 then 0 + Int.tdiv A.avg_r (A.j : Int) else 0) ∧
    (processScan s).data_sample 18
      = (if A.current_min_rssi < 0 then A.current_min_rssi else 0) ∧
    (processScan s).data_sample 19
      = (if A.current_max_rssi > -100 then A.current_max_rssi else -100) ∧
    (processScan s).data_sample 21
      = (if A.j > 1 then wrap32 (0 + Int.tdiv A.current_avg_bt_bc ((A.j : Int) - 1)) else 0) ∧
    (processScan s).data_sample 22
      = (if A.j > 1 then
          wrap32 (0 + ((s.beacons_received 0 (A.j - 1)).2 - (s.beacons_received 0 0).2))
         else 0) := by
  intro A
  obtain ⟨r12, r13, r14, r15, r18, r19, r21, r22⟩ := processScan_row s
  obtain ⟨d1, d2, d3, d4, d5, d6, d7, d8⟩ := deviceBody_seed s.beacons_received
  have hs := rssiStats_single s hcount
  refine ⟨?_, ?_, ?_, ?_, ?_, ?_, ?_, ?_⟩
  · rw [r12, hs]; exact (Int.tdiv_one _).trans d1
  · rw [r13, hs]; exact d2
  · rw [r14, hs]; exact d3
  · rw [r15, hs]; exact (Int.tdiv_one _).trans d4
  · rw [r18, hs]; exact d5
  · rw [r19, hs]; exact d6
  · rw [r21, hs]; exact (Int.tdiv_one _).trans d7
  · rw [r22, hs]; exact (Int.tdiv_one _).trans d8

/-- C9 (amended).  A window with exactly one registered device whose log holds
the `j` observations `obs` (1 < j < 140) with signal strengths in [-100, 0) and
tick readings that do not decrease and span less than 2^31 ticks from the first
to the last.  The new row then has avg_received = min_received = max_received =
j, avg_avg_rssi = the sum of the signal strengths divided by j and rounded
toward zero, min_rssi and max_rssi = the least and the greatest signal strength,
avg_avg_difference_between_beacons = the sum of the consecutive tick deltas
divided by j - 1, and avg_difference_first_last = last tick minus first tick. -/
theorem single_device_row (s : State) (obs : List (Int × Nat))
    (hcount : s.device_count = 1)
    (hj1 : 1 < obs.length) (hj2 : obs.length < MAX_BEACONS_RECEIVED)
    (hlog : ∀ i (hi : i < obs.length), s.beacons_received 0 i = stored obs[i])
    (hend : (s.beacons_received 0 obs.length).1 = 0)
    (hrssi : ∀ o ∈ obs, -100 ≤ o.1 ∧ o.1 < 0)
    (hmono : (obs.map (fun o => o.2)).Pairwise (fun a b => a ≤ b))
    (hspan : ((obs.getD (obs.length - 1) (0, 0)).2 : Int) - ((obs.getD 0 (0, 0)).2 : Int)
      < 2147483648) :
    (processScan s).data_sample 12 = (obs.length : Int) ∧
    (processScan s).data_sample 13 = (obs.length : Int) ∧
    (processScan s).data_sample 14 = (obs.length : Int) ∧
    (processScan s).data_sample 15
      = Int.tdiv ((obs.map (fun o => o.1)).sum) (obs.length : Int) ∧
    ((processScan s).data_sample 18 ∈ obs.map (fun o => o.1) ∧
      ∀ o ∈ obs, (processScan s).data_sample 18 ≤ o.1) ∧
    ((processScan s).data_sample 19 ∈ obs.map (fun o => o.1) ∧
      ∀ o ∈ obs, o.1 ≤ (processScan s).data_sample 19) ∧
    (processScan s).data_sample 21
      = Int.tdiv (tickDeltas (obs.map (fun o => (o.2 : Int)))).sum ((obs.length : Int) - 1) ∧
    (processScan s).data_sample 22
      = ((obs.getD (obs.length - 1) (0, 0)).2 : Int) - ((obs.getD 0 (0, 0)).2 : Int) := by
  have hj2a : obs.length < 140 := hj2
  -- the log as a function of the slot
  have hrow : ∀ i, i < obs.length → s.beacons_received 0 i = stored (obs.getD i (0, 0)) := by
    intro i hi
    rw [hlog i hi, List.getD_eq_getElem _ _ hi]
  have hmem : ∀ i, i < obs.length → obs.getD i (0, 0) ∈ obs := by
    intro i hi
    rw [List.getD_eq_getElem _ _ hi]
    exact List.getElem_mem _
  have hstrength : ∀ i, i < obs.length →
      (s.beacons_received 0 i).1 = (obs.getD i (0, 0)).1 := by
    intro i hi; rw [hrow i hi]; rfl
  have hticks : ∀ i, i < obs.length →
      (s.beacons_received 0 i).2 = wrap32 (((obs.getD i (0, 0)).2 : Nat) : Int) := by
    intro i hi; rw [hrow i hi]; rfl
  have hmono1 : ∀ i k, i ≤ k → k < obs.length →
      (((obs.getD i (0, 0)).2 : Nat) : Int) ≤ (((obs.getD k (0, 0)).2 : Nat) : Int) := by
    intro i k hik hk
    by_cases he : i = k
    · rw [he]
    · have hi : i < obs.length := by omega
      have h := List.pairwise_iff_getElem.1 hmono i k (by simpa using hi) (by simpa using hk)
        (by omega)
      simp only [List.getElem_map] at h
      rw [List.getD_eq_getElem _ _ hi, List.getD_eq_getElem _ _ hk]
      exact_mod_cast h
  -- the loop over the log
  have hbreak := beaconLoop_break (s.beacons_received 0) obs.length MAX_BEACONS_RECEIVED
    { avg_received := 0, avg_r := 0, current_min_rssi := 0,
      current_max_rssi := -100, current_avg_bt_bc := 0, j := 0 } hj2
    (fun i hi => by
      simp only [Nat.zero_add]
      rw [hstrength i hi]
      exact ne_of_lt (hrssi _ (hmem i hi)).2)
    (by simpa using hend)
  have hfacts := beaconStep_iterate_strength (s.beacons_received 0)
    { avg_received := 0, avg_r := 0, current_min_rssi := 0,
      current_max_rssi := -100, current_avg_bt_bc := 0, j := 0 } ⟨rfl, rfl, rfl, rfl⟩ obs.length
  have hbt := beaconStep_iterate_ticks (s.beacons_received 0)
    { avg_received := 0, avg_r := 0, current_min_rssi := 0,
      current_max_rssi := -100, current_avg_bt_bc := 0, j := 0 }
    (fun i => (((obs.getD i (0, 0)).2 : Nat) : Int)) obs.length ⟨rfl, rfl⟩ hticks hmono1 hspan
    (obs.length - 1) (by omega)
  rw [show obs.length - 1 + 1 = obs.length by omega] at hbt
  have hjA := beaconStep_iterate_j (s.beacons_received 0)
    { avg_received := 0, avg_r := 0, current_min_rssi := 0,
      current_max_rssi := -100, current_avg_bt_bc := 0, j := 0 } obs.length
  obtain ⟨f1, f2, f3, f4, f5, f6, f7⟩ := hfacts
  obtain ⟨d1, d2, d3, d4, d5, d6, d7, d8⟩ := single_device_fields s hcount
  simp only [hbreak] at d1 d2 d3 d4 d5 d6 d7 d8
  generalize (beaconStep (s.beacons_received 0))^[obs.length]
    { avg_received := 0, avg_r := 0, current_min_rssi := 0,
      current_max_rssi := -100, current_avg_bt_bc := 0, j := 0 } = A
    at hbt hjA f1 f2 f3 f4 f5 f6 f7 d1 d2 d3 d4 d5 d6 d7 d8
  simp only [Nat.zero_add] at hjA
  simp only [hjA] at d1 d2 d3 d4 d5 d6 d7 d8
  have hsum : ((List.range obs.length).map (fun i => (s.beacons_received 0 i).1)).sum
      = (obs.map (fun o => o.1)).sum := by
    congr 1
    apply List.ext_getElem
    · simp
    · intro i h1 h2
      simp only [List.getElem_map, List.getElem_range]
      have hi : i < obs.length := by simpa using h2
      rw [hstrength i hi, List.getD_eq_getElem _ _ hi]
  have hfirst := hstrength 0 (by omega)
  have hfirst2 := hrssi _ (hmem 0 (by omega))
  have hmin0 := f3 0 (by omega)
  have hmax0 := f6 0 (by omega)
  have hspan0 := hmono1 0 (obs.length - 1) (by omega) (by omega)
  refine ⟨?_, ?_, ?_, ?_, ⟨?_, ?_⟩, ⟨?_, ?_⟩, ?_, ?_⟩
  · rw [d1]; simp
  · rw [d2, if_pos ⟨by omega, by omega⟩]
  · rw [d3, if_pos (by omega)]
  · rw [d4, if_pos (by omega), f1, hsum]; simp
  · rw [d5, if_pos (by omega)]
    rcases f4 with h | ⟨i, hi, h⟩
    · omega
    · rw [← h, hstrength i hi]
      exact List.mem_map_of_mem _ (hmem i hi)
  · intro o ho
    obtain ⟨i, hi, hio⟩ := List.getElem_of_mem ho
    rw [d5, if_pos (by omega)]
    have := f3 i hi
    rw [hstrength i hi, List.getD_eq_getElem _ _ hi, hio] at this
    exact this
  · have hval : (if A.current_max_rssi > -100 then A.current_max_rssi else -100)
        = A.current_max_rssi := by
      split_ifs <;> omega
    rw [d6, hval]
    rcases f7 with h | ⟨i, hi, h⟩
    · have : (obs.getD 0 (0, 0)).1 = A.current_max_rssi := by omega
      rw [← this]
      exact List.mem_map_of_mem _ (hmem 0 (by omega))
    · rw [← h, hstrength i hi]
      exact List.mem_map_of_mem _ (hmem i hi)
  · intro o ho
    obtain ⟨i, hi, hio⟩ := List.getElem_of_mem ho
    have hval : (if A.current_max_rssi > -100 then A.current_max_rssi else -100)
        = A.current_max_rssi := by
      split_ifs <;> omega
    rw [d6, hval]
    have := f6 i hi
    rw [hstrength i hi, List.getD_eq_getElem _ _ hi, hio] at this
    exact this
  · have hdel := tickDeltas_sum_readings obs (List.ne_nil_of_length_pos (by omega))
    have hbt1 : A.current_avg_bt_bc
        = (((obs.getD (obs.length - 1) (0, 0)).2 : Nat) : Int)
          - (((obs.getD 0 (0, 0)).2 : Nat) : Int) := hbt
    rw [d7, if_pos (by omega), hbt1, hdel]
    exact wrap32_tdiv_small _ _ (by omega) hspan (by omega)
  · rw [d8, if_pos (by omega), hticks _ (by omega), hticks 0 (by omega)]
    exact wrap32_sub_wrap32 _ _ (by omega) hspan

/-- Witness for C9 (amended): one device with signal strengths -50, -60, -40 at
ticks 100, 110, 125; the row holds 3, 3, 3, -50, -60, -40, 12 and 25. -/
theorem single_device_row_witness :
    ((processScan (scanAll (shift (reset State.init))
        [beacon "A" (-50) 100, beacon "A" (-60) 110, beacon "A" (-40) 125])).data_sample 12 = 3 ∧
     (processScan (scanAll (shift (reset State.init))
        [beacon "A" (-50) 100, beacon "A" (-60) 110, beacon "A" (-40) 125])).data_sample 13 = 3 ∧
     (processScan (scanAll (shift (reset State.init))
        [beacon "A" (-50) 100, beacon "A" (-60) 110, beacon "A" (-40) 125])).data_sample 14 = 3 ∧
     (processScan (scanAll (shift (reset State.init))
        [beacon "A" (-50) 100, beacon "A" (-60) 110, beacon "A" (-40) 125])).data_sample 15 = -50 ∧
     (processScan (scanAll (shift (reset State.init))
        [beacon "A" (-50) 100, beacon "A" (-60) 110, beacon "A" (-40) 125])).data_sample 18 = -60 ∧
     (processScan (scanAll (shift (reset State.init))
        [beacon "A" (-50) 100, beacon "A" (-60) 110, beacon "A" (-40) 125])).data_sample 19 = -40 ∧
     (processScan (scanAll (shift (reset State.init))
        [beacon "A" (-50) 100, beacon "A" (-60) 110, beacon "A" (-40) 125])).data_sample 21 = 12 ∧
     (processScan (scanAll (shift (reset State.init))
        [beacon "A" (-50) 100, beacon "A" (-60) 110, beacon "A" (-40) 125])).data_sample 22 = 25) ∧
    (processScan (scanAll (shift (reset State.init))
        [beacon "A" (-50) 100, beacon "A" (-60) 110, beacon "A" (-40) 125])).data_sample 15
      = Int.tdiv (([((-50 : Int), (100 : Nat)), (-60, 110), (-40, 125)].map (fun o => o.1)).sum)
          ([((-50 : Int), (100 : Nat)), (-60, 110), (-40, 125)].length : Int) :=
  ⟨by decide,
   (single_device_row
      (scanAll (shift (reset State.init))
        [beacon "A" (-50) 100, beacon "A" (-60) 110, beacon "A" (-40) 125])
      [(-50, 100), (-60, 110), (-40, 125)]
      (by decide) (by decide) (by decide)
      (fun i hi => by
        have h3 : i < 3 := hi
        interval_cases i <;> rfl)
      (by decide) (by decide) (by decide) (by decide)).2.2.2.1⟩

/-- C9 (the claim as stated fails when the ticks span 2^31 or more).  One
device with two observations of strength -50 at the tick readings 0 and 2^31:
the readings do not decrease, but the second one is stored in an `int` cell as
-2^31, and both timing features of the row are -2^31 instead of 2^31. -/
theorem single_device_row_wide_span :
    (scanAll (shift (reset State.init))
      [beacon "A" (-50) 0, beacon "A" (-50) 2147483648]).device_count = 1 ∧
    (scanAll (shift (reset State.init))
      [beacon "A" (-50) 0, beacon "A" (-50) 2147483648]).beacons_received 0 0 = (-50, 0) ∧
    (scanAll (shift (reset State.init))
      [beacon "A" (-50) 0, beacon "A" (-50) 2147483648]).beacons_received 0 1
        = (-50, -2147483648) ∧
    ((scanAll (shift (reset State.init))
      [beacon "A" (-50) 0, beacon "A" (-50) 2147483648]).beacons_received 0 2).1 = 0 ∧
    (processScan (scanAll (shift (reset State.init))
      [beacon "A" (-50) 0, beacon "A" (-50) 2147483648])).data_sample 21 = -2147483648 ∧
    (processScan (scanAll (shift (reset State.init))
      [beacon "A" (-50) 0, beacon "A" (-50) 2147483648])).data_sample 22 = -2147483648 ∧
    (processScan (scanAll (shift (reset State.init))
      [beacon "A" (-50) 0, beacon "A" (-50) 2147483648])).data_sample 22
        ≠ ((2147483648 : Nat) : Int) - ((0 : Nat) : Int) := by
  decide

/-! ## Beacons of a single device -/

theorem scan_cb_known_device (t : State) (addr : String) (o : Int × Nat)
    (h : getIndex t addr = 0) :
    scan_cb t (beacon addr o.1 o.2) = addRssi t o.1 0 o.2 := by
  unfold scan_cb
  simp only [beacon, bt_data_parse, h]
  rw [if_neg (by decide)]

theorem scanAll_known_device (addr : String) (obs : List (Int × Nat)) :
    ∀ t : State, getIndex t addr = 0 →
      scanAll t (obs.map (fun o => beacon addr o.1 o.2)) = recordAll t 0 obs := by
  induction obs with
  | nil => intro t _; rfl
  | cons o os ih =>
    intro t h
    show scanAll (scan_cb t (beacon addr o.1 o.2)) _ = recordAll (addRssi t o.1 0 o.2) 0 os
    rw [scan_cb_known_device t addr o h]
    exact ih _ h

theorem recordAll_device_count (index : Int) (obs : List (Int × Nat)) :
    ∀ s : State, (recordAll s index obs).device_count = s.device_count := by
  induction obs with
  | nil => intro s; rfl
  | cons o os ih =>
    intro s
    show (recordAll (addRssi s o.1 index o.2) index os).device_count = _
    rw [ih]
    rfl

theorem scanAll_one_device (s0 : State) (h0 : s0.device_count = 0) (addr : String)
    (o : Int × Nat) (obs : List (Int × Nat)) :
    scanAll s0 ((o :: obs).map (fun x => beacon addr x.1 x.2))
      = recordAll (addDevice s0 addr) 0 (o :: obs) := by
  have hadd : addDevice s0 addr
      = { s0 with devices := setAt s0.devices 0 addr, device_count := 1 } := by
    unfold addDevice
    simp only [h0]
    rw [if_pos (by decide)]
  have h1 : getIndex s0 addr = -1 := by
    unfold getIndex
    rw [h0]
    rfl
  have h2 : getIndex (addDevice s0 addr) addr = 0 := by
    rw [hadd]
    unfold getIndex
    simp only
    unfold getIndexLoop
    rw [setAt_same, if_pos rfl]
    rfl
  have hfirst : scan_cb s0 (beacon addr o.1 o.2) = addRssi (addDevice s0 addr) o.1 0 o.2 := by
    unfold scan_cb
    simp only [beacon, bt_data_parse, h1, h2]
    exact if_pos trivial
  show scanAll (scan_cb s0 (beacon addr o.1 o.2)) _ = recordAll (addRssi _ o.1 0 o.2) 0 obs
  rw [hfirst]
  exact scanAll_known_device addr obs _ h2

/-! ## Average number of beacons received -/

/-- C10 (the code departs from the claim for a full log).  A window with one
registered device whose log is full, all 140 slots holding an observation: the
number of retained observations is 140 and the loop counter reaches 140 (it is
stored as max_received at offset 14), but the loop over the log adds the counter
to `avg_received` only when it breaks at a free slot, so the value at offset 12
is 0 instead of 140 / 1. -/
theorem avg_received_misses_full_log (s : State) (hcount : s.device_count = 1)
    (hfull : ∀ i, i < MAX_BEACONS_RECEIVED → (s.beacons_received 0 i).1 ≠ 0) :
    logLength (s.beacons_received 0) = 140 ∧
    (processScan s).data_sample 12 = 0 ∧
    (processScan s).data_sample 14 = 140 := by
  have hloop := beaconLoop_no_break (s.beacons_received 0) MAX_BEACONS_RECEIVED
    { avg_received := 0, avg_r := 0, current_min_rssi := 0,
      current_max_rssi := -100, current_avg_bt_bc := 0, j := 0 }
    (fun i hi => by simpa using hfull i hi)
  obtain ⟨d1, _, d3, _⟩ := single_device_fields s hcount
  simp only [hloop] at d1 d3
  rw [beaconStep_iterate_avg_received] at d1
  rw [beaconStep_iterate_j] at d3
  refine ⟨?_, d1, ?_⟩
  · unfold logLength
    rw [List.takeWhile_eq_self_iff.2 (fun i hi => by
      simpa using hfull i (List.mem_range.1 hi))]
    simp [MAX_BEACONS_RECEIVED]
  · rw [d3]
    decide

/-- Witness for C10: the window in which one device sends 140 beacons with
signal strength -50, from program start. -/
theorem avg_received_misses_full_log_witness :
    (scanAll (shift (reset State.init))
      ((List.replicate 140 ((-50 : Int), (5 : Nat))).map
        (fun o => beacon "A" o.1 o.2))).device_count = 1 ∧
    (∀ i, i < MAX_BEACONS_RECEIVED →
      ((scanAll (shift (reset State.init))
        ((List.replicate 140 ((-50 : Int), (5 : Nat))).map
          (fun o => beacon "A" o.1 o.2))).beacons_received 0 i).1 ≠ 0) ∧
    (processScan (scanAll (shift (reset State.init))
      ((List.replicate 140 ((-50 : Int), (5 : Nat))).map
        (fun o => beacon "A" o.1 o.2)))).data_sample 12 = 0 :=
  have hscan : scanAll (shift (reset State.init))
      ((List.replicate 140 ((-50 : Int), (5 : Nat))).map (fun o => beacon "A" o.1 o.2))
      = recordAll (addDevice (shift (reset State.init)) "A") 0
          (List.replicate 140 ((-50 : Int), (5 : Nat))) :=
    scanAll_one_device (shift (reset State.init)) rfl "A" (-50, 5) (List.replicate 139 (-50, 5))
  have hcount : (scanAll (shift (reset State.init))
      ((List.replicate 140 ((-50 : Int), (5 : Nat))).map
        (fun o => beacon "A" o.1 o.2))).device_count = 1 := by
    rw [hscan, recordAll_device_count]
    rfl
  have hfull : ∀ i, i < MAX_BEACONS_RECEIVED →
      ((scanAll (shift (reset State.init))
        ((List.replicate 140 ((-50 : Int), (5 : Nat))).map
          (fun o => beacon "A" o.1 o.2))).beacons_received 0 i).1 ≠ 0 := by
    intro i hi
    rw [hscan, recordAll_log _ 0 (fun _ _ => rfl) _
      (fun o ho => by rw [List.eq_of_mem_replicate ho]; decide) i hi]
    have hi2 : i < (List.replicate 140 ((-50 : Int), (5 : Nat))).length := by
      rw [List.length_replicate]; exact hi
    rw [getD_stored_lt _ i hi2]
    simp only [List.get_eq_getElem, List.getElem_replicate, stored]
    decide
  ⟨hcount, hfull, (avg_received_misses_full_log _ hcount hfull).2.1⟩

/-! ## Reading the structural and radio entries of the row -/

theorem processScan_row_low (s : State) :
    (processScan s).data_sample 0 = (s.device_count : Int) ∧
    (processScan s).data_sample 3 = (s.different_services : Int) ∧
    (processScan s).data_sample 4 = s.services_count ∧
    (processScan s).data_sample 5 = (txPowerStats s).txpower_count ∧
    (processScan s).data_sample 6 = (txPowerStats s).txpower_avg ∧
    (processScan s).data_sample 7 = (txPowerStats s).min_txpower ∧
    (processScan s).data_sample 8 = (txPowerStats s).max_txpower ∧
    (processScan s).data_sample 9 = (manStats s).man_packet_len_count ∧
    (processScan s).data_sample 10 = (manStats s).man_packet_len_sum ∧
    (processScan s).data_sample 11 = (manStats s).man_packet_len_avg ∧
    (processScan s).data_sample 16 = (rssiStats s).min_avg_rssi ∧
    (processScan s).data_sample 17 = (rssiStats s).max_avg_rssi ∧
    (processScan s).data_sample 20 = (rssiStats s).avg_rssi_difference := by
  unfold processScan
  simp only
  refine ⟨?_, ?_, ?_, ?_, ?_, ?_, ?_, ?_, ?_, ?_, ?_, ?_, ?_⟩ <;>
    (rw [knownServices_other _ _ _ (Or.inl (by omega))]; simp [storeAll, setAt])

/-! ## Empty window -/

theorem forLoop_setAt_const {α : Type} (v : α) :
    ∀ (n : Nat) (a : Nat → α) (k : Nat),
      forLoop (fun i x => setAt x i v) n a k = if k < n then v else a k := by
  intro n
  induction n with
  | zero => intro a k; rfl
  | succ m ih =>
    intro a k
    show setAt (forLoop (fun i x => setAt x i v) m a) m v k = _
    by_cases hk : k = m
    · rw [hk, setAt_same, if_pos (by omega)]
    · rw [setAt_other _ _ _ _ hk, ih]
      by_cases hlt : k < m
      · rw [if_pos hlt, if_pos (by omega)]
      · rw [if_neg hlt, if_neg (by omega)]

theorem reset_tables (s : State) :
    (∀ k, k < MAX_DIFFERENT_TX_POWERS → (reset s).txPower k = (0, 0)) ∧
    (∀ k, k < MAX_DIFFERENT_MAN_PACKET_LEN → (reset s).manufacturer_data_len k = (0, 0)) ∧
    (reset s).device_count = 0 ∧ (reset s).different_services = 0 ∧
    (reset s).services_count = 0 := by
  refine ⟨?_, ?_, rfl, rfl, rfl⟩
  · intro k hk
    unfold reset
    simp only
    rw [forLoop_setAt_const, if_pos hk]
  · intro k hk
    unfold reset
    simp only
    rw [forLoop_setAt_const, if_pos hk]

/-- C13 (the claim as stated fails at offset 7).  In the window after program
start in which no beacon arrives, `min_txpower` at offset 7 of the new row is
200, the value with which the minimum is seeded, not 0. -/
theorem empty_window_min_txpower_seed :
    (mainIteration State.init []).data_sample 0 = 0 ∧
    (mainIteration State.init []).data_sample 7 = 200 ∧
    (mainIteration State.init []).data_sample 7 ≠ 0 := by
  decide

/-- C11 (the code departs from the claim in one aggregate).  For a device whose
log has no observation (slot 0 reads signal strength 0, so j == 0), the body of
the loop over the devices leaves the sums for avg_received, avg_avg_rssi,
avg_avg_difference_between_beacons and avg_difference_first_last and the running
min_avg_rssi / max_avg_rssi as they were, as if the device were skipped; but the
statement `avg_rssi_difference += current_max_rssi - current_min_rssi` stands
outside the test `j != 0` and adds the difference of the two seeds, -100 - 0, to
the sum for avg_rssi_difference. -/
theorem empty_log_device_contribution (b : Int → Nat → Int × Int) (i : Nat) (r : RssiStats)
    (h : (b (i : Int) 0).1 = 0) :
    (deviceBody b i r).avg_received = r.avg_received ∧
    (deviceBody b i r).avg_avg_rssi = r.avg_avg_rssi ∧
    (deviceBody b i r).min_avg_rssi = r.min_avg_rssi ∧
    (deviceBody b i r).max_avg_rssi = r.max_avg_rssi ∧
    (deviceBody b i r).avg_avg_difference_between_beacons
      = r.avg_avg_difference_between_beacons ∧
    (deviceBody b i r).avg_difference_first_last = r.avg_difference_first_last ∧
    (deviceBody b i r).avg_rssi_difference = r.avg_rssi_difference + (-100 - 0) ∧
    (deviceBody b i r).avg_rssi_difference ≠ r.avg_rssi_difference := by
  have hA : beaconLoop (b (i : Int)) MAX_BEACONS_RECEIVED
      { avg_received := r.avg_received, avg_r := 0, current_min_rssi := 0,
        current_max_rssi := -100, current_avg_bt_bc := 0, j := 0 }
      = { avg_received := r.avg_received + ((0 : Nat) : Int), avg_r := 0, current_min_rssi := 0,
          current_max_rssi := -100, current_avg_bt_bc := 0, j := 0 } := by
    unfold MAX_BEACONS_RECEIVED beaconLoop
    rw [if_pos h]
  have h7 : (deviceBody b i r).avg_rssi_difference = r.avg_rssi_difference + (-100 - 0) := by
    unfold deviceBody
    simp only [hA]
    simp
  refine ⟨?_, ?_, ?_, ?_, ?_, ?_, h7, by rw [h7]; omega⟩ <;>
    (unfold deviceBody; simp only [hA]; simp)

/-- Witness for C11: the window after program start in which one device sends
one beacon with signal strength 0; the device is registered, its log stays
empty, and the row has -100 at offset 20 (avg_rssi_difference) where skipping the
device would give 0. -/
theorem empty_log_device_contribution_witness :
    ((scanAll (shift (reset State.init)) [beacon "A" 0 5]).beacons_received
        ((0 : Nat) : Int) 0).1 = 0 ∧
    (scanAll (shift (reset State.init)) [beacon "A" 0 5]).device_count = 1 ∧
    (deviceBody (scanAll (shift (reset State.init)) [beacon "A" 0 5]).beacons_received 0
        RssiStats.seed).avg_rssi_difference
      = RssiStats.seed.avg_rssi_difference + (-100 - 0) ∧
    (mainIteration State.init [beacon "A" 0 5]).data_sample 20 = -100 :=
  ⟨by decide, by decide,
   (empty_log_device_contribution
      (scanAll (shift (reset State.init)) [beacon "A" 0 5]).beacons_received 0
      RssiStats.seed (by decide)).2.2.2.2.2.2.1,
   by decide⟩

/-! ## Known-service tail of the row -/

theorem knownLoop_hit (s : State) (sIdx : Nat) (known : String) (p : Nat)
    (hp : known = s.services p) :
    ∀ (fuel t : Nat) (ds : Nat → Int), t ≤ p → p < t + fuel →
      (∀ k, t ≤ k → k < p → known ≠ s.services k) →
      knownLoop s sIdx known fuel t ds (23 + sIdx) = s_count s p := by
  intro fuel
  induction fuel with
  | zero => intro t ds h1 h2 _; omega
  | succ f ih =>
    intro t ds h1 h2 h3
    unfold knownLoop
    by_cases ht : t = p
    · rw [ht, if_pos hp, setAt_same]
    · rw [if_neg (h3 t (Nat.le_refl t) (by omega))]
      exact ih (t + 1) _ (by omega) (by omega) (fun k hk1 hk2 => h3 k (by omega) hk2)

theorem knownLoop_miss (s : State) (sIdx : Nat) (known : String) :
    ∀ (fuel t : Nat) (ds : Nat → Int), 0 < fuel → t + fuel = s.different_services →
      (∀ k, t ≤ k → k < s.different_services → known ≠ s.services k) →
      knownLoop s sIdx known fuel t ds (23 + sIdx) = 0 := by
  intro fuel
  induction fuel with
  | zero => intro t ds h0 _ _; omega
  | succ f ih =>
    intro t ds _ h2 h3
    unfold knownLoop
    rw [if_neg (h3 t (Nat.le_refl t) (by omega))]
    by_cases hf : f = 0
    · subst hf
      rw [if_pos (by omega)]
      show setAt ds (23 + sIdx) 0 (23 + sIdx) = 0
      rw [setAt_same]
    · exact ih (t + 1) _ (by omega) (by omega) (fun k hk1 hk2 => h3 k (by omega) hk2)

/-- The entry of the tail for the known service `sIdx` is decided by the
iteration `sIdx` of the loop over the known services alone. -/
theorem knownServices_at (s : State) (ds : Nat → Int) (sIdx : Nat) (v : Int)
    (hs : sIdx < MOST_COMMON_SERVICES_COUNT)
    (hv : ∀ D : Nat → Int,
      knownLoop s sIdx (most_common_services.getD sIdx "") s.different_services 0 D
        (23 + sIdx) = v) :
    knownServices s ds (23 + sIdx) = v := by
  unfold knownServices
  have key : ∀ n, sIdx < n →
      forLoop (fun i d =>
        knownLoop s i (most_common_services.getD i "") s.different_services 0 d) n ds
        (23 + sIdx) = v := by
    intro n
    induction n with
    | zero => intro h; omega
    | succ m ih =>
      intro h
      show knownLoop s m (most_common_services.getD m "") s.different_services 0 _
        (23 + sIdx) = v
      by_cases hm : sIdx = m
      · rw [← hm]
        exact hv _
      · rw [knownLoop_other s m _ _ _ _ _ (by omega)]
        exact ih (by omega)
  exact key _ hs

theorem tail_hit (s : State) (sIdx p : Nat) (hs : sIdx < MOST_COMMON_SERVICES_COUNT)
    (hp : p < s.different_services)
    (hpres : s.services p = most_common_services.getD sIdx "")
    (hfirst : ∀ t, t < p → s.services t ≠ most_common_services.getD sIdx "") :
    (processScan s).data_sample (23 + sIdx) = s_count s p := by
  show knownServices s _ (23 + sIdx) = _
  apply knownServices_at s _ sIdx _ hs
  intro D
  exact knownLoop_hit s sIdx _ p hpres.symm _ 0 D (Nat.zero_le _) (by omega)
    (fun k _ hk e => hfirst k hk e.symm)

theorem tail_miss (s : State) (sIdx : Nat) (hs : sIdx < MOST_COMMON_SERVICES_COUNT)
    (hpos : 0 < s.different_services)
    (habs : ∀ t, t < s.different_services → s.services t ≠ most_common_services.getD sIdx "") :
    (processScan s).data_sample (23 + sIdx) = 0 := by
  show knownServices s _ (23 + sIdx) = _
  apply knownServices_at s _ sIdx _ hs
  intro D
  exact knownLoop_miss s sIdx _ _ 0 D hpos (by omega) (fun k _ hk e => habs k hk e.symm)

theorem s_count_eq_devicesWith (s : State) (p : Nat) :
    s_count s p = (devicesWith s p : Int) := by
  unfold s_count devicesWith
  generalize s.device_count = n
  induction n with
  | zero => rfl
  | succ m ih =>
    show (if s.dev_services (m : Int) p then
      forLoop (fun u c => if s.dev_services (u : Int) p then c + 1 else c) m 0 + 1
      else forLoop (fun u c => if s.dev_services (u : Int) p then c + 1 else c) m 0) = _
    rw [ih, List.range_succ, List.countP_append]
    by_cases h : s.dev_services (m : Int) p
    · rw [if_pos h]
      simp [List.countP_cons, h]
    · rw [if_neg h]
      simp [List.countP_cons, h]

/-- C14.  For every state at window close and every entry `sIdx` of the
known-services list that stands in the window's service table at position `p`,
the table being free of duplicates, the value written at row offset `23 + sIdx`
is the number of device indices `u < device_count` with `dev_services[u][p]`
true. -/
theorem known_service_count (s : State) (sIdx p : Nat)
    (hs : sIdx < MOST_COMMON_SERVICES_COUNT)
    (hp : p < s.different_services)
    (hpres : s.services p = most_common_services.getD sIdx "")
    (hnodup : ∀ t, t < s.different_services → t ≠ p → s.services t ≠ s.services p) :
    (processScan s).data_sample (23 + sIdx) = (devicesWith s p : Int) := by
  rw [tail_hit s sIdx p hs hp hpres
    (fun t ht => by rw [← hpres]; exact hnodup t (by omega) (by omega))]
  exact s_count_eq_devicesWith s p

/-- Witness for C14: devices A and B advertise the service `fe9f` (entry 15 of
the known-services list), device C advertises `1802` (entry 1); the table holds
`fe9f` at position 0 and the row has 2 at offset 38. -/
theorem known_service_count_witness :
    (15 < MOST_COMMON_SERVICES_COUNT ∧
     0 < (scanAll (shift (reset State.init))
        [beaconWithServices "A" (-50) 1 [159, 254], beaconWithServices "B" (-60) 2 [159, 254],
         beaconWithServices "C" (-70) 3 [2, 24]]).different_services) ∧
    (processScan (scanAll (shift (reset State.init))
        [beaconWithServices "A" (-50) 1 [159, 254], beaconWithServices "B" (-60) 2 [159, 254],
         beaconWithServices "C" (-70) 3 [2, 24]])).data_sample (23 + 15)
      = (devicesWith (scanAll (shift (reset State.init))
        [beaconWithServices "A" (-50) 1 [159, 254], beaconWithServices "B" (-60) 2 [159, 254],
         beaconWithServices "C" (-70) 3 [2, 24]]) 0 : Int) ∧
    devicesWith (scanAll (shift (reset State.init))
        [beaconWithServices "A" (-50) 1 [159, 254], beaconWithServices "B" (-60) 2 [159, 254],
         beaconWithServices "C" (-70) 3 [2, 24]]) 0 = 2 :=
  ⟨⟨by decide, by decide⟩,
   known_service_count _ 15 0 (by decide) (by decide) (by decide)
     (fun t ht hne => by
        have h2 : t < 2 := ht
        interval_cases t
        · exact absurd rfl hne
        · decide),
   by decide⟩

/-! ## Invariants of a scan -/

/-- A property of the state that `addDevice`, `addRssi` and the payload callback
preserve holds after every scan that starts in a state with the property. -/
theorem scanAll_invariant (P : State → Prop)
    (hadd : ∀ s a, P s → P (addDevice s a))
    (hrssi : ∀ s r i c, P s → P (addRssi s r i c))
    (heir : ∀ d a s, P s → P (eir_found d a s).1) :
    ∀ (evs : List ScanEvent) (s : State), P s → P (scanAll s evs) := by
  have hparse : ∀ (a : String) (ds : List bt_data) (s : State), P s →
      P (bt_data_parse a ds s) := by
    intro a ds
    induction ds with
    | nil => intro s h; exact h
    | cons d ds ih =>
      intro s h
      unfold bt_data_parse
      split_ifs
      · exact ih _ (heir d a s h)
      · exact heir d a s h
  have hcb : ∀ (s : State) (ev : ScanEvent), P s → P (scan_cb s ev) := by
    intro s ev h
    unfold scan_cb
    simp only
    apply hparse
    split_ifs
    · exact hrssi _ _ _ _ (hadd _ _ h)
    · exact hrssi _ _ _ _ h
  intro evs
  induction evs with
  | nil => intro s h; exact h
  | cons e es ih =>
    intro s h
    show P (scanAll (scan_cb s e) es)
    exact ih _ (hcb s e h)

theorem servicesLoop_outside (idx : Int) (u : String) (s : State) :
    ∀ (fuel j : Nat) (s1 : State), servicesLoop idx u s fuel j = some s1 →
      SameOutsideServices s s1 := by
  intro fuel
  induction fuel with
  | zero => intro j s1 h; simp [servicesLoop] at h
  | succ f ih =>
    intro j s1 h
    unfold servicesLoop at h
    split_ifs at h with h1 h2 h3
    · cases h; exact ⟨rfl, rfl, rfl, rfl, rfl, rfl, rfl, rfl⟩
    · cases h; exact ⟨rfl, rfl, rfl, rfl, rfl, rfl, rfl, rfl⟩
    · cases h; exact ⟨rfl, rfl, rfl, rfl, rfl, rfl, rfl, rfl⟩
    · exact ih (j + 1) s1 h

theorem servicesLoop_nodup (idx : Int) (u : String) (s : State) (hnd : ServicesNodup s) :
    ∀ (fuel j : Nat) (s1 : State), (∀ k, k < j → s.services k ≠ u) →
      j ≤ s.different_services → servicesLoop idx u s fuel j = some s1 →
      ServicesNodup s1 := by
  intro fuel
  induction fuel with
  | zero => intro j s1 _ _ h; simp [servicesLoop] at h
  | succ f ih =>
    intro j s1 hbefore hj h
    unfold servicesLoop at h
    split_ifs at h with h1 h2 h3
    · cases h; exact hnd
    · cases h; exact hnd
    · cases h
      intro a b ha hb hab
      simp only at ha hb hab
      by_cases haj : a = j
      · by_cases hbj : b = j
        · omega
        · rw [haj, setAt_same, setAt_other _ _ _ _ hbj] at hab
          exact absurd hab.symm (hbefore b (by omega))
      · by_cases hbj : b = j
        · rw [hbj, setAt_same, setAt_other _ _ _ _ haj] at hab
          exact absurd hab (hbefore a (by omega))
        · rw [setAt_other _ _ _ _ haj, setAt_other _ _ _ _ hbj] at hab
          exact hnd a b (by omega) (by omega) hab
    · apply ih (j + 1) s1 _ (by omega) h
      intro k hk
      by_cases hkj : k = j
      · rw [hkj]; exact h1
      · exact hbefore k (by omega)

theorem eir_found_nodup (d : bt_data) (a : String) (s : State) (hnd : ServicesNodup s) :
    ServicesNodup (eir_found d a s).1 := by
  have hloop : ∀ (fuel i : Nat), ServicesNodup (uuidLoop a d s fuel i).1 := by
    intro fuel
    induction fuel with
    | zero => intro i; exact hnd
    | succ f ih =>
      intro i
      unfold uuidLoop
      split_ifs
      · simp only
        split
        · next s1 hs =>
          exact servicesLoop_nodup _ _ s hnd _ 0 s1 (fun k hk => absurd hk (by omega))
            (Nat.zero_le _) hs
        · exact ih (i + 2)
      · exact hnd
  unfold eir_found
  split_ifs
  · exact hnd
  · exact hnd
  · exact hnd
  · exact hloop _ _
  · exact hnd

theorem scanAll_services_nodup (s0 : State) (h0 : s0.different_services = 0)
    (evs : List ScanEvent) : ServicesNodup (scanAll s0 evs) := by
  apply scanAll_invariant ServicesNodup
  · intro s a h
    unfold addDevice
    simp only
    split_ifs
    · exact h
    · exact h
  · intro s r i c h
    exact h
  · intro d a s h
    exact eir_found_nodup d a s h
  · intro i j hi _ _
    rw [h0] at hi
    omega

/-! ## Order of the service table -/

theorem forLoop_congr {σ : Type} (f g : Nat → σ → σ) (n : Nat) (x : σ)
    (h : ∀ i, i < n → ∀ y, f i y = g i y) : forLoop f n x = forLoop g n x := by
  induction n with
  | zero => rfl
  | succ m ih =>
    show f m (forLoop f m x) = g m (forLoop g m x)
    rw [ih (fun i hi => h i (by omega)), h m (by omega)]

theorem tail_permutation (s1 s2 : State) (hnd : ServicesNodup s1)
    (hpos : 0 < s1.different_services)
    (σ : Equiv.Perm (Fin s1.different_services))
    (hds : s2.different_services = s1.different_services)
    (hdc : s2.device_count = s1.device_count)
    (hserv : ∀ t : Fin s1.different_services, s2.services (σ t) = s1.services t)
    (hdev : ∀ (u : Nat) (t : Fin s1.different_services), u < s1.device_count →
      s2.dev_services (u : Int) (σ t) = s1.dev_services (u : Int) t)
    (sIdx : Nat) (hs : sIdx < MOST_COMMON_SERVICES_COUNT) :
    (processScan s2).data_sample (23 + sIdx) = (processScan s1).data_sample (23 + sIdx) := by
  by_cases hex : ∃ t : Fin s1.different_services,
      s1.services t = most_common_services.getD sIdx ""
  · obtain ⟨p, hp⟩ := hex
    have h1 := tail_hit s1 sIdx p hs p.isLt hp (fun t ht e => by
      have := hnd t p (by omega) p.isLt (e.trans hp.symm)
      omega)
    have h2 := tail_hit s2 sIdx (σ p) hs (by rw [hds]; exact (σ p).isLt)
      ((hserv p).trans hp) (fun t ht e => by
        have htn : t < s1.different_services := by
          have := (σ p).isLt
          omega
        have hback : s2.services t = s1.services (σ.symm ⟨t, htn⟩) := by
          have h := hserv (σ.symm ⟨t, htn⟩)
          rw [Equiv.apply_symm_apply] at h
          exact h
        have heq := hnd (σ.symm ⟨t, htn⟩) p (σ.symm ⟨t, htn⟩).isLt p.isLt
          ((hback.symm.trans e).trans hp.symm)
        have hfin : σ.symm ⟨t, htn⟩ = p := Fin.ext heq
        have hst : (⟨t, htn⟩ : Fin s1.different_services) = σ p := by
          rw [← hfin, Equiv.apply_symm_apply]
        have hval := congrArg Fin.val hst
        simp only at hval
        omega)
    rw [h1, h2]
    unfold s_count
    rw [hdc]
    apply forLoop_congr
    intro u hu c
    rw [hdev u p hu]
  · have hnone : ∀ t, t < s1.different_services →
        s1.services t ≠ most_common_services.getD sIdx "" :=
      fun t ht e => hex ⟨⟨t, ht⟩, e⟩
    rw [tail_miss s1 sIdx hs hpos hnone]
    apply tail_miss s2 sIdx hs (by rw [hds]; exact hpos)
    intro t ht e
    rw [hds] at ht
    have h := hserv (σ.symm ⟨t, ht⟩)
    rw [Equiv.apply_symm_apply] at h
    exact hnone _ (σ.symm ⟨t, ht⟩).isLt (h.symm.trans e)

/-- C15.  Let `s1` be a window state, reached by a scan from a state with an
empty service table, with at least one service in its table, and let `s2` be a
state that differs from `s1` by a permutation `σ` of the service table: the same
number of services and devices, `services[σ t]` of `s2` is `services[t]` of
`s1`, and column `σ t` of `dev_services` in `s2` is column `t` in `s1`.  Then
the 23 values written at the row offsets 23..45 are the same for both states. -/
theorem known_services_order_independent (s0 s1 s2 : State) (evs : List ScanEvent)
    (h0 : s0.different_services = 0) (hreach : s1 = scanAll s0 evs)
    (hpos : 0 < s1.different_services)
    (σ : Equiv.Perm (Fin s1.different_services))
    (hds : s2.different_services = s1.different_services)
    (hdc : s2.device_count = s1.device_count)
    (hserv : ∀ t : Fin s1.different_services, s2.services (σ t) = s1.services t)
    (hdev : ∀ (u : Nat) (t : Fin s1.different_services), u < s1.device_count →
      s2.dev_services (u : Int) (σ t) = s1.dev_services (u : Int) t) :
    ∀ k, 23 ≤ k → k < 46 →
      (processScan s2).data_sample k = (processScan s1).data_sample k := by
  intro k hk1 hk2
  have hnd : ServicesNodup s1 := by
    rw [hreach]
    exact scanAll_services_nodup s0 h0 evs
  have h := tail_permutation s1 s2 hnd hpos σ hds hdc hserv hdev (k - 23)
    (by unfold MOST_COMMON_SERVICES_COUNT; omega)
  rw [show 23 + (k - 23) = k by omega] at h
  exact h

/-- Witness for C15: in the first scan device A advertises `fe9f` before
device B advertises `1802`; in the second scan A is first seen without payload,
then B advertises `1802` and A advertises `fe9f`.  The registries agree, the
service tables are `fe9f, 1802` and `1802, fe9f`, and the tails are equal. -/
theorem known_services_order_independent_witness :
    (scanAll (shift (reset State.init))
      [beaconWithServices "A" (-50) 1 [159, 254],
       beaconWithServices "B" (-60) 2 [2, 24]]).different_services = 2 ∧
    (scanAll (shift (reset State.init))
      [beacon "A" (-50) 1, beaconWithServices "B" (-60) 2 [2, 24],
       beaconWithServices "A" (-50) 3 [159, 254]]).services 0 = "1802" ∧
    (∀ k, 23 ≤ k → k < 46 →
      (processScan (scanAll (shift (reset State.init))
        [beacon "A" (-50) 1, beaconWithServices "B" (-60) 2 [2, 24],
         beaconWithServices "A" (-50) 3 [159, 254]])).data_sample k
      = (processScan (scanAll (shift (reset State.init))
        [beaconWithServices "A" (-50) 1 [159, 254],
         beaconWithServices "B" (-60) 2 [2, 24]])).data_sample k) :=
  ⟨by decide, by decide,
   known_services_order_independent (shift (reset State.init))
     (scanAll (shift (reset State.init))
        [beaconWithServices "A" (-50) 1 [159, 254],
         beaconWithServices "B" (-60) 2 [2, 24]])
     (scanAll (shift (reset State.init))
        [beacon "A" (-50) 1, beaconWithServices "B" (-60) 2 [2, 24],
         beaconWithServices "A" (-50) 3 [159, 254]])
     [beaconWithServices "A" (-50) 1 [159, 254], beaconWithServices "B" (-60) 2 [2, 24]]
     rfl rfl (by decide)
     (Equiv.swap ⟨0, by decide⟩ ⟨1, by decide⟩)
     (by decide) (by decide) (by decide)
     (fun u t hu => by
        have hu2 : u < 2 := hu
        interval_cases u <;> revert t <;> decide)⟩

/-! ## TxPower minimum and maximum -/

/-- C16 (the code departs from the claim for values above 200).  One beacon
carries the TxPower byte 250: the table has the single populated bucket
(250, 1), the maximum at offset 8 is 250, but the minimum at offset 7 is 200, the
seed of `min_txpower`, because 250 is not below the seed. -/
theorem min_txpower_above_seed :
    (scanAll (shift (reset State.init)) [beaconWithTxPower "A" (-50) 1 250]).txPower 0
      = (250, 1) ∧
    (∀ k, k < MAX_DIFFERENT_TX_POWERS → k ≠ 0 →
      ((scanAll (shift (reset State.init)) [beaconWithTxPower "A" (-50) 1 250]).txPower k).2
        = 0) ∧
    (mainIteration State.init [beaconWithTxPower "A" (-50) 1 250]).data_sample 8 = 250 ∧
    (mainIteration State.init [beaconWithTxPower "A" (-50) 1 250]).data_sample 7 = 200 ∧
    (mainIteration State.init [beaconWithTxPower "A" (-50) 1 250]).data_sample 7 ≠ 250 := by
  decide

/-! ## Histogram weighted average -/

theorem weightedSum_succ (K : Nat) (table : Nat → Int × Int) :
    weightedSum (K + 1) table
      = weightedSum K table + (if (table K).2 ≠ 0 then (table K).1 * (table K).2 else 0) := by
  unfold weightedSum
  rw [List.range_succ, List.filter_append, List.map_append, List.sum_append]
  by_cases h : (table K).2 ≠ 0
  · rw [if_pos h]
    simp [List.filter_cons, h]
  · rw [if_neg h]
    simp [List.filter_cons, h]

theorem txPower_loop_sums (table : Nat → Int × Int) (a : TxStats) :
    ∀ K : Nat,
      (forLoop (txPowerBody table) K a).txpower_count = a.txpower_count + totalCount K table ∧
      (forLoop (txPowerBody table) K a).txpower_avg = a.txpower_avg + weightedSum K table := by
  intro K
  induction K with
  | zero => simp [forLoop, totalCount, weightedSum]
  | succ m ih =>
    show (txPowerBody table m (forLoop (txPowerBody table) m a)).txpower_count = _ ∧
      (txPowerBody table m (forLoop (txPowerBody table) m a)).txpower_avg = _
    rw [totalCount_succ, weightedSum_succ]
    obtain ⟨ih1, ih2⟩ := ih
    generalize forLoop (txPowerBody table) m a = X at ih1 ih2 ⊢
    unfold txPowerBody
    by_cases h : (table m).2 ≠ 0
    · rw [if_pos h, if_pos h]
      simp only
      rw [ih1, ih2]
      constructor <;> omega
    · rw [if_neg h, if_neg h, ih1, ih2]
      have h0 : (table m).2 = 0 := by simpa using h
      rw [h0]
      constructor <;> omega

theorem man_loop_sums (table : Nat → Int × Int) (a : ManStats) :
    ∀ K : Nat,
      (forLoop (manBody table) K a).man_packet_len_count
        = a.man_packet_len_count + totalCount K table ∧
      (forLoop (manBody table) K a).man_packet_len_avg
        = a.man_packet_len_avg + weightedSum K table := by
  intro K
  induction K with
  | zero => simp [forLoop, totalCount, weightedSum]
  | succ m ih =>
    show (manBody table m (forLoop (manBody table) m a)).man_packet_len_count = _ ∧
      (manBody table m (forLoop (manBody table) m a)).man_packet_len_avg = _
    rw [totalCount_succ, weightedSum_succ]
    obtain ⟨ih1, ih2⟩ := ih
    generalize forLoop (manBody table) m a = X at ih1 ih2 ⊢
    unfold manBody
    by_cases h : (table m).2 ≠ 0
    · rw [if_pos h, if_pos h]
      simp only
      rw [ih1, ih2]
      constructor <;> omega
    · rw [if_neg h, if_neg h, ih1, ih2]
      have h0 : (table m).2 = 0 := by simpa using h
      rw [h0]
      constructor <;> omega

theorem totalCount_nonneg (K : Nat) (table : Nat → Int × Int)
    (h : ∀ k, k < K → 0 ≤ (table k).2) : 0 ≤ totalCount K table := by
  induction K with
  | zero => simp [totalCount]
  | succ m ih =>
    rw [totalCount_succ]
    have h1 := ih (fun k hk => h k (by omega))
    have h2 := h m (by omega)
    omega

theorem weightedSum_of_totalCount_zero (K : Nat) (table : Nat → Int × Int)
    (h : ∀ k, k < K → 0 ≤ (table k).2) (h0 : totalCount K table = 0) :
    weightedSum K table = 0 := by
  induction K with
  | zero => simp [weightedSum]
  | succ m ih =>
    rw [totalCount_succ] at h0
    have h1 := totalCount_nonneg m table (fun k hk => h k (by omega))
    have h2 := h m (by omega)
    have hm : (table m).2 = 0 := by omega
    rw [weightedSum_succ, ih (fun k hk => h k (by omega)) (by omega), if_neg (by simp [hm])]
    rfl

theorem histLoop_counts_nonneg (K : Nat) (v : Int) (table : Nat → Int × Int)
    (h : ∀ k, k < K → 0 ≤ (table k).2) :
    ∀ (fuel i : Nat), i + fuel ≤ K → ∀ k, k < K → 0 ≤ (histLoop v table fuel i k).2 := by
  intro fuel
  induction fuel with
  | zero => intro i _ k hk; exact h k hk
  | succ f ih =>
    intro i hi k hk
    unfold histLoop
    have hik := h i (by omega)
    split_ifs
    · by_cases e : k = i
      · rw [e, setAt_same]
        show 0 ≤ (table i).2 + 1
        omega
      · rw [setAt_other _ _ _ _ e]; exact h k hk
    · by_cases e : k = i
      · rw [e, setAt_same]
        show 0 ≤ (table i).2 + 1
        omega
      · rw [setAt_other _ _ _ _ e]; exact h k hk
    · exact ih (i + 1) (by omega) k hk

theorem uuidLoop_outside (addr : String) (d : bt_data) (s : State) :
    ∀ (fuel i : Nat), SameOutsideServices s (uuidLoop addr d s fuel i).1 := by
  intro fuel
  induction fuel with
  | zero => intro i; exact ⟨rfl, rfl, rfl, rfl, rfl, rfl, rfl, rfl⟩
  | succ f ih =>
    intro i
    unfold uuidLoop
    split_ifs
    · simp only
      split
      · next s1 hs => exact servicesLoop_outside _ _ s _ _ s1 hs
      · exact ih (i + 2)
    · exact ⟨rfl, rfl, rfl, rfl, rfl, rfl, rfl, rfl⟩

theorem eir_found_counts_nonneg (d : bt_data) (a : String) (s : State)
    (h : CountsNonneg s) : CountsNonneg (eir_found d a s).1 := by
  unfold eir_found
  split_ifs
  · exact ⟨histLoop_counts_nonneg _ _ _ h.1 _ 0 (by omega), h.2⟩
  · exact ⟨h.1, histLoop_counts_nonneg _ _ _ h.2 _ 0 (by omega)⟩
  · exact h
  · have ho := uuidLoop_outside a d s d.data_len 0
    unfold CountsNonneg
    rw [ho.2.2.2.1, ho.2.2.2.2.1]
    exact h
  · exact h

theorem scan_counts_nonneg (s0 : State) (evs : List ScanEvent) :
    CountsNonneg (scanAll (shift (reset s0)) evs) := by
  apply scanAll_invariant CountsNonneg
  · intro s a h
    unfold addDevice
    simp only
    split_ifs
    · exact h
    · exact h
  · intro s r i c h
    exact h
  · intro d a s h
    exact eir_found_counts_nonneg d a s h
  · obtain ⟨htx, hman, _⟩ := reset_tables s0
    constructor
    · intro k hk
      show 0 ≤ ((reset s0).txPower k).2
      rw [htx k hk]
    · intro k hk
      show 0 ≤ ((reset s0).manufacturer_data_len k).2
      rw [hman k hk]

/-- The two averages of a state whose histogram counts are not negative. -/
theorem weighted_average_of_nonneg (s : State) (h : CountsNonneg s) :
    (processScan s).data_sample 6
      = (if totalCount MAX_DIFFERENT_TX_POWERS s.txPower = 0 then 0
         else Int.tdiv (weightedSum MAX_DIFFERENT_TX_POWERS s.txPower)
           (totalCount MAX_DIFFERENT_TX_POWERS s.txPower)) ∧
    (processScan s).data_sample 11
      = (if totalCount MAX_DIFFERENT_MAN_PACKET_LEN s.manufacturer_data_len = 0 then 0
         else Int.tdiv (weightedSum MAX_DIFFERENT_MAN_PACKET_LEN s.manufacturer_data_len)
           (totalCount MAX_DIFFERENT_MAN_PACKET_LEN s.manufacturer_data_len)) := by
  obtain ⟨_, _, _, _, l6, _, _, _, _, l11, _⟩ := processScan_row_low s
  constructor
  · rw [l6]
    unfold txPowerStats
    simp only
    obtain ⟨hc, ha⟩ := txPower_loop_sums s.txPower
      { txpower_count := 0, txpower_avg := 0, min_txpower := 200, max_txpower := 0 }
      MAX_DIFFERENT_TX_POWERS
    simp only [Int.zero_add] at hc ha
    by_cases h0 : totalCount MAX_DIFFERENT_TX_POWERS s.txPower = 0
    · rw [if_neg (by rw [hc, h0]; decide), if_pos h0, ha]
      exact weightedSum_of_totalCount_zero _ _ h.1 h0
    · rw [if_pos (by rw [hc]; exact h0), if_neg h0]
      show Int.tdiv _ _ = _
      rw [ha, hc]
  · rw [l11]
    unfold manStats
    simp only
    obtain ⟨hc, ha⟩ := man_loop_sums s.manufacturer_data_len
      { man_packet_len_count := 0, man_packet_len_avg := 0, man_packet_len_sum := 0 }
      MAX_DIFFERENT_MAN_PACKET_LEN
    simp only [Int.zero_add] at hc ha
    by_cases hw : weightedSum MAX_DIFFERENT_MAN_PACKET_LEN s.manufacturer_data_len = 0
    · rw [if_neg (by rw [ha, hw]; decide), ha, hw]
      split_ifs
      · rfl
      · rw [Int.zero_tdiv]
    · have h0 : totalCount MAX_DIFFERENT_MAN_PACKET_LEN s.manufacturer_data_len ≠ 0 :=
        fun e => hw (weightedSum_of_totalCount_zero _ _ h.2 e)
      rw [if_pos (by rw [ha]; exact hw), if_neg h0]
      show Int.tdiv _ _ = _
      rw [ha, hc]

/-- C17.  At the close of every window (any state before it, any beacons in
it), with `T` the TxPower table and `M` the manufacturer-length table of the
scan: the value at row offset 6 is the sum of value times count over the
populated buckets of `T` divided by the total count of `T` (integer division),
and 0 when that total is 0; the value at row offset 11 is the same expression
over `M`, and 0 when the total count of `M` is 0, although the code tests the
weighted sum and not the count before it divides. -/
theorem histogram_weighted_average (s0 : State) (evs : List ScanEvent) :
    (mainIteration s0 evs).data_sample 6
      = (if totalCount MAX_DIFFERENT_TX_POWERS (scanAll (shift (reset s0)) evs).txPower = 0
         then 0
         else Int.tdiv
           (weightedSum MAX_DIFFERENT_TX_POWERS (scanAll (shift (reset s0)) evs).txPower)
           (totalCount MAX_DIFFERENT_TX_POWERS (scanAll (shift (reset s0)) evs).txPower)) ∧
    (mainIteration s0 evs).data_sample 11
      = (if totalCount MAX_DIFFERENT_MAN_PACKET_LEN
            (scanAll (shift (reset s0)) evs).manufacturer_data_len = 0
         then 0
         else Int.tdiv
           (weightedSum MAX_DIFFERENT_MAN_PACKET_LEN
             (scanAll (shift (reset s0)) evs).manufacturer_data_len)
           (totalCount MAX_DIFFERENT_MAN_PACKET_LEN
             (scanAll (shift (reset s0)) evs).manufacturer_data_len)) :=
  weighted_average_of_nonneg _ (scan_counts_nonneg s0 evs)

/-! ## Tagging a service (claims 18 to 20) -/

theorem servicesLoop_found (idx : Int) (u : String) (s : State) (t : Nat)
    (hfound : s.services t = u) (hfirst : ∀ j, j < t → s.services j ≠ u)
    (ht : t ≤ s.different_services) :
    ∀ (fuel j : Nat), j ≤ t → t < j + fuel →
      servicesLoop idx u s fuel j =
        some (if !(s.dev_services idx t) then
            { s with
              dev_services := setAt s.dev_services idx (setAt (s.dev_services idx) t true)
              services_count := s.services_count + 1 }
          else s) := by
  intro fuel
  induction fuel with
  | zero => intro j h1 h2; omega
  | succ f ih =>
    intro j h1 h2
    unfold servicesLoop
    by_cases e : j = t
    · rw [e, if_pos hfound]
      split_ifs <;> rfl
    · rw [if_neg (hfirst j (by omega)), if_neg (by omega)]
      exact ih (j + 1) (by omega) (by omega)

theorem first_of_nodup (s : State) (u : String) (t : Nat) (hnodup : ServicesNodup s)
    (ht : t < s.different_services) (hfound : s.services t = u) :
    ∀ j, j < t → s.services j ≠ u := by
  intro j hj e
  have := hnodup j t (by omega) ht (e.trans hfound.symm)
  omega

theorem uuid_branch (el : bt_data) (addr : String) (s : State)
    (htype : el.type = BT_DATA_UUID16_SOME ∨ el.type = BT_DATA_UUID16_ALL) :
    eir_found el addr s =
      if el.data_len % 2 ≠ 0 then (s, true) else uuidLoop addr el s el.data_len 0 := by
  unfold eir_found
  have h1 : ¬ el.type = BT_DATA_TX_POWER := by
    intro e; rw [e] at htype; revert htype; decide
  have h2 : ¬ el.type = BT_DATA_MANUFACTURER_DATA := by
    intro e; rw [e] at htype; revert htype; decide
  rw [if_neg h1, if_neg h2, if_pos htype]

/-- C18.  A 16-bit-UUID element with an even, non-zero data length whose first
identifier already stands at position `t` of the distinct-services table (the
table holds no identifier twice), received from the device with registry index
`d`: `eir_found` returns `false`; if `dev_services[d][t]` was false the state
changes in exactly that cell, now true, and in `services_count`, now one
higher; if the cell was true the state is unchanged; in both cases
`services[]` and `different_services` are unchanged. -/
theorem tag_known_service (s : State) (addr : String) (el : bt_data) (d : Int) (t : Nat)
    (htype : el.type = BT_DATA_UUID16_SOME ∨ el.type = BT_DATA_UUID16_ALL)
    (hlen : el.data_len % 2 = 0) (hpos : 0 < el.data_len)
    (hd : getIndex s addr = d)
    (hnodup : ServicesNodup s) (ht : t < s.different_services)
    (hfound : s.services t
      = bt_uuid_to_str (el.data.getD 0 0 % 256 + 256 * (el.data.getD 1 0 % 256))) :
    (eir_found el addr s).2 = false ∧
    (s.dev_services d t = false →
      (eir_found el addr s).1 =
        { s with
          dev_services := setAt s.dev_services d (setAt (s.dev_services d) t true)
          services_count := s.services_count + 1 } ∧
      (eir_found el addr s).1.dev_services d t = true ∧
      (eir_found el addr s).1.services_count = s.services_count + 1) ∧
    (s.dev_services d t = true → (eir_found el addr s).1 = s) ∧
    (eir_found el addr s).1.services = s.services ∧
    (eir_found el addr s).1.different_services = s.different_services := by
  have hloop := servicesLoop_found d _ s t hfound (first_of_nodup s _ t hnodup ht hfound)
    (by omega) (s.different_services + 1) 0 (by omega) (by omega)
  have he : eir_found el addr s =
      ((if !(s.dev_services d t) then
            { s with
              dev_services := setAt s.dev_services d (setAt (s.dev_services d) t true)
              services_count := s.services_count + 1 }
          else s), false) := by
    rw [uuid_branch el addr s htype, if_neg (by omega)]
    obtain ⟨n, hn⟩ : ∃ n, el.data_len = n + 1 := ⟨el.data_len - 1, by omega⟩
    rw [hn]
    unfold uuidLoop
    rw [if_pos (by omega), hd]
    simp only [Nat.zero_add]
    rw [hloop]
  rw [he]
  refine ⟨rfl, ?_, ?_, ?_, ?_⟩
  · intro hc
    simp only [hc, Bool.not_false, if_true]
    refine ⟨trivial, ?_, trivial⟩
    rw [setAt_same, setAt_same]
  · intro hc
    simp only [hc, Bool.not_true, Bool.false_eq_true, if_false]
  · show (if _ then _ else _ : State).services = _
    split_ifs <;> rfl
  · show (if _ then _ else _ : State).different_services = _
    split_ifs <;> rfl

theorem tag_known_service_witness :
    (eir_found { type := BT_DATA_UUID16_ALL, data_len := 2, data := [15, 24] } "A"
      (scanAll (shift (reset State.init)) [beaconWithServices "B" (-50) 1 [15, 24],
        beacon "A" (-60) 2])).2 = false ∧
    (eir_found { type := BT_DATA_UUID16_ALL, data_len := 2, data := [15, 24] } "A"
      (scanAll (shift (reset State.init)) [beaconWithServices "B" (-50) 1 [15, 24],
        beacon "A" (-60) 2])).1.dev_services 1 0 = true ∧
    (eir_found { type := BT_DATA_UUID16_ALL, data_len := 2, data := [15, 24] } "A"
      (scanAll (shift (reset State.init)) [beaconWithServices "B" (-50) 1 [15, 24],
        beacon "A" (-60) 2])).1.services_count = 1 + 1 ∧
    (eir_found { type := BT_DATA_UUID16_ALL, data_len := 2, data := [15, 24] } "A"
      (scanAll (shift (reset State.init)) [beaconWithServices "B" (-50) 1 [15, 24],
        beacon "A" (-60) 2])).1.different_services = 1 := by
  have h := tag_known_service
    (scanAll (shift (reset State.init)) [beaconWithServices "B" (-50) 1 [15, 24],
        beacon "A" (-60) 2]) "A"
    { type := BT_DATA_UUID16_ALL, data_len := 2, data := [15, 24] } 1 0
    (by decide) (by decide) (by decide) (by decide)
    (scanAll_services_nodup _ (by decide) _) (by decide) (by decide)
  obtain ⟨h1, h2, _, _, h5⟩ := h
  obtain ⟨_, h22, h23⟩ := h2 (by decide)
  refine ⟨h1, h22, ?_, ?_⟩
  · rw [h23]; decide
  · rw [h5]; decide

/-- C20.  A 16-bit-UUID element whose data length is not divisible by 2:
`eir_found` returns the state unchanged (registry, logs, histograms,
`services[]`, `different_services`, `dev_services`, `services_count` and all
else) together with `true`, so `bt_data_parse` goes on with the rest of the
payload from the same state. -/
theorem malformed_uuid_element (s : State) (addr : String) (el : bt_data)
    (rest : List bt_data)
    (htype : el.type = BT_DATA_UUID16_SOME ∨ el.type = BT_DATA_UUID16_ALL)
    (hodd : el.data_len % 2 ≠ 0) :
    eir_found el addr s = (s, true) ∧
    bt_data_parse addr (el :: rest) s = bt_data_parse addr rest s := by
  have he : eir_found el addr s = (s, true) := by
    rw [uuid_branch el addr s htype, if_pos hodd]
  refine ⟨he, ?_⟩
  have hstep : bt_data_parse addr (el :: rest) s =
      if (eir_found el addr s).2 then bt_data_parse addr rest (eir_found el addr s).1
      else (eir_found el addr s).1 := rfl
  rw [hstep, he]
  exact if_pos rfl

theorem malformed_uuid_element_witness :
    eir_found { type := BT_DATA_UUID16_SOME, data_len := 3, data := [15, 24, 7] } "A"
        (scanAll (shift (reset State.init)) [beacon "A" (-60) 2])
      = (scanAll (shift (reset State.init)) [beacon "A" (-60) 2], true) ∧
    bt_data_parse "A"
        ({ type := BT_DATA_UUID16_SOME, data_len := 3, data := [15, 24, 7] } ::
          [{ type := BT_DATA_TX_POWER, data_len := 1, data := [4] }])
        (scanAll (shift (reset State.init)) [beacon "A" (-60) 2])
      = bt_data_parse "A" [{ type := BT_DATA_TX_POWER, data_len := 1, data := [4] }]
        (scanAll (shift (reset State.init)) [beacon "A" (-60) 2]) :=
  malformed_uuid_element (scanAll (shift (reset State.init)) [beacon "A" (-60) 2]) "A"
    { type := BT_DATA_UUID16_SOME, data_len := 3, data := [15, 24, 7] }
    [{ type := BT_DATA_TX_POWER, data_len := 1, data := [4] }]
    (by decide) (by decide)

theorem servicesLoop_new (idx : Int) (u : String) (s : State)
    (hnew : ∀ j, j ≤ s.different_services → s.services j ≠ u) :
    ∀ (fuel j : Nat), j ≤ s.different_services → s.different_services < j + fuel →
      servicesLoop idx u s fuel j =
        some { s with
          services := setAt s.services s.different_services u
          different_services := s.different_services + 1
          dev_services :=
            setAt s.dev_services idx (setAt (s.dev_services idx) s.different_services true)
          services_count := s.services_count + 1 } := by
  intro fuel
  induction fuel with
  | zero => intro j h1 h2; omega
  | succ f ih =>
    intro j h1 h2
    unfold servicesLoop
    rw [if_neg (hnew j h1)]
    by_cases e : j = s.different_services
    · rw [if_pos e, e]
    · rw [if_neg e]
      exact ih (j + 1) (by omega) (by omega)

/-- C19.  The distinct-services table is full (`different_services` equals the
declared size 23 of `services[]`) and a 16-bit-UUID element with an even,
non-zero data length brings an identifier that stands in none of the cells the
loop compares (`j <= different_services`): the observation is not dropped.
`eir_found` stores the identifier into `services[23]`, one past the end of the
array, raises `different_services` to 24, sets `dev_services[d][23]` and
raises `services_count` by one, then returns `false`. -/
theorem service_table_full_out_of_bounds (s : State) (addr : String) (el : bt_data)
    (htype : el.type = BT_DATA_UUID16_SOME ∨ el.type = BT_DATA_UUID16_ALL)
    (hlen : el.data_len % 2 = 0) (hpos : 0 < el.data_len)
    (hfull : s.different_services = MOST_COMMON_SERVICES_COUNT)
    (hnew : ∀ j, j ≤ MOST_COMMON_SERVICES_COUNT → s.services j
      ≠ bt_uuid_to_str (el.data.getD 0 0 % 256 + 256 * (el.data.getD 1 0 % 256))) :
    (eir_found el addr s).2 = false ∧
    (eir_found el addr s).1.different_services = MOST_COMMON_SERVICES_COUNT + 1 ∧
    (eir_found el addr s).1.services MOST_COMMON_SERVICES_COUNT
      = bt_uuid_to_str (el.data.getD 0 0 % 256 + 256 * (el.data.getD 1 0 % 256)) ∧
    (eir_found el addr s).1.services ≠ s.services ∧
    (eir_found el addr s).1.dev_services (getIndex s addr) MOST_COMMON_SERVICES_COUNT = true ∧
    (eir_found el addr s).1.services_count = s.services_count + 1 := by
  have hloop := servicesLoop_new (getIndex s addr) _ s (by rw [hfull]; exact hnew)
    (s.different_services + 1) 0 (by omega) (by omega)
  have he : eir_found el addr s =
      ({ s with
          services := setAt s.services s.different_services
            (bt_uuid_to_str (el.data.getD 0 0 % 256 + 256 * (el.data.getD 1 0 % 256)))
          different_services := s.different_services + 1
          dev_services := setAt s.dev_services (getIndex s addr)
            (setAt (s.dev_services (getIndex s addr)) s.different_services true)
          services_count := s.services_count + 1 }, false) := by
    rw [uuid_branch el addr s htype, if_neg (by omega)]
    obtain ⟨n, hn⟩ : ∃ n, el.data_len = n + 1 := ⟨el.data_len - 1, by omega⟩
    rw [hn]
    unfold uuidLoop
    rw [if_pos (by omega)]
    simp only [Nat.zero_add]
    rw [hloop]
  rw [he]
  simp only
  rw [hfull]
  refine ⟨?_, ?_, setAt_same _ _ _, ?_, ?_, ?_⟩
  · trivial
  · rfl
  · intro e
    have h1 := congrFun e MOST_COMMON_SERVICES_COUNT
    rw [setAt_same] at h1
    exact hnew MOST_COMMON_SERVICES_COUNT (Nat.le_refl _) h1.symm
  · rw [setAt_same, setAt_same]
  · trivial

theorem service_table_full_out_of_bounds_witness :
    (scanAll (shift (reset State.init)) (serviceBeacons 23)).different_services
      = MOST_COMMON_SERVICES_COUNT ∧
    (scanAll (shift (reset State.init)) (serviceBeacons 24)).different_services
      = MOST_COMMON_SERVICES_COUNT + 1 ∧
    (eir_found { type := BT_DATA_UUID16_ALL, data_len := 2, data := [24, 0] } "A"
      (scanAll (shift (reset State.init)) (serviceBeacons 23))).1.different_services
      = MOST_COMMON_SERVICES_COUNT + 1 ∧
    (eir_found { type := BT_DATA_UUID16_ALL, data_len := 2, data := [24, 0] } "A"
      (scanAll (shift (reset State.init)) (serviceBeacons 23))).1.services
        MOST_COMMON_SERVICES_COUNT = "0018" ∧
    (eir_found { type := BT_DATA_UUID16_ALL, data_len := 2, data := [24, 0] } "A"
      (scanAll (shift (reset State.init)) (serviceBeacons 23))).1.services_count
      = (scanAll (shift (reset State.init)) (serviceBeacons 23)).services_count + 1 := by
  have h := service_table_full_out_of_bounds
    (scanAll (shift (reset State.init)) (serviceBeacons 23)) "A"
    { type := BT_DATA_UUID16_ALL, data_len := 2, data := [24, 0] }
    (by decide) (by decide) (by decide) (by decide) (by decide)
  exact ⟨by decide, by decide, h.2.1, h.2.2.1.trans (by decide), h.2.2.2.2.2⟩

/-! ## Window reset (claim 21) -/

theorem resetLoop_spec (s : State) :
    ∀ n : Nat,
      (forLoop resetDevice n s).device_count = s.device_count ∧
      (∀ k, (forLoop resetDevice n s).devices k = if k < n then "" else s.devices k) ∧
      (∀ k, k < n → (forLoop resetDevice n s).old_devices k = s.devices k) ∧
      (∀ (d j : Nat), (forLoop resetDevice n s).beacons_received (d : Int) j
        = if d < n ∧ j < MAX_BEACONS_RECEIVED then (0, 0) else s.beacons_received (d : Int) j) ∧
      (∀ (d t : Nat), (forLoop resetDevice n s).dev_services (d : Int) t
        = if d < n ∧ t < MOST_COMMON_SERVICES_COUNT then false
          else s.dev_services (d : Int) t) ∧
      (forLoop resetDevice n s).services = s.services ∧
      (forLoop resetDevice n s).txPower = s.txPower ∧
      (forLoop resetDevice n s).manufacturer_data_len = s.manufacturer_data_len := by
  intro n
  induction n with
  | zero =>
    refine ⟨rfl, ?_, ?_, ?_, ?_, rfl, rfl, rfl⟩
    · intro k; rfl
    · intro k hk; omega
    · intro d j
      rw [if_neg (by omega)]; rfl
    · intro d t
      rw [if_neg (by omega)]; rfl
  | succ m ih =>
    obtain ⟨h1, h2, h3, h4, h5, h6, h7, h8⟩ := ih
    have hstep : forLoop resetDevice (m + 1) s = resetDevice m (forLoop resetDevice m s) := rfl
    rw [hstep]
    generalize forLoop resetDevice m s = y at h1 h2 h3 h4 h5 h6 h7 h8 ⊢
    refine ⟨h1, ?_, ?_, ?_, ?_, h6, h7, h8⟩
    · intro k
      show setAt y.devices m "" k = _
      by_cases e : k = m
      · rw [e, setAt_same, if_pos (by omega)]
      · rw [setAt_other _ _ _ _ e, h2 k]
        by_cases hk : k < m
        · rw [if_pos hk, if_pos (by omega)]
        · rw [if_neg hk, if_neg (by omega)]
    · intro k hk
      show setAt y.old_devices m (y.devices m) k = _
      by_cases e : k = m
      · rw [e, setAt_same, h2 m, if_neg (by omega)]
      · rw [setAt_other _ _ _ _ e]
        exact h3 k (by omega)
    · intro d j
      show setAt y.beacons_received (m : Int)
        (forLoop (fun j row => setAt row j (0, 0)) MAX_BEACONS_RECEIVED
          (y.beacons_received (m : Int))) (d : Int) j = _
      by_cases e : d = m
      · rw [e, setAt_same, forLoop_setAt_const]
        by_cases hj : j < MAX_BEACONS_RECEIVED
        · rw [if_pos hj, if_pos ⟨by omega, hj⟩]
        · rw [if_neg hj, if_neg (fun h => hj h.2), h4 m j, if_neg (by omega)]
      · rw [setAt_other _ _ _ _ (by omega), h4 d j]
        by_cases hd : d < m ∧ j < MAX_BEACONS_RECEIVED
        · rw [if_pos hd, if_pos ⟨by omega, hd.2⟩]
        · rw [if_neg hd, if_neg (fun h => hd ⟨by omega, h.2⟩)]
    · intro d t
      show setAt y.dev_services (m : Int)
        (forLoop (fun j row => setAt row j false) MOST_COMMON_SERVICES_COUNT
          (y.dev_services (m : Int))) (d : Int) t = _
      by_cases e : d = m
      · rw [e, setAt_same, forLoop_setAt_const]
        by_cases ht : t < MOST_COMMON_SERVICES_COUNT
        · rw [if_pos ht, if_pos ⟨by omega, ht⟩]
        · rw [if_neg ht, if_neg (fun h => ht h.2), h5 m t, if_neg (by omega)]
      · rw [setAt_other _ _ _ _ (by omega), h5 d t]
        by_cases hd : d < m ∧ t < MOST_COMMON_SERVICES_COUNT
        · rw [if_pos hd, if_pos ⟨by omega, hd.2⟩]
        · rw [if_neg hd, if_neg (fun h => hd ⟨by omega, h.2⟩)]

/-- The only cells of `dev_services` that `reset` changes are those of the
rows of registered devices, columns 0..22. -/
theorem reset_changes_registered_rows (s : State) (d t : Nat)
    (h : (reset s).dev_services (d : Int) t ≠ s.dev_services (d : Int) t) :
    d < s.device_count ∧ t < MOST_COMMON_SERVICES_COUNT := by
  obtain ⟨_, _, _, _, h5, _, _, _⟩ := resetLoop_spec s s.device_count
  have hr : (reset s).dev_services (d : Int) t
      = (forLoop resetDevice s.device_count s).dev_services (d : Int) t := rfl
  rw [hr, h5 d t] at h
  by_cases hc : d < s.device_count ∧ t < MOST_COMMON_SERVICES_COUNT
  · exact hc
  · rw [if_neg hc] at h
    exact absurd rfl h

/-- C21 (the code departs from the claim after an overflow of the service
table).  One window in which a single device advertises 24 different service
identifiers, one per beacon: one address, so the registry does not overflow,
and `device_count` is 1.  The 24th identifier is stored past the table and its
flag is stored through `dev_services[0][23]`, which is the array element at
position 23, the same as `dev_services[1][0]`.  The following `reset` changes
only cells at positions below 23 (row 0, columns 0..22), so the flag is still
true after it, although `different_services` is back to 0: not every
`dev_services` cell is false after `reset`. -/
theorem reset_misses_overflow_flag :
    (firstSeen ((serviceBeacons 24).map ScanEvent.addr)).length ≤ MAX_DEVICES ∧
    (runWindows State.init [serviceBeacons 24]).device_count = 1 ∧
    (runWindows State.init [serviceBeacons 24]).different_services = 24 ∧
    (runWindows State.init [serviceBeacons 24]).dev_services 0 23 = true ∧
    cellOffset 0 23 = cellOffset 1 0 ∧
    cellOffset 1 0 < MAX_DEVICES * MOST_COMMON_SERVICES_COUNT ∧
    (∀ d t : Nat,
      (reset (runWindows State.init [serviceBeacons 24])).dev_services (d : Int) t
          ≠ (runWindows State.init [serviceBeacons 24]).dev_services (d : Int) t →
        cellOffset d t < cellOffset 1 0) ∧
    (reset (runWindows State.init [serviceBeacons 24])).dev_services 0 23 = true ∧
    (reset (runWindows State.init [serviceBeacons 24])).different_services = 0 ∧
    (reset (runWindows State.init [serviceBeacons 24])).device_count = 0 := by
  have hdc : (runWindows State.init [serviceBeacons 24]).device_count = 1 := by decide
  refine ⟨by decide, hdc, by decide, by decide, by decide, by decide, ?_, by decide,
    rfl, rfl⟩
  intro d t h
  obtain ⟨h1, h2⟩ := reset_changes_registered_rows _ d t h
  rw [hdc] at h1
  have hd : d = 0 := by omega
  have h3 : t < 23 := h2
  unfold cellOffset MOST_COMMON_SERVICES_COUNT
  omega

/-! ## Comparison with the previous scan on non-empty sets (claim 22) -/

theorem diffLoop_match (x : String) (others : Nat → String) (n : Nat) :
    ∀ (fuel l : Nat) (c : Int), l + fuel = n →
      (∃ k, l ≤ k ∧ k < n ∧ x = others k) → diffLoop x others n fuel l c = c := by
  intro fuel
  induction fuel with
  | zero =>
    intro l c hl hex
    obtain ⟨k, h1, h2, _⟩ := hex
    omega
  | succ f ih =>
    intro l c hl hex
    unfold diffLoop
    by_cases e : x = others l
    · rw [if_pos e]
    · rw [if_neg e]
      obtain ⟨k, h1, h2, h3⟩ := hex
      have hkl : k ≠ l := fun h => e (h ▸ h3)
      rw [if_neg (by omega)]
      exact ih (l + 1) c (by omega) ⟨k, by omega, h2, h3⟩

theorem diffLoop_no_match (x : String) (others : Nat → String) (n : Nat) :
    ∀ (fuel l : Nat) (c : Int), l + fuel = n → 0 < fuel →
      (∀ k, l ≤ k → k < n → x ≠ others k) → diffLoop x others n fuel l c = c + 1 := by
  intro fuel
  induction fuel with
  | zero => intro l c _ hf _; omega
  | succ f ih =>
    intro l c hl _ hno
    unfold diffLoop
    rw [if_neg (hno l (Nat.le_refl l) (by omega))]
    by_cases hf : f = 0
    · subst hf
      rw [if_pos (by omega)]
      rfl
    · rw [if_neg (by omega)]
      exact ih (l + 1) c (by omega) (by omega) (fun k h1 h2 => hno k (by omega) h2)

theorem absentCount_succ (a : Nat → String) (n : Nat) (b : Nat → String) (m : Nat) :
    absentCount a (n + 1) b m
      = absentCount a n b m
        + (if (List.range m).any (fun l => decide (a n = b l)) then 0 else 1) := by
  unfold absentCount
  rw [List.range_succ, List.countP_append]
  congr 1
  by_cases h : (List.range m).any (fun l => decide (a n = b l)) = true
  · rw [if_pos h]
    simp [List.countP_cons, h]
  · rw [if_neg h]
    simp only [Bool.not_eq_true] at h
    simp [List.countP_cons, h]

/-- Against a non-empty set `b[0..m)` the comparison loops count the indices
`k < n` whose identifier is absent from it. -/
theorem diff_loops_count (a b : Nat → String) (m : Nat) (hm : 0 < m) :
    ∀ n : Nat, forLoop (fun k c => diffLoop (a k) b m m 0 c) n 0
      = (absentCount a n b m : Int) := by
  intro n
  induction n with
  | zero => rfl
  | succ n ih =>
    show diffLoop (a n) b m m 0 (forLoop (fun k c => diffLoop (a k) b m m 0 c) n 0) = _
    rw [ih, absentCount_succ]
    by_cases h : (List.range m).any (fun l => decide (a n = b l)) = true
    · rw [if_pos h]
      rw [List.any_eq_true] at h
      obtain ⟨k, hk, hdec⟩ := h
      rw [diffLoop_match (a n) b m m 0 _ (by omega)
        ⟨k, Nat.zero_le k, List.mem_range.1 hk, of_decide_eq_true hdec⟩]
      simp
    · rw [if_neg h]
      rw [diffLoop_no_match (a n) b m m 0 _ (by omega) hm]
      · simp
      · intro k _ hk e
        apply h
        rw [List.any_eq_true]
        exact ⟨k, List.mem_range.2 hk, decide_eq_true e⟩

theorem processScan_row_diff (s : State) :
    (processScan s).data_sample 1 = lost_device_count s ∧
    (processScan s).data_sample 2 = new_device_count s := by
  unfold processScan
  simp only
  refine ⟨?_, ?_⟩ <;>
    (rw [knownServices_other _ _ _ (Or.inl (by omega))]; simp [storeAll, setAt])

/-- C22.  When the current registry and the previous snapshot are both
non-empty, `new_device_count` (stored at row offset 2) is the number of current
identifiers absent from the snapshot and `lost_device_count` (stored at row
offset 1) is the number of snapshot identifiers absent from the current
registry. -/
theorem diff_counts_nonempty (s : State)
    (hcur : 0 < s.device_count) (hold : 0 < s.old_device_count) :
    new_device_count s
      = (absentCount s.devices s.device_count s.old_devices s.old_device_count : Int) ∧
    lost_device_count s
      = (absentCount s.old_devices s.old_device_count s.devices s.device_count : Int) ∧
    (processScan s).data_sample 2
      = (absentCount s.devices s.device_count s.old_devices s.old_device_count : Int) ∧
    (processScan s).data_sample 1
      = (absentCount s.old_devices s.old_device_count s.devices s.device_count : Int) := by
  have hnew := diff_loops_count s.devices s.old_devices s.old_device_count hold s.device_count
  have hlost := diff_loops_count s.old_devices s.devices s.device_count hcur s.old_device_count
  obtain ⟨r1, r2⟩ := processScan_row_diff s
  exact ⟨hnew, hlost, r2.trans hnew, r1.trans hlost⟩

theorem diff_counts_nonempty_witness :
    (scanAll (shift (reset (mainIteration State.init
        [beacon "A" (-50) 1, beacon "B" (-50) 2, beacon "C" (-50) 3])))
      [beacon "B" (-50) 4, beacon "C" (-50) 5, beacon "D" (-50) 6]).device_count = 3 ∧
    (scanAll (shift (reset (mainIteration State.init
        [beacon "A" (-50) 1, beacon "B" (-50) 2, beacon "C" (-50) 3])))
      [beacon "B" (-50) 4, beacon "C" (-50) 5, beacon "D" (-50) 6]).old_device_count = 3 ∧
    (runWindows State.init
      [[beacon "A" (-50) 1, beacon "B" (-50) 2, beacon "C" (-50) 3],
       [beacon "B" (-50) 4, beacon "C" (-50) 5, beacon "D" (-50) 6]]).data_sample 2 = 1 ∧
    (runWindows State.init
      [[beacon "A" (-50) 1, beacon "B" (-50) 2, beacon "C" (-50) 3],
       [beacon "B" (-50) 4, beacon "C" (-50) 5, beacon "D" (-50) 6]]).data_sample 1 = 1 := by
  have h := diff_counts_nonempty
    (scanAll (shift (reset (mainIteration State.init
        [beacon "A" (-50) 1, beacon "B" (-50) 2, beacon "C" (-50) 3])))
      [beacon "B" (-50) 4, beacon "C" (-50) 5, beacon "D" (-50) 6])
    (by decide) (by decide)
  refine ⟨by decide, by decide, ?_, ?_⟩
  · exact h.2.2.1.trans (by decide)
  · exact h.2.2.2.trans (by decide)

/-! ## Classification cadence (claim 23) -/

theorem mainLoop_classified (windows : Nat → List ScanEvent) (x0 : MainRun) :
    ∀ n : Nat, (forLoop (mainStep windows) n x0).classified
      = x0.classified ++ (List.range n).filter (fun r => decide (SCAN_COUNT ≤ r)) := by
  intro n
  induction n with
  | zero => simp [forLoop]
  | succ m ih =>
    have hstep : forLoop (mainStep windows) (m + 1) x0
        = mainStep windows m (forLoop (mainStep windows) m x0) := rfl
    rw [hstep, List.range_succ, List.filter_append]
    generalize forLoop (mainStep windows) m x0 = y at ih ⊢
    unfold mainStep
    simp only
    by_cases h : SCAN_COUNT ≤ m
    · have h5 : (5 : Nat) ≤ m := h
      rw [if_pos (by unfold SCAN_COUNT; omega)]
      simp [ih, h]
    · have h5 : ¬ (5 : Nat) ≤ m := h
      rw [if_neg (by unfold SCAN_COUNT; omega)]
      simp [ih, h]

/-- C23 (the claim as stated fails at the fifth and at the sixth window).  In
a run in which no beacon is ever received, the buffer is not handed to the
classifier at the end of window 5, although 5 is at least 5 and a multiple of 5,
and it is handed over at the end of window 6, which is not a multiple of 5. -/
theorem classification_not_every_fifth :
    (5 ≤ 5 ∧ 5 % 5 = 0 ∧ 5 ∉ classifiedWindows (mainRun (fun _ => []))) ∧
    (6 ∈ classifiedWindows (mainRun (fun _ => [])) ∧ 6 % 5 ≠ 0) := by
  have h := mainLoop_classified (fun _ => []) { state := State.init, classified := [] }
    (N_SAMPLES + SCAN_COUNT)
  have hc : classifiedWindows (mainRun (fun _ => []))
      = ((List.range (N_SAMPLES + SCAN_COUNT)).filter
          (fun r => decide (SCAN_COUNT ≤ r))).map (fun r => r + 1) := by
    unfold classifiedWindows mainRun
    rw [h]
    rfl
  rw [hc]
  decide

/-- C23 (amended).  Counting completed windows from 1 since startup, for every
sequence of received beacons the buffer is handed to the classifier at the end
of the n-th window exactly when n is at least 6, up to the last window 55: after
the first five windows every window is classified, each once and in order. -/
theorem classification_cadence (windows : Nat → List ScanEvent) :
    classifiedWindows (mainRun windows) = List.range' (SCAN_COUNT + 1) N_SAMPLES ∧
    ∀ n : Nat, n ∈ classifiedWindows (mainRun windows)
      ↔ SCAN_COUNT + 1 ≤ n ∧ n ≤ N_SAMPLES + SCAN_COUNT := by
  have h := mainLoop_classified windows { state := State.init, classified := [] }
    (N_SAMPLES + SCAN_COUNT)
  have hc : classifiedWindows (mainRun windows)
      = ((List.range (N_SAMPLES + SCAN_COUNT)).filter
          (fun r => decide (SCAN_COUNT ≤ r))).map (fun r => r + 1) := by
    unfold classifiedWindows mainRun
    rw [h]
    rfl
  have hl : classifiedWindows (mainRun windows) = List.range' (SCAN_COUNT + 1) N_SAMPLES := by
    rw [hc]
    decide
  refine ⟨hl, ?_⟩
  intro n
  rw [hl, List.mem_range']
  unfold SCAN_COUNT N_SAMPLES
  constructor
  · rintro ⟨i, hi, rfl⟩
    omega
  · intro hn
    exact ⟨n - 6, by omega, by omega⟩

/-! ## Normalisation (claim 24) -/

theorem store_column_other {F : Type} (L i : Nat) (v : Nat → F) :
    ∀ (rows : Nat) (p : Nat → F) (k : Nat), (∀ j, j < rows → k ≠ L * j + i) →
      forLoop (fun j q => setAt q (L * j + i) (v j)) rows p k = p k := by
  intro rows
  induction rows with
  | zero => intro p k _; rfl
  | succ m ih =>
    intro p k hk
    show setAt (forLoop (fun j q => setAt q (L * j + i) (v j)) m p) (L * m + i) (v m) k = p k
    rw [setAt_other _ _ _ _ (hk m (by omega))]
    exact ih p k (fun j hj => hk j (by omega))

theorem store_column_cell {F : Type} (L i : Nat) (hL : 0 < L) (v : Nat → F) :
    ∀ (rows : Nat) (p : Nat → F) (j : Nat), j < rows →
      forLoop (fun j q => setAt q (L * j + i) (v j)) rows p (L * j + i) = v j := by
  intro rows
  induction rows with
  | zero => intro p j hj; omega
  | succ m ih =>
    intro p j hj
    show setAt (forLoop (fun j q => setAt q (L * j + i) (v j)) m p) (L * m + i) (v m)
      (L * j + i) = v j
    by_cases e : j = m
    · rw [e, setAt_same]
    · have hne : L * j + i ≠ L * m + i := by
        intro h
        have h2 : L * j = L * m := by omega
        exact e (Nat.eq_of_mul_eq_mul_left hL h2)
      rw [setAt_other _ _ _ _ hne]
      exact ih p j (by omega)

/-- Every cell of the buffer after `prepare_data`, for any length and number
of rows and any `float` operations. -/
theorem prepare_data_cell {F : Type} (ops : FloatOps F) (mean_list std_list : Nat → F)
    (raw : Nat → Int) (L rows : Nat) (prepared : Nat → F) (i j : Nat)
    (hi : i < L) (hj : j < rows) :
    ∀ n : Nat, n ≤ L →
      forLoop (fun i p =>
        if !(ops.isZero (std_list i)) then
          forLoop (fun j q =>
            setAt q (L * j + i)
              (ops.div (ops.sub (ops.ofInt (raw (L * j + i))) (mean_list i))
                (std_list i))) rows p
        else p) n prepared (L * j + i)
      = if i < n ∧ ops.isZero (std_list i) = false then
          ops.div (ops.sub (ops.ofInt (raw (L * j + i))) (mean_list i)) (std_list i)
        else prepared (L * j + i) := by
  intro n
  induction n with
  | zero =>
    intro _
    rw [if_neg (by omega)]
    rfl
  | succ m ih =>
    intro hm
    have ih1 := ih (by omega)
    have hstep : ∀ (f : Nat → (Nat → F) → (Nat → F)),
        forLoop f (m + 1) prepared = f m (forLoop f m prepared) := fun _ => rfl
    rw [hstep]
    generalize forLoop _ m prepared = y at ih1 ⊢
    cases hs : ops.isZero (std_list m) with
    | false =>
      have hcond : (!false) = true := rfl
      rw [if_pos hcond]
      by_cases e : i = m
      · subst e
        rw [store_column_cell L i (by omega)
          (fun j => ops.div (ops.sub (ops.ofInt (raw (L * j + i))) (mean_list i))
            (std_list i)) rows y j hj,
          if_pos ⟨by omega, hs⟩]
      · rw [store_column_other L m _ rows y (L * j + i), ih1]
        · by_cases hc : i < m ∧ ops.isZero (std_list i) = false
          · rw [if_pos hc, if_pos ⟨by omega, hc.2⟩]
          · rw [if_neg hc, if_neg (fun h => hc ⟨by omega, h.2⟩)]
        · intro j2 _ h
          have h1 : (L * j + i) % L = i := by
            rw [Nat.mul_add_mod, Nat.mod_eq_of_lt hi]
          have h2 : (L * j2 + m) % L = m := by
            rw [Nat.mul_add_mod, Nat.mod_eq_of_lt (by omega)]
          rw [h, h2] at h1
          exact e h1.symm
    | true =>
      have hcond : ¬ ((!true) = true) := by decide
      rw [if_neg hcond, ih1]
      by_cases hc : i < m ∧ ops.isZero (std_list i) = false
      · rw [if_pos hc, if_pos ⟨by omega, hc.2⟩]
      · rw [if_neg hc]
        by_cases e : i = m
        · subst e
          rw [if_neg (fun h => by rw [hs] at h; exact Bool.noConfusion h.2)]
        · rw [if_neg (fun h => hc ⟨by omega, h.2⟩)]

/-- C24.  After `prepare_data(raw, 46, 5, prepared)`, for every column
`i < 46` and every row `j < 5`: if `std_list[i] != 0` the cell
`prepared[46*j+i]` holds the value of the C expression
`(raw[46*j+i] - mean_list[i]) / std_list[i]`, computed with the `float`
conversion, subtraction and division of the target (whatever their rounding),
from the mean and the deviation of column `i` in all rows; if
`std_list[i] == 0` the cell is as it was before the call.  The array `raw` is an
argument that the function only reads. -/
theorem normalization {F : Type} (ops : FloatOps F) (mean_list std_list : Nat → F)
    (raw : Nat → Int) (prepared : Nat → F) (i j : Nat)
    (hi : i < DATA_LINE_LENGTH) (hj : j < DATA_ROWS) :
    (ops.isZero (std_list i) = false →
      prepare_data ops mean_list std_list raw DATA_LINE_LENGTH DATA_ROWS prepared
          (DATA_LINE_LENGTH * j + i)
        = ops.div (ops.sub (ops.ofInt (raw (DATA_LINE_LENGTH * j + i))) (mean_list i))
            (std_list i)) ∧
    (ops.isZero (std_list i) = true →
      prepare_data ops mean_list std_list raw DATA_LINE_LENGTH DATA_ROWS prepared
          (DATA_LINE_LENGTH * j + i)
        = prepared (DATA_LINE_LENGTH * j + i)) := by
  have h := prepare_data_cell ops mean_list std_list raw DATA_LINE_LENGTH DATA_ROWS prepared
    i j hi hj DATA_LINE_LENGTH (Nat.le_refl _)
  constructor
  · intro hs
    unfold prepare_data
    rw [h, if_pos ⟨hi, hs⟩]
  · intro hs
    unfold prepare_data
    rw [h, if_neg (fun hc => by rw [hs] at hc; exact Bool.noConfusion hc.2)]

/-- Witness for C24 with operations that round: values are integers and the
division truncates.  Raw value 5, mean 1 and deviation 3 in column 3 give the
truncated quotient 1, not 4/3; column 0 has deviation 0 and keeps its cell. -/
theorem normalization_witness :
    prepare_data
        { ofInt := fun x => x, sub := fun a b => a - b, div := Int.tdiv,
          isZero := fun x => decide (x = 0) }
        (fun _ => 1) (fun i => if i = 0 then 0 else 3) (fun _ => 5)
        DATA_LINE_LENGTH DATA_ROWS (fun _ => 7) (DATA_LINE_LENGTH * 2 + 3) = 1 ∧
    prepare_data
        { ofInt := fun x => x, sub := fun a b => a - b, div := Int.tdiv,
          isZero := fun x => decide (x = 0) }
        (fun _ => 1) (fun i => if i = 0 then 0 else 3) (fun _ => 5)
        DATA_LINE_LENGTH DATA_ROWS (fun _ => 7) (DATA_LINE_LENGTH * 2 + 0) = 7 :=
  ⟨((normalization
        { ofInt := fun x => x, sub := fun a b => a - b, div := Int.tdiv,
          isZero := fun x => decide (x = 0) }
        (fun _ => 1) (fun i => if i = 0 then 0 else 3) (fun _ => 5)
        (fun _ => 7) 3 2 (by decide) (by decide)).1 (by decide)).trans (by decide),
   (normalization
        { ofInt := fun x => x, sub := fun a b => a - b, div := Int.tdiv,
          isZero := fun x => decide (x = 0) }
        (fun _ => 1) (fun i => if i = 0 then 0 else 3) (fun _ => 5)
        (fun _ => 7) 0 2 (by decide) (by decide)).2 (by decide)⟩

/-! ## Shape of the storage record (claim 25) -/

/-- C25 (the code departs from the claim in the last data row).  For the
label "house", a buffer of 230 values -50 and the time points 0, 1, 2, 3, the
record has six lines: the header with 50 columns, four data rows with 50
columns (label, 46 values, 3 timing columns) and a fifth data row with only 47
columns: the timing columns are appended when the loop reaches the first value
of the next segment (`i % 46 == 0 && i != 0`), which never happens after the
last segment. -/
theorem record_last_row_without_timing :
    columnCounts (dataRecord "house" (fun _ => -50) (fun j => (j : Int)))
      = [50, 50, 50, 50, 50, 47] := by
  decide!

/-! ## Tick deltas (claims 26 and 29) -/

theorem wrap32_add_left (x y : Int) : wrap32 (wrap32 x + y) = wrap32 (x + y) := by
  unfold wrap32
  omega

theorem wrap32_range (x : Int) : -2147483648 ≤ wrap32 x ∧ wrap32 x < 2147483648 := by
  unfold wrap32
  omega

theorem wrap32_id (x : Int) (h0 : -2147483648 ≤ x) (h1 : x < 2147483648) : wrap32 x = x := by
  unfold wrap32
  omega

theorem wrap32_stored_difference (a b : Int) :
    wrap32 (0 + (wrap32 a - wrap32 b)) = wrap32 (a - b) := by
  unfold wrap32
  omega

theorem wrap32_as_mod (x : Int) :
    (x % 4294967296 < 2147483648 → wrap32 x = x % 4294967296) ∧
    (2147483648 ≤ x % 4294967296 → wrap32 x = x % 4294967296 - 4294967296) := by
  unfold wrap32
  omega

/-- The quotient of an `int` value by a positive divisor is an `int` value. -/
theorem tdiv_range (x d : Int) (h0 : -2147483648 ≤ x) (h1 : x < 2147483648) (hd : 1 ≤ d) :
    -2147483648 ≤ Int.tdiv x d ∧ Int.tdiv x d < 2147483648 := by
  by_cases hx : 0 ≤ x
  · have hq0 : 0 ≤ Int.tdiv x d := Int.tdiv_nonneg hx (by omega)
    have hq1 : Int.tdiv x d ≤ x := by
      rw [Int.tdiv_eq_ediv hx (by omega)]
      exact Int.ediv_le_self d hx
    omega
  · have hneg : Int.tdiv x d = -Int.tdiv (-x) d := by
      rw [Int.neg_tdiv, neg_neg]
    have hq0 : 0 ≤ Int.tdiv (-x) d := Int.tdiv_nonneg (by omega) (by omega)
    have hq1 : Int.tdiv (-x) d ≤ -x := by
      rw [Int.tdiv_eq_ediv (by omega) (by omega)]
      exact Int.ediv_le_self d (by omega)
    omega

/-- In the loop over a log the accumulated tick deltas are, at every moment,
the tick of the last slot visited minus the tick of slot 0, reduced to `int`. -/
theorem beaconLoop_telescope (row : Nat → Int × Int) :
    ∀ (fuel : Nat) (a : BeaconAcc),
      a.current_avg_bt_bc = wrap32 ((row (a.j - 1)).2 - (row 0).2) →
      (beaconLoop row fuel a).current_avg_bt_bc
        = wrap32 ((row ((beaconLoop row fuel a).j - 1)).2 - (row 0).2) := by
  intro fuel
  induction fuel with
  | zero => intro a h; exact h
  | succ f ih =>
    intro a h
    unfold beaconLoop
    by_cases hb : (row a.j).1 = 0
    · rw [if_pos hb]
      exact h
    · rw [if_neg hb]
      apply ih
      show (if a.j > 0 then
          wrap32 (a.current_avg_bt_bc + ((row a.j).2 - (row (a.j - 1)).2))
        else a.current_avg_bt_bc) = wrap32 ((row (a.j + 1 - 1)).2 - (row 0).2)
      rw [Nat.add_sub_cancel]
      by_cases hj : a.j > 0
      · rw [if_pos hj, h, wrap32_add_left]
        congr 1
        omega
      · have hj0 : a.j = 0 := by omega
        rw [if_neg hj, h, hj0]

theorem beaconLoop_count (row : Nat → Int × Int) (a : BeaconAcc) (j : Nat) (ha : a.j = 0)
    (hj2 : j ≤ MAX_BEACONS_RECEIVED)
    (hnz : ∀ k, k < j → (row k).1 ≠ 0)
    (hend : j < MAX_BEACONS_RECEIVED → (row j).1 = 0) :
    (beaconLoop row MAX_BEACONS_RECEIVED a).j = j := by
  by_cases hlt : j < MAX_BEACONS_RECEIVED
  · rw [beaconLoop_break row j MAX_BEACONS_RECEIVED a hlt
      (fun i hi => by rw [ha, Nat.zero_add]; exact hnz i hi)
      (by rw [ha, Nat.zero_add]; exact hend hlt)]
    show ((beaconStep row)^[j] a).j = j
    rw [beaconStep_iterate_j, ha, Nat.zero_add]
  · have hj : j = MAX_BEACONS_RECEIVED := by omega
    rw [beaconLoop_no_break row MAX_BEACONS_RECEIVED a
      (fun i hi => by rw [ha, Nat.zero_add]; exact hnz i (by omega))]
    rw [beaconStep_iterate_j, ha, Nat.zero_add, hj]

/-- The two timing sums after the body of the device loop for device `i`, in
terms of the accumulator `A` that the loop over its log returns. -/
theorem deviceBody_timing (b : Int → Nat → Int × Int) (i : Nat) (r : RssiStats) :
    let A := beaconLoop (b (i : Int)) MAX_BEACONS_RECEIVED
      { avg_received := r.avg_received, avg_r := 0, current_min_rssi := 0,
        current_max_rssi := -100, current_avg_bt_bc := 0, j := 0 }
    (deviceBody b i r).avg_avg_difference_between_beacons
      = (if A.j > 1 then
          wrap32 (r.avg_avg_difference_between_beacons
            + Int.tdiv A.current_avg_bt_bc ((A.j : Int) - 1))
         else r.avg_avg_difference_between_beacons) ∧
    (deviceBody b i r).avg_difference_first_last
      = (if A.j > 1 then
          wrap32 (r.avg_difference_first_last + ((b (i : Int) (A.j - 1)).2 - (b (i : Int) 0).2))
         else r.avg_difference_first_last) := by
  intro A
  have hA : beaconLoop (b (i : Int)) MAX_BEACONS_RECEIVED
      { avg_received := r.avg_received, avg_r := 0, current_min_rssi := 0,
        current_max_rssi := -100, current_avg_bt_bc := 0, j := 0 } = A := rfl
  unfold deviceBody
  simp only [hA]
  generalize A = A1
  by_cases h0 : A1.j ≠ 0 <;> by_cases h1 : A1.j > 1 <;>
    simp only [h0, h1, if_true, if_false, ne_eq, not_false_eq_true, not_true_eq_false,
      and_true, and_false]

/-- C29.  For a device `i` whose log retains `j > 1` observations (slots
`0..j-1` are occupied, and slot `j` is free unless the log is full): the loop
over the log ends with the counter `j` and with `current_avg_bt_bc` equal to the
tick of the last observation minus the tick of the first, reduced to 32 bits;
so the device adds that first-to-last delta divided by `j - 1` (integer
division) to `avg_avg_difference_between_beacons` and the delta itself to
`avg_difference_first_last`; and in a window with this device alone the row has
avg_avg_difference_between_beacons (offset 21) equal to
avg_difference_first_last (offset 22) divided by `j - 1`. -/
theorem tick_deltas_telescope (s : State) (i j : Nat) (r : RssiStats)
    (hj : 1 < j) (hj2 : j ≤ MAX_BEACONS_RECEIVED)
    (hnz : ∀ k, k < j → (s.beacons_received (i : Int) k).1 ≠ 0)
    (hend : j < MAX_BEACONS_RECEIVED → (s.beacons_received (i : Int) j).1 = 0) :
    (beaconLoop (s.beacons_received (i : Int)) MAX_BEACONS_RECEIVED
      { avg_received := r.avg_received, avg_r := 0, current_min_rssi := 0,
        current_max_rssi := -100, current_avg_bt_bc := 0, j := 0 }).j = j ∧
    (beaconLoop (s.beacons_received (i : Int)) MAX_BEACONS_RECEIVED
      { avg_received := r.avg_received, avg_r := 0, current_min_rssi := 0,
        current_max_rssi := -100, current_avg_bt_bc := 0, j := 0 }).current_avg_bt_bc
      = wrap32 ((s.beacons_received (i : Int) (j - 1)).2 - (s.beacons_received (i : Int) 0).2) ∧
    (deviceBody s.beacons_received i r).avg_avg_difference_between_beacons
      = wrap32 (r.avg_avg_difference_between_beacons
          + Int.tdiv (wrap32 ((s.beacons_received (i : Int) (j - 1)).2
              - (s.beacons_received (i : Int) 0).2)) ((j : Int) - 1)) ∧
    (deviceBody s.beacons_received i r).avg_difference_first_last
      = wrap32 (r.avg_difference_first_last
          + ((s.beacons_received (i : Int) (j - 1)).2 - (s.beacons_received (i : Int) 0).2)) ∧
    (s.device_count = 1 → i = 0 →
      (processScan s).data_sample 21
        = Int.tdiv ((processScan s).data_sample 22) ((j : Int) - 1)) := by
  have hcount : ∀ avg : Int,
      (beaconLoop (s.beacons_received (i : Int)) MAX_BEACONS_RECEIVED
        { avg_received := avg, avg_r := 0, current_min_rssi := 0,
          current_max_rssi := -100, current_avg_bt_bc := 0, j := 0 }).j = j :=
    fun avg => beaconLoop_count _ _ j rfl hj2 hnz hend
  have htel : ∀ avg : Int,
      (beaconLoop (s.beacons_received (i : Int)) MAX_BEACONS_RECEIVED
        { avg_received := avg, avg_r := 0, current_min_rssi := 0,
          current_max_rssi := -100, current_avg_bt_bc := 0, j := 0 }).current_avg_bt_bc
        = wrap32 ((s.beacons_received (i : Int) (j - 1)).2
            - (s.beacons_received (i : Int) 0).2) := by
    intro avg
    have h := beaconLoop_telescope (s.beacons_received (i : Int)) MAX_BEACONS_RECEIVED
      { avg_received := avg, avg_r := 0, current_min_rssi := 0,
        current_max_rssi := -100, current_avg_bt_bc := 0, j := 0 }
      (by
        show (0 : Int) = wrap32 ((s.beacons_received (i : Int) 0).2
          - (s.beacons_received (i : Int) 0).2)
        rw [Int.sub_self]
        rfl)
    rw [hcount avg] at h
    exact h
  obtain ⟨t1, t2⟩ := deviceBody_timing s.beacons_received i r
  rw [hcount, htel] at t1
  rw [hcount] at t2
  rw [if_pos hj] at t1 t2
  refine ⟨hcount _, htel _, t1, t2, ?_⟩
  intro hdc hi
  subst hi
  obtain ⟨_, _, _, _, _, _, f21, f22⟩ := single_device_fields s hdc
  have hc0 := hcount 0
  have ht0 := htel 0
  simp only [Nat.cast_zero] at hc0 ht0
  rw [f21, f22, hc0, ht0, if_pos hj, if_pos hj, Int.zero_add, Int.zero_add]
  obtain ⟨w0, w1⟩ := wrap32_range
    ((s.beacons_received 0 (j - 1)).2 - (s.beacons_received 0 0).2)
  obtain ⟨q0, q1⟩ := tdiv_range _ ((j : Int) - 1) w0 w1 (by omega)
  exact wrap32_id _ q0 q1

theorem tick_deltas_telescope_witness :
    (deviceBody (scanAll (shift (reset State.init))
        [beacon "A" (-50) 100, beacon "A" (-60) 110, beacon "A" (-40) 125]).beacons_received
      0 RssiStats.seed).avg_difference_first_last = 25 ∧
    (processScan (scanAll (shift (reset State.init))
        [beacon "A" (-50) 100, beacon "A" (-60) 110, beacon "A" (-40) 125])).data_sample 22
      = 25 ∧
    (processScan (scanAll (shift (reset State.init))
        [beacon "A" (-50) 100, beacon "A" (-60) 110, beacon "A" (-40) 125])).data_sample 21
      = Int.tdiv ((processScan (scanAll (shift (reset State.init))
          [beacon "A" (-50) 100, beacon "A" (-60) 110, beacon "A" (-40) 125])).data_sample 22)
        (((3 : Nat) : Int) - 1) := by
  have h := tick_deltas_telescope
    (scanAll (shift (reset State.init))
      [beacon "A" (-50) 100, beacon "A" (-60) 110, beacon "A" (-40) 125])
    0 3 RssiStats.seed (by decide) (by decide) (by decide) (by decide)
  exact ⟨h.2.2.2.1.trans (by decide), by decide, h.2.2.2.2 (by decide) rfl⟩

/-- C26 (the claim as stated fails when the modular delta is 2^31 or more).
One device with two observations at the counter readings 3000000000 and
1000000000 (the counter wrapped in between): the delta in unsigned modular
arithmetic is 2294967296, but the row has -2000000000 at offset 22, because the
readings are stored and subtracted as `int`. -/
theorem first_last_delta_not_unsigned :
    (scanAll (shift (reset State.init))
      [beacon "A" (-50) 3000000000, beacon "A" (-50) 1000000000]).device_count = 1 ∧
    ((1000000000 : Int) - 3000000000) % 4294967296 = 2294967296 ∧
    (processScan (scanAll (shift (reset State.init))
      [beacon "A" (-50) 3000000000, beacon "A" (-50) 1000000000])).data_sample 22
      = -2000000000 := by
  decide

/-- C26 (amended).  In a window with a single device whose log retains
`j > 1` observations, the first and the last stored tick being the `int`
conversions of the counter readings `t_first` and `t_last`:
avg_difference_first_last (offset 22) is `t_last - t_first` reduced to a signed
32-bit value.  It is the non-negative number `(t_last - t_first) mod 2^32`
exactly when that number is below 2^31, also when the counter wrapped between
the two observations; otherwise it is that number minus 2^32. -/
theorem first_last_delta_signed (s : State) (j t_first t_last : Nat)
    (hcount : s.device_count = 1) (hj : 1 < j) (hj2 : j ≤ MAX_BEACONS_RECEIVED)
    (hnz : ∀ k, k < j → (s.beacons_received 0 k).1 ≠ 0)
    (hend : j < MAX_BEACONS_RECEIVED → (s.beacons_received 0 j).1 = 0)
    (hfirst : (s.beacons_received 0 0).2 = wrap32 (t_first : Int))
    (hlast : (s.beacons_received 0 (j - 1)).2 = wrap32 (t_last : Int)) :
    (processScan s).data_sample 22 = wrap32 ((t_last : Int) - (t_first : Int)) ∧
    (((t_last : Int) - (t_first : Int)) % 4294967296 < 2147483648 →
      (processScan s).data_sample 22 = ((t_last : Int) - (t_first : Int)) % 4294967296) ∧
    (2147483648 ≤ ((t_last : Int) - (t_first : Int)) % 4294967296 →
      (processScan s).data_sample 22
        = ((t_last : Int) - (t_first : Int)) % 4294967296 - 4294967296) := by
  obtain ⟨_, _, _, _, _, _, _, f22⟩ := single_device_fields s hcount
  have hc : (beaconLoop (s.beacons_received 0) MAX_BEACONS_RECEIVED
      { avg_received := 0, avg_r := 0, current_min_rssi := 0,
        current_max_rssi := -100, current_avg_bt_bc := 0, j := 0 }).j = j :=
    beaconLoop_count _ _ j rfl hj2 hnz hend
  have h22 : (processScan s).data_sample 22 = wrap32 ((t_last : Int) - (t_first : Int)) := by
    rw [f22, hc, if_pos hj, hfirst, hlast]
    exact wrap32_stored_difference _ _
  obtain ⟨m1, m2⟩ := wrap32_as_mod ((t_last : Int) - (t_first : Int))
  exact ⟨h22, fun h => h22.trans (m1 h), fun h => h22.trans (m2 h)⟩

theorem first_last_delta_signed_witness :
    (scanAll (shift (reset State.init))
      [beacon "A" (-50) 4294967000, beacon "A" (-60) 200]).device_count = 1 ∧
    (processScan (scanAll (shift (reset State.init))
      [beacon "A" (-50) 4294967000, beacon "A" (-60) 200])).data_sample 22 = 496 ∧
    (((200 : Nat) : Int) - ((4294967000 : Nat) : Int)) % 4294967296 = 496 := by
  have h := first_last_delta_signed
    (scanAll (shift (reset State.init))
      [beacon "A" (-50) 4294967000, beacon "A" (-60) 200])
    2 4294967000 200 (by decide) (by decide) (by decide) (by decide) (by decide)
    (by decide) (by decide)
  exact ⟨by decide, (h.2.1 (by decide)).trans (by decide), by decide⟩

/-! ## One service tag per payload (claim 27) -/

theorem servicesLoop_returns (idx : Int) (u : String) (s : State) :
    ∀ (fuel j : Nat), j ≤ s.different_services → s.different_services < j + fuel →
      ∃ s1, servicesLoop idx u s fuel j = some s1 := by
  intro fuel
  induction fuel with
  | zero => intro j h1 h2; omega
  | succ f ih =>
    intro j h1 h2
    unfold servicesLoop
    split_ifs with a b c
    · exact ⟨_, rfl⟩
    · exact ⟨_, rfl⟩
    · exact ⟨_, rfl⟩
    · exact ih (j + 1) (by omega) (by omega)

/-- The loop over the identifiers of an element returns in its first
iteration, with the result of the service loop for the first identifier. -/
theorem uuidLoop_first (addr : String) (el : bt_data) (s : State) (hpos : 0 < el.data_len) :
    ∃ s1, servicesLoop (getIndex s addr)
        (bt_uuid_to_str (el.data.getD 0 0 % 256 + 256 * (el.data.getD 1 0 % 256))) s
        (s.different_services + 1) 0 = some s1 ∧
      uuidLoop addr el s el.data_len 0 = (s1, false) := by
  obtain ⟨s1, h1⟩ := servicesLoop_returns (getIndex s addr)
    (bt_uuid_to_str (el.data.getD 0 0 % 256 + 256 * (el.data.getD 1 0 % 256))) s
    (s.different_services + 1) 0 (by omega) (by omega)
  refine ⟨s1, h1, ?_⟩
  obtain ⟨n, hn⟩ : ∃ n, el.data_len = n + 1 := ⟨el.data_len - 1, by omega⟩
  rw [hn]
  unfold uuidLoop
  rw [if_pos (by omega)]
  simp only [Nat.zero_add]
  rw [h1]

theorem getD_take_two (l : List Nat) :
    (l.take 2).getD 0 0 = l.getD 0 0 ∧ (l.take 2).getD 1 0 = l.getD 1 0 := by
  cases l with
  | nil => exact ⟨rfl, rfl⟩
  | cons a t =>
    cases t with
    | nil => exact ⟨rfl, rfl⟩
    | cons b r => exact ⟨rfl, rfl⟩

/-- C27.  A 16-bit-UUID element with an even, non-zero data length (so it
carries `k >= 1` identifiers): `eir_found` returns `false`, its resulting state
is the state that results from the element cut down to its first identifier
(data length 2, the first two bytes), and `bt_data_parse` stops at the element:
the rest of the payload is not processed. -/
theorem one_service_tag_per_payload (s : State) (addr : String) (el : bt_data)
    (rest : List bt_data)
    (htype : el.type = BT_DATA_UUID16_SOME ∨ el.type = BT_DATA_UUID16_ALL)
    (hlen : el.data_len % 2 = 0) (hpos : 0 < el.data_len) :
    (eir_found el addr s).2 = false ∧
    eir_found el addr s
      = eir_found { type := el.type, data_len := 2, data := el.data.take 2 } addr s ∧
    bt_data_parse addr (el :: rest) s = (eir_found el addr s).1 := by
  obtain ⟨s1, h1, h2⟩ := uuidLoop_first addr el s hpos
  have he : eir_found el addr s = (s1, false) := by
    rw [uuid_branch el addr s htype, if_neg (by omega)]
    exact h2
  obtain ⟨g0, g1⟩ := getD_take_two el.data
  obtain ⟨s2, k1, k2⟩ := uuidLoop_first addr
    { type := el.type, data_len := 2, data := el.data.take 2 } s (Nat.succ_pos 1)
  have hcut : eir_found { type := el.type, data_len := 2, data := el.data.take 2 } addr s
      = (s2, false) := by
    have hb := uuid_branch { type := el.type, data_len := 2, data := el.data.take 2 } addr s
      htype
    rw [hb]
    exact (if_neg (fun h => h (show (2 : Nat) % 2 = 0 from rfl))).trans k2
  have hsame : s2 = s1 := by
    simp only [g0, g1] at k1
    rw [h1] at k1
    exact (Option.some.inj k1).symm
  refine ⟨by rw [he], by rw [he, hcut, hsame], ?_⟩
  have hstep : bt_data_parse addr (el :: rest) s =
      if (eir_found el addr s).2 then bt_data_parse addr rest (eir_found el addr s).1
      else (eir_found el addr s).1 := rfl
  rw [hstep, he]
  rfl

theorem one_service_tag_per_payload_witness :
    (eir_found { type := BT_DATA_UUID16_ALL, data_len := 4, data := [15, 24, 10, 24] } "A"
      (scanAll (shift (reset State.init)) [beacon "A" (-60) 2])).2 = false ∧
    (eir_found { type := BT_DATA_UUID16_ALL, data_len := 4, data := [15, 24, 10, 24] } "A"
      (scanAll (shift (reset State.init)) [beacon "A" (-60) 2])).1.different_services = 1 ∧
    (eir_found { type := BT_DATA_UUID16_ALL, data_len := 4, data := [15, 24, 10, 24] } "A"
      (scanAll (shift (reset State.init)) [beacon "A" (-60) 2])).1.services_count = 1 ∧
    eir_found { type := BT_DATA_UUID16_ALL, data_len := 4, data := [15, 24, 10, 24] } "A"
        (scanAll (shift (reset State.init)) [beacon "A" (-60) 2])
      = eir_found { type := BT_DATA_UUID16_ALL, data_len := 2, data := [15, 24] } "A"
        (scanAll (shift (reset State.init)) [beacon "A" (-60) 2]) ∧
    (bt_data_parse "A"
        [{ type := BT_DATA_UUID16_ALL, data_len := 4, data := [15, 24, 10, 24] },
         { type := BT_DATA_TX_POWER, data_len := 1, data := [4] }]
        (scanAll (shift (reset State.init)) [beacon "A" (-60) 2])).txPower 0 = (0, 0) := by
  have h := one_service_tag_per_payload
    (scanAll (shift (reset State.init)) [beacon "A" (-60) 2]) "A"
    { type := BT_DATA_UUID16_ALL, data_len := 4, data := [15, 24, 10, 24] }
    [{ type := BT_DATA_TX_POWER, data_len := 1, data := [4] }]
    (by decide) (by decide) (by decide)
  refine ⟨h.1, by decide, by decide, h.2.1, ?_⟩
  rw [h.2.2]
  decide

/-! ## Class selection (claim 30) -/

theorem loop_invariant (output : Nat → ℚ) :
    ∀ n : Nat,
      ((loop output n).index = -1 ∧ (loop output n).probability = 0 ∧
        ∀ k, k < n → output k ≤ 0) ∨
      (∃ i : Nat, i < n ∧ (loop output n).index = (i : Int) ∧
        (loop output n).probability = output i ∧ 0 < output i ∧
        (∀ k, k < n → output k ≤ output i) ∧ (∀ k, k < i → output k < output i)) := by
  intro n
  induction n with
  | zero =>
    left
    exact ⟨rfl, rfl, fun k hk => absurd hk (Nat.not_lt_zero k)⟩
  | succ m ih =>
    have hstep : loop output (m + 1)
        = (if output m > (loop output m).probability then
            { index := (m : Int), probability := output m }
          else loop output m) := rfl
    rw [hstep]
    generalize loop output m = c at ih ⊢
    rcases ih with ⟨h1, h2, h3⟩ | ⟨i, hi, h1, h2, h3, h4, h5⟩
    · by_cases hgt : output m > c.probability
      · rw [if_pos hgt]
        rw [h2] at hgt
        right
        refine ⟨m, Nat.lt_succ_self m, rfl, rfl, hgt, ?_, ?_⟩
        · intro k hk
          by_cases e : k = m
          · rw [e]
          · exact le_of_lt (lt_of_le_of_lt (h3 k (by omega)) hgt)
        · intro k hk
          exact lt_of_le_of_lt (h3 k hk) hgt
      · rw [if_neg hgt]
        rw [h2] at hgt
        left
        refine ⟨h1, h2, ?_⟩
        intro k hk
        by_cases e : k = m
        · rw [e]; exact not_lt.1 hgt
        · exact h3 k (by omega)
    · by_cases hgt : output m > c.probability
      · rw [if_pos hgt]
        rw [h2] at hgt
        right
        refine ⟨m, Nat.lt_succ_self m, rfl, rfl, lt_trans h3 hgt, ?_, ?_⟩
        · intro k hk
          by_cases e : k = m
          · rw [e]
          · exact le_of_lt (lt_of_le_of_lt (h4 k (by omega)) hgt)
        · intro k hk
          exact lt_of_le_of_lt (h4 k hk) hgt
      · rw [if_neg hgt]
        rw [h2] at hgt
        right
        refine ⟨i, by omega, h1, h2, h3, ?_, h5⟩
        intro k hk
        by_cases e : k = m
        · rw [e]; exact not_lt.1 hgt
        · exact h4 k (by omega)

/-- C30.  For all output values and every number of environments, `loop`
stores either index -1 with probability 0, and then no output is strictly
positive, or an index `i < available_env_len` with probability `output[i]`,
where `output[i]` is strictly positive, at least as large as every other output
and strictly larger than every output before `i` (so `i` is the smallest such
index).  The stored index lies in [-1, available_env_len) and the stored
probability is not negative. -/
theorem class_selection (output : Nat → ℚ) (available_env_len : Nat) :
    (((loop output available_env_len).index = -1 ∧
        (loop output available_env_len).probability = 0 ∧
        ∀ k, k < available_env_len → output k ≤ 0) ∨
      (∃ i : Nat, i < available_env_len ∧
        (loop output available_env_len).index = (i : Int) ∧
        (loop output available_env_len).probability = output i ∧ 0 < output i ∧
        (∀ k, k < available_env_len → output k ≤ output i) ∧
        (∀ k, k < i → output k < output i))) ∧
    -1 ≤ (loop output available_env_len).index ∧
    (loop output available_env_len).index < (available_env_len : Int) ∧
    0 ≤ (loop output available_env_len).probability := by
  have h := loop_invariant output available_env_len
  refine ⟨h, ?_, ?_, ?_⟩
  · rcases h with ⟨h1, _, _⟩ | ⟨i, _, h1, _⟩
    · rw [h1]
    · rw [h1]; omega
  · rcases h with ⟨h1, _, _⟩ | ⟨i, hi, h1, _⟩
    · rw [h1]; omega
    · rw [h1]; omega
  · rcases h with ⟨_, h2, _⟩ | ⟨i, _, _, h2, h3, _⟩
    · rw [h2]
    · rw [h2]; exact le_of_lt h3

theorem class_selection_witness :
    (loop (fun i => [1 / 10, 7 / 10, 7 / 10, 1 / 5].getD i 0) 4).index = 1 ∧
    (loop (fun i => [1 / 10, 7 / 10, 7 / 10, 1 / 5].getD i 0) 4).probability = 7 / 10 ∧
    (loop (fun _ => 0) 4).index = -1 ∧
    -1 ≤ (loop (fun i => [1 / 10, 7 / 10, 7 / 10, 1 / 5].getD i 0) 4).index ∧
    0 ≤ (loop (fun i => [1 / 10, 7 / 10, 7 / 10, 1 / 5].getD i 0) 4).probability :=
  ⟨by norm_num [loop, forLoop], by norm_num [loop, forLoop], by norm_num [loop, forLoop],
   (class_selection (fun i => [1 / 10, 7 / 10, 7 / 10, 1 / 5].getD i 0) 4).2.1,
   (class_selection (fun i => [1 / 10, 7 / 10, 7 / 10, 1 / 5].getD i 0) 4).2.2.2⟩

/-! ## Service-count invariant (claim 28) -/

end EnvDetect
